import Mathlib

/-!
# FinPilot: portfolio ingestion and valuation

A shallow embedding of the portfolio pipeline of the FinPilot client
(`src/utils/csvUtils.js`, `src/store/portfolioSlice.js`,
`src/screens/DashboardScreen.js`, `src/screens/PortfolioUploadScreen.js`)
and the properties proved about it.

Conventions of the embedding:

* A JavaScript number is a `JSNum`: a finite value (an exact rational; the
  rounding and the overflow of IEEE doubles and the sign of zero are not
  modelled), `NaN`,
  `+Infinity` or `-Infinity`, with the arithmetic, comparison and truthiness
  rules of the language.
* Host services the code calls but does not define are parameters: the date
  parser behind `new Date(s)` (`dateOk s` says that the parsed date is not
  `Invalid Date`), the id generator `uuidv4` (the k-th call returns `uuid k`),
  the clock.
-/

namespace FinPilot

/-! ## JavaScript numbers -/

/-- A JavaScript number: finite, `NaN`, `+Infinity` or `-Infinity`. -/
inductive JSNum where
  | fin (q : ℚ)
  | nan
  | pinf
  | ninf
deriving DecidableEq

namespace JSNum

/-- The number `0`. -/
def zero : JSNum := fin 0

/-- Unary minus. -/
def neg : JSNum → JSNum
  | fin q => fin (-q)
  | nan => nan
  | pinf => ninf
  | ninf => pinf

/-- The operator `+` on numbers. The sum of two finite numbers is the exact
rational sum: it is not rounded and does not overflow to an infinity. -/
def add : JSNum → JSNum → JSNum
  | fin a, fin b => fin (a + b)
  | nan, _ => nan
  | _, nan => nan
  | pinf, ninf => nan
  | ninf, pinf => nan
  | pinf, _ => pinf
  | ninf, _ => ninf
  | fin _, pinf => pinf
  | fin _, ninf => ninf

/-- The operator `-` on numbers. -/
def sub (a b : JSNum) : JSNum := add a (neg b)

/-- The infinity of the sign of `s * t`, for `s` infinite of sign `pos` and a
finite non-zero or infinite `t` of sign `pos2`. -/
def signedInf (pos pos2 : Bool) : JSNum := if pos = pos2 then pinf else ninf

/-- The operator `*` on numbers. The product of two finite numbers is the
exact rational product: it is not rounded and does not overflow to an infinity
or underflow to 0. -/
def mul : JSNum → JSNum → JSNum
  | fin a, fin b => fin (a * b)
  | nan, _ => nan
  | _, nan => nan
  | pinf, fin b => if b = 0 then nan else signedInf true (decide (0 < b))
  | ninf, fin b => if b = 0 then nan else signedInf false (decide (0 < b))
  | fin a, pinf => if a = 0 then nan else signedInf (decide (0 < a)) true
  | fin a, ninf => if a = 0 then nan else signedInf (decide (0 < a)) false
  | pinf, pinf => pinf
  | pinf, ninf => ninf
  | ninf, pinf => ninf
  | ninf, ninf => pinf

/-- The operator `/` on numbers (a zero divisor is the positive zero). -/
def div : JSNum → JSNum → JSNum
  | fin a, fin b =>
      if b = 0 then (if a = 0 then nan else if 0 < a then pinf else ninf)
      else fin (a / b)
  | nan, _ => nan
  | _, nan => nan
  | fin _, pinf => fin 0
  | fin _, ninf => fin 0
  | pinf, fin b => if 0 ≤ b then pinf else ninf
  | ninf, fin b => if 0 ≤ b then ninf else pinf
  | pinf, pinf => nan
  | pinf, ninf => nan
  | ninf, pinf => nan
  | ninf, ninf => nan

instance : Add JSNum := ⟨add⟩
instance : Sub JSNum := ⟨sub⟩
instance : Mul JSNum := ⟨mul⟩
instance : Div JSNum := ⟨div⟩
instance : Neg JSNum := ⟨neg⟩

/-- The comparison `a < b`; false as soon as an operand is `NaN`. -/
def lt : JSNum → JSNum → Bool
  | fin a, fin b => decide (a < b)
  | nan, _ => false
  | _, nan => false
  | ninf, ninf => false
  | ninf, _ => true
  | pinf, _ => false
  | fin _, pinf => true
  | fin _, ninf => false

/-- The comparison `a <= b`; false as soon as an operand is `NaN`. -/
def le : JSNum → JSNum → Bool
  | fin a, fin b => decide (a ≤ b)
  | nan, _ => false
  | _, nan => false
  | ninf, _ => true
  | pinf, pinf => true
  | pinf, _ => false
  | fin _, pinf => true
  | fin _, ninf => false

/-- The comparison `a > b`. -/
def gt (a b : JSNum) : Bool := lt b a

/-- Truthiness of a number: `0` and `NaN` are falsy. -/
def truthy : JSNum → Bool
  | fin q => decide (q ≠ 0)
  | nan => false
  | pinf => true
  | ninf => true

/-- The global `isNaN` on a number. -/
def isNaN : JSNum → Bool
  | nan => true
  | _ => false

/-- A finite number. -/
def isFinite : JSNum → Bool
  | fin _ => true
  | _ => false

/-- The operator `a || b` on numbers. -/
def or (a b : JSNum) : JSNum := if truthy a then a else b

end JSNum

/-! ## Data model -/

/-- A portfolio position, as built by `parseCSV` and `handleManualSubmit`. -/
structure Holding where
  id : String
  ticker : String
  quantity : JSNum
  purchasePrice : JSNum
  purchaseDate : String
  currentPrice : JSNum
deriving DecidableEq

/-! ## csvUtils.js: the validator -/

/-- The function `isValidDate`: `new Date(dateString)` is not `Invalid Date`.
The host's date parser is the parameter `dateOk`. -/
def isValidDate (dateOk : String → Bool) (dateString : String) : Bool :=
  dateOk dateString

/-- Truthiness of a string: only the empty string is falsy. -/
def strTruthy (s : String) : Bool := s != ""

/-- The template literal `Row ${n}: ${what}`. -/
def rowMessage (n : Nat) (what : String) : String :=
  "Row " ++ toString n ++ ": " ++ what

/-- The body of the `forEach` callback of `validatePortfolioData`: the four
independent checks on one stock, each pushing one message on `errors`. -/
def validateStock (dateOk : String → Bool) (stock : Holding) (index : Nat)
    (errors : List String) : List String :=
  let errors :=
    if (!strTruthy stock.ticker) || stock.ticker.length == 0 then
      errors ++ [rowMessage (index + 1) "Missing ticker symbol"]
    else errors
  let errors :=
    if (!stock.quantity.truthy) || JSNum.le stock.quantity JSNum.zero then
      errors ++ [rowMessage (index + 1) "Invalid quantity"]
    else errors
  let errors :=
    if (!stock.purchasePrice.truthy) || JSNum.le stock.purchasePrice JSNum.zero then
      errors ++ [rowMessage (index + 1) "Invalid purchase price"]
    else errors
  let errors :=
    if !isValidDate dateOk stock.purchaseDate then
      errors ++ [rowMessage (index + 1) "Invalid purchase date"]
    else errors
  errors

/-- The loop `stocks.forEach((stock, index) => ...)` over the remaining stocks,
`index` being the index of the first of them. -/
def validateLoop (dateOk : String → Bool) : List Holding → Nat → List String → List String
  | [], _, errors => errors
  | stock :: rest, index, errors =>
      validateLoop dateOk rest (index + 1) (validateStock dateOk stock index errors)

/-- The function `validatePortfolioData`. -/
def validatePortfolioData (dateOk : String → Bool) (stocks : List Holding) : List String :=
  validateLoop dateOk stocks 0 []

/-- A Holding is valid: non-empty ticker, quantity > 0, purchasePrice > 0 and
a purchase date that parses (the invariant of the data model). -/
def Holding.valid (dateOk : String → Bool) (h : Holding) : Prop :=
  h.ticker ≠ "" ∧ JSNum.gt h.quantity JSNum.zero = true ∧
    JSNum.gt h.purchasePrice JSNum.zero = true ∧ dateOk h.purchaseDate = true

instance (dateOk : String → Bool) (h : Holding) : Decidable (h.valid dateOk) := by
  unfold Holding.valid; infer_instance

/-- The messages the contract of the validator asks for row `n` (1-based):
one per violated rule, in the order ticker, quantity, price, date. -/
def rowErrors (dateOk : String → Bool) (n : Nat) (h : Holding) : List String :=
  (if h.ticker = "" then [rowMessage n "Missing ticker symbol"] else []) ++
  (if JSNum.gt h.quantity JSNum.zero = true then [] else [rowMessage n "Invalid quantity"]) ++
  (if JSNum.gt h.purchasePrice JSNum.zero = true then []
    else [rowMessage n "Invalid purchase price"]) ++
  (if dateOk h.purchaseDate = true then [] else [rowMessage n "Invalid purchase date"])

/-- The messages the contract asks for a whole list: rows in list order. -/
def expectedErrors (dateOk : String → Bool) (stocks : List Holding) : List String :=
  (stocks.enumFrom 1).flatMap fun p => rowErrors dateOk p.1 p.2

/-- A date parser for examples: exactly the calendar dates `YYYY-MM-DD` with a
month in 01..12 and a day in 01..31 parse. -/
def sampleDateOk (s : String) : Bool :=
  match s.data with
  | [y1, y2, y3, y4, '-', m1, m2, '-', d1, d2] =>
      y1.isDigit && y2.isDigit && y3.isDigit && y4.isDigit &&
      m1.isDigit && m2.isDigit && d1.isDigit && d2.isDigit &&
      decide (1 ≤ (m1.toNat - 48) * 10 + (m2.toNat - 48)) &&
      decide ((m1.toNat - 48) * 10 + (m2.toNat - 48) ≤ 12) &&
      decide (1 ≤ (d1.toNat - 48) * 10 + (d2.toNat - 48)) &&
      decide ((d1.toNat - 48) * 10 + (d2.toNat - 48) ≤ 31)
  | _ => false

/-! ## DashboardScreen.js: the valuation functions -/

/-- A quote of the price map, as far as the valuation functions read it: the
field `currentPrice`, `none` when the fetched object has no such field. -/
structure Quote where
  currentPrice : Option JSNum
deriving DecidableEq

/-- The object `prices`: the quote stored under a ticker, if any. -/
abbrev PriceMap := String → Option Quote

/-- The expression `prices[stock.ticker]?.currentPrice || stock.purchasePrice`
that `calculateTotalPortfolioReturn`, `calculatePortfolioAllocation` and
`calculatePortfolioGainersLosers` each bind to `currentPrice`. -/
def currentPriceOf (prices : PriceMap) (stock : Holding) : JSNum :=
  match (prices stock.ticker).bind (fun q => q.currentPrice) with
  | some p => JSNum.or p stock.purchasePrice
  | none => stock.purchasePrice

/-- The `forEach` loop of `calculateTotalPortfolioReturn`, on the pair
`(totalCost, totalCurrentValue)`. -/
def totalsLoop (prices : PriceMap) : List Holding → JSNum × JSNum → JSNum × JSNum
  | [], acc => acc
  | stock :: rest, (totalCost, totalCurrentValue) =>
      let currentPrice := currentPriceOf prices stock
      let stockCost := stock.quantity * stock.purchasePrice
      let stockCurrentValue := stock.quantity * currentPrice
      totalsLoop prices rest (totalCost + stockCost, totalCurrentValue + stockCurrentValue)

/-- The function `calculateTotalPortfolioReturn`. -/
def calculateTotalPortfolioReturn (stocks : List Holding) (prices : PriceMap) : JSNum :=
  if stocks.length = 0 then JSNum.fin 0
  else
    let totals := totalsLoop prices stocks (JSNum.fin 0, JSNum.fin 0)
    let totalCost := totals.1
    let totalCurrentValue := totals.2
    ((totalCurrentValue - totalCost) / totalCost) * JSNum.fin 100

/-- What the chart entries take from the screen: the theme's text colour and
the texts of the successive values of `Math.random() * 360`. -/
structure ChartEnv where
  textColor : String
  hue : Nat → String

/-- An entry of the pie-chart data. -/
structure AllocationEntry where
  name : String
  value : JSNum
  percentage : JSNum
  color : String
  legendFontColor : String
  legendFontSize : Nat
deriving DecidableEq

/-- The function `calculatePortfolioAllocation`. -/
def calculatePortfolioAllocation (env : ChartEnv) (stocks : List Holding) (prices : PriceMap) :
    List AllocationEntry :=
  if stocks.length = 0 then []
  else
    let totalValue := stocks.foldl
      (fun total stock =>
        let currentPrice := currentPriceOf prices stock
        total + (stock.quantity * currentPrice))
      (JSNum.fin 0)
    stocks.enum.map fun p =>
      let stock := p.2
      let currentPrice := currentPriceOf prices stock
      let value := stock.quantity * currentPrice
      let percentage := (value / totalValue) * JSNum.fin 100
      { name := stock.ticker
        value := value
        percentage := percentage
        color := "hsl(" ++ env.hue p.1 ++ ", 70%, 50%)"
        legendFontColor := env.textColor
        legendFontSize := 12 }

/-- An element of `stockPerformance`. -/
structure StockPerformance where
  ticker : String
  quantity : JSNum
  purchasePrice : JSNum
  currentPrice : JSNum
  returnPercentage : JSNum
  gainLoss : JSNum
  currentValue : JSNum
deriving DecidableEq

/-- The callback of `stocks.map` in `calculatePortfolioGainersLosers`. -/
def stockPerformanceOf (prices : PriceMap) (stock : Holding) : StockPerformance :=
  let currentPrice := currentPriceOf prices stock
  let purchasePrice := stock.purchasePrice
  let returnPercentage := ((currentPrice - purchasePrice) / purchasePrice) * JSNum.fin 100
  let currentValue := stock.quantity * currentPrice
  let gainLoss := currentValue - (stock.quantity * purchasePrice)
  { ticker := stock.ticker
    quantity := stock.quantity
    purchasePrice := purchasePrice
    currentPrice := currentPrice
    returnPercentage := returnPercentage
    gainLoss := gainLoss
    currentValue := currentValue }

/-- The comparison `Array.prototype.sort` makes of `x` and `y`: `x` is placed
after `y` only when `comparefn(x, y) > 0` (a `NaN` result counts as `0`). -/
def notAfter {α : Type} (comparefn : α → α → JSNum) (x y : α) : Bool :=
  !(JSNum.gt (comparefn x y) JSNum.zero)

/-- Insertion of `x` in front of the first element it is not after. -/
def sortInsert {α : Type} (comparefn : α → α → JSNum) (x : α) : List α → List α
  | [] => [x]
  | y :: ys =>
      if notAfter comparefn x y then x :: y :: ys
      else y :: sortInsert comparefn x ys

/-- The method `Array.prototype.sort` with a comparator: a stable sort, here by
insertion. For a comparator that is a consistent ordering of the elements every
stable sort returns this list; for an inconsistent one the language leaves the
order to the host. -/
def arraySort {α : Type} (comparefn : α → α → JSNum) : List α → List α
  | [] => []
  | x :: xs => sortInsert comparefn x (arraySort comparefn xs)

/-- The result object of `calculatePortfolioGainersLosers`. -/
structure GainersLosers where
  gainers : List StockPerformance
  losers : List StockPerformance
deriving DecidableEq

/-- The function `calculatePortfolioGainersLosers`. -/
def calculatePortfolioGainersLosers (stocks : List Holding) (prices : PriceMap) :
    GainersLosers :=
  if stocks.length = 0 then { gainers := [], losers := [] }
  else
    let stockPerformance := stocks.map (stockPerformanceOf prices)
    let sorted := arraySort (fun a b => b.returnPercentage - a.returnPercentage) stockPerformance
    { gainers := (sorted.filter fun stock => JSNum.gt stock.returnPercentage JSNum.zero).take 3
      losers := (sorted.filter fun stock => JSNum.lt stock.returnPercentage JSNum.zero).take 3 }

/-- The sum of a list of numbers, `0 + x₁ + ... + xₙ`. -/
def JSNum.sum (l : List JSNum) : JSNum := l.foldl (fun acc x => acc + x) (JSNum.fin 0)

/-- The price map with one quote, of current price `p`, under ticker `t`. -/
def singleQuote (t : String) (p : JSNum) : PriceMap :=
  fun k => if k = t then some { currentPrice := some p } else none

/-- The empty price map (no quote fetched). -/
def noQuotes : PriceMap := fun _ => none

/-- The price map holding, for each listed ticker, a quote of the listed
current price. -/
def quotesOf (l : List (String × JSNum)) : PriceMap :=
  fun k => (l.lookup k).map fun p => { currentPrice := some p }

/-- Four holdings of one share each, all bought at 100. -/
def fourLosers : List Holding :=
  [⟨"1", "A", JSNum.fin 1, JSNum.fin 100, "2024-01-01", JSNum.fin 0⟩,
   ⟨"2", "B", JSNum.fin 1, JSNum.fin 100, "2024-01-01", JSNum.fin 0⟩,
   ⟨"3", "C", JSNum.fin 1, JSNum.fin 100, "2024-01-01", JSNum.fin 0⟩,
   ⟨"4", "D", JSNum.fin 1, JSNum.fin 100, "2024-01-01", JSNum.fin 0⟩]

/-- Quotes under which the holdings of `fourLosers` have lost 10, 20, 30 and
40 per cent. -/
def fourQuotes : PriceMap :=
  quotesOf [("A", JSNum.fin 90), ("B", JSNum.fin 80), ("C", JSNum.fin 70), ("D", JSNum.fin 60)]

/-! ## Strings -/

/-- The pieces of `cs` between the occurrences of `sep`, `cur` holding (in
reverse) the characters of the piece being read. -/
def splitAux (sep : Char) : List Char → List Char → List (List Char)
  | [], cur => [cur.reverse]
  | c :: cs, cur =>
      if c = sep then cur.reverse :: splitAux sep cs []
      else splitAux sep cs (c :: cur)

/-- The method `s.split(sep)` for a separator of one character. -/
def strSplit (s : String) (sep : Char) : List String :=
  (splitAux sep s.data []).map String.mk

/-- White space and line terminators, the characters `trim` strips. -/
def isJsSpace (c : Char) : Bool :=
  let n := c.toNat
  n = 9 || n = 10 || n = 11 || n = 12 || n = 13 || n = 32 || n = 160 || n = 5760 ||
  (decide (8192 ≤ n) && decide (n ≤ 8202)) || n = 8232 || n = 8233 || n = 8239 ||
  n = 8287 || n = 12288 || n = 65279

/-- The method `s.trim()`. -/
def strTrim (s : String) : String :=
  String.mk ((s.data.dropWhile isJsSpace).reverse.dropWhile isJsSpace).reverse

/-- The method `s.toUpperCase()`; the letters outside ASCII are left as they
are. -/
def toUpperCase (s : String) : String := String.mk (s.data.map Char.toUpper)

/-- The method `s.toLowerCase()`; the letters outside ASCII are left as they
are. -/
def toLowerCase (s : String) : String := String.mk (s.data.map Char.toLower)

/-- The value of a string of decimal digits. -/
def digitsToNat (ds : List Char) : Nat :=
  ds.foldl (fun n c => 10 * n + (c.toNat - 48)) 0

/-- A numeric literal read by `parseFloat`: `Infinity` with its sign, or a
decimal `±mantissa × 10^exp`. -/
inductive NumLit where
  | infinity (neg : Bool)
  | decimal (neg : Bool) (mantissa : Nat) (exp : Int)
deriving DecidableEq

/-- The value of the exponent part `e±digits` at the head of `cs`, 0 when
there is none. -/
def scanExponent (cs : List Char) : Int :=
  match cs with
  | c :: rest =>
      if c = 'e' ∨ c = 'E' then
        match rest with
        | '+' :: r =>
            if r.takeWhile Char.isDigit = [] then 0
            else (digitsToNat (r.takeWhile Char.isDigit) : Int)
        | '-' :: r =>
            if r.takeWhile Char.isDigit = [] then 0
            else -(digitsToNat (r.takeWhile Char.isDigit) : Int)
        | r =>
            if r.takeWhile Char.isDigit = [] then 0
            else (digitsToNat (r.takeWhile Char.isDigit) : Int)
      else 0
  | [] => 0

/-- The unsigned literal that is the longest prefix of `body`, if any. -/
def scanUnsigned (neg : Bool) (body : List Char) : Option NumLit :=
  if "Infinity".data.isPrefixOf body then some (NumLit.infinity neg)
  else
    let ip := body.takeWhile Char.isDigit
    match body.dropWhile Char.isDigit with
    | '.' :: r =>
        let fp := r.takeWhile Char.isDigit
        if ip = [] ∧ fp = [] then none
        else some (NumLit.decimal neg (digitsToNat (ip ++ fp))
          (scanExponent (r.dropWhile Char.isDigit) - (fp.length : Int)))
    | r1 =>
        if ip = [] then none
        else some (NumLit.decimal neg (digitsToNat ip) (scanExponent r1))

/-- The longest prefix of `cs` that is a decimal literal (`StrDecimalLiteral`),
if any. -/
def scanDecimal (cs : List Char) : Option NumLit :=
  match cs with
  | '+' :: r => scanUnsigned false r
  | '-' :: r => scanUnsigned true r
  | _ => scanUnsigned false cs

/-- The number a literal denotes. -/
def NumLit.toNum : NumLit → JSNum
  | NumLit.infinity false => JSNum.pinf
  | NumLit.infinity true => JSNum.ninf
  | NumLit.decimal neg m e => JSNum.fin ((if neg then -1 else 1) * (m : ℚ) * (10 : ℚ) ^ e)

/-- The global `parseFloat` on a string: the number denoted by the longest
numeric prefix after the leading white space, `NaN` when there is none. -/
def parseFloat (s : String) : JSNum :=
  match scanDecimal (s.data.dropWhile isJsSpace) with
  | none => JSNum.nan
  | some lit => lit.toNum

/-- The global `parseFloat` on an array element that may be `undefined`. -/
def parseFloatArg : Option String → JSNum
  | none => JSNum.nan
  | some s => parseFloat s

/-! ## csvUtils.js: the parser -/

/-- The method `headers.indexOf(name)`, `none` standing for `-1`. -/
def indexOf (headers : List String) (name : String) : Option Nat :=
  if headers.indexOf name < headers.length then some (headers.indexOf name) else none

/-- The expression `values[headers.indexOf(name)]`, `none` standing for
`undefined`. -/
def column (headers values : List String) (name : String) : Option String :=
  match indexOf headers name with
  | some i => values.get? i
  | none => none

/-- The callback of `lines.slice(1).map` in `parseCSV`, for a line and the id
`uuidv4()` returns for it. `typeError` is the message of the `TypeError` the
host raises when `toUpperCase` is called on `undefined`. -/
def parseLine (dateOk : String → Bool) (typeError : String) (headers : List String)
    (id : String) (line : String) : Except String Holding :=
  let values := (strSplit line ',').map strTrim
  match column headers values "ticker" with
  | none => Except.error typeError
  | some ticker =>
      let quantity := parseFloatArg (column headers values "quantity")
      let purchasePrice := parseFloatArg (column headers values "price")
      if quantity.isNaN || purchasePrice.isNaN then
        Except.error "Invalid numeric values in CSV"
      else
        match column headers values "date" with
        | none => Except.error "Invalid date format in CSV"
        | some purchaseDate =>
            if !isValidDate dateOk purchaseDate then
              Except.error "Invalid date format in CSV"
            else
              Except.ok
                { id := id
                  ticker := toUpperCase ticker
                  quantity := quantity
                  purchasePrice := purchasePrice
                  purchaseDate := purchaseDate
                  currentPrice := JSNum.fin 0 }

/-- The call `lines.slice(1).map(...)` on the remaining lines, `k` ids having
been drawn from `uuidv4`; the first line that throws ends the call. -/
def parseLines (dateOk : String → Bool) (uuidv4 : Nat → String) (typeError : String)
    (headers : List String) : List String → Nat → Except String (List Holding)
  | [], _ => Except.ok []
  | line :: rest, k =>
      match parseLine dateOk typeError headers (uuidv4 k) line with
      | Except.error e => Except.error e
      | Except.ok stock =>
          match parseLines dateOk uuidv4 typeError headers rest (k + 1) with
          | Except.error e => Except.error e
          | Except.ok stocks => Except.ok (stock :: stocks)

/-- The names `parseCSV` requires in the first line. -/
def requiredHeaders : List String := ["ticker", "quantity", "price", "date"]

/-- The function `parseCSV`: the candidates, or the message of the error it
throws. The k-th call of `uuidv4` returns `uuidv4 k`. -/
def parseCSV (dateOk : String → Bool) (uuidv4 : Nat → String) (typeError : String)
    (csvData : String) : Except String (List Holding) :=
  let lines := strSplit csvData '\n'
  let headers := (strSplit (lines.headD "") ',').map strTrim
  let missingHeaders := requiredHeaders.filter fun header =>
    !(headers.contains (toLowerCase header))
  let body : Except String (List Holding) :=
    if missingHeaders.length > 0 then
      Except.error ("Missing required headers: " ++ ", ".intercalate missingHeaders)
    else
      parseLines dateOk uuidv4 typeError headers (lines.drop 1) 0
  match body with
  | Except.error message => Except.error ("CSV parsing error: " ++ message)
  | Except.ok stocks => Except.ok stocks

/-! ## portfolioSlice.js: the store -/

/-- The state of the portfolio slice. -/
structure PortfolioState where
  stocks : List Holding
  totalValue : JSNum
  dailyChange : JSNum
  loading : Bool
  error : Option String
  lastUpdated : Option String
deriving DecidableEq

/-- The constant `initialState`. -/
def initialState : PortfolioState :=
  { stocks := [], totalValue := JSNum.fin 0, dailyChange := JSNum.fin 0, loading := false,
    error := none, lastUpdated := none }

/-- The helper `calculateTotalValue`. -/
def calculateTotalValue (stocks : List Holding) : JSNum :=
  stocks.foldl
    (fun total stock => total + (stock.quantity * (JSNum.or stock.currentPrice stock.purchasePrice)))
    (JSNum.fin 0)

/-- The reducer `addStock`; `now` is `new Date().toISOString()`. -/
def addStock (state : PortfolioState) (payload : Holding) (now : String) : PortfolioState :=
  let stocks := state.stocks ++ [payload]
  { state with stocks := stocks, totalValue := calculateTotalValue stocks,
               lastUpdated := some now }

/-- The reducer `clearPortfolio`. -/
def clearPortfolio (state : PortfolioState) (now : String) : PortfolioState :=
  { state with stocks := [], totalValue := JSNum.fin 0, dailyChange := JSNum.fin 0,
               lastUpdated := some now }

/-- The case `processCSVUpload.pending`. -/
def processCSVUploadPending (state : PortfolioState) : PortfolioState :=
  { state with loading := true }

/-- The case `processCSVUpload.fulfilled`, the payload being what `parseCSV`
returned. -/
def processCSVUploadFulfilled (state : PortfolioState) (payload : List Holding)
    (now : String) : PortfolioState :=
  { state with loading := false, stocks := payload,
               totalValue := calculateTotalValue payload, lastUpdated := some now }

/-- The case `processCSVUpload.rejected`, with the message of the error. -/
def processCSVUploadRejected (state : PortfolioState) (message : String) : PortfolioState :=
  { state with loading := false, error := some message }

/-- The thunk `processCSVUpload` dispatched on a state: the pending case, then
the fulfilled case on the candidates `parseCSV` returns, or the rejected case
on the message of its error. -/
def processCSVUpload (dateOk : String → Bool) (uuidv4 : Nat → String) (typeError : String)
    (now : String) (state : PortfolioState) (csvData : String) : PortfolioState :=
  match parseCSV dateOk uuidv4 typeError csvData with
  | Except.ok parsedData =>
      processCSVUploadFulfilled (processCSVUploadPending state) parsedData now
  | Except.error message =>
      processCSVUploadRejected (processCSVUploadPending state) message

/-- The header of a file: the trimmed names of its first line. -/
def headersOf (header : String) : List String := (strSplit header ',').map strTrim

/-- A data row the parser's contract covers: it has a ticker field, quantity
and price fields that read as numbers, and a date field that parses. -/
def goodRow (dateOk : String → Bool) (headers : List String) (line : String) : Prop :=
  (∃ t, column headers ((strSplit line ',').map strTrim) "ticker" = some t) ∧
  parseFloatArg (column headers ((strSplit line ',').map strTrim) "quantity") ≠ JSNum.nan ∧
  parseFloatArg (column headers ((strSplit line ',').map strTrim) "price") ≠ JSNum.nan ∧
  (∃ d, column headers ((strSplit line ',').map strTrim) "date" = some d ∧ dateOk d = true)

/-- The candidate the parser's contract asks for a data row: built from the
columns named ticker, quantity, price and date. -/
def candidateOf (headers : List String) (id : String) (line : String) : Holding :=
  { id := id
    ticker := toUpperCase ((column headers ((strSplit line ',').map strTrim) "ticker").getD "")
    quantity := parseFloatArg (column headers ((strSplit line ',').map strTrim) "quantity")
    purchasePrice := parseFloatArg (column headers ((strSplit line ',').map strTrim) "price")
    purchaseDate := (column headers ((strSplit line ',').map strTrim) "date").getD ""
    currentPrice := JSNum.fin 0 }

/-- A file with a header line and one row, whose quantity is negative. -/
def negativeQuantityCsv : String := "ticker,quantity,price,date\nAAPL,-5,10,2024-01-01"

/-- A file whose header names the columns in another order, with two rows. -/
def reorderedCsv : String := "date,ticker,price,quantity\n2024-01-01,aapl,150,10\n2024-02-03,xyz,0,-5"

/-- An id generator for examples: the k-th id is the numeral of k. -/
def sampleUuid (k : Nat) : String := toString k

/-- Two holdings of one share each bought at 100, for the example of a
gainer and a loser. -/
def gainerAndLoser : List Holding :=
  [⟨"1", "A", JSNum.fin 1, JSNum.fin 100, "2024-01-01", JSNum.fin 0⟩,
   ⟨"2", "B", JSNum.fin 1, JSNum.fin 100, "2024-01-01", JSNum.fin 0⟩]

/-- The trimmed fields of a data line. -/
def valuesOf (line : String) : List String := (strSplit line ',').map strTrim

/-- The first line of a text, which `parseCSV` reads as the header. -/
def firstLine (csvData : String) : String := (strSplit csvData '\n').headD ""

/-- The lines of a text after the first, which `parseCSV` reads as data rows. -/
def dataLines (csvData : String) : List String := (strSplit csvData '\n').drop 1

/-- A file whose quantity field is a number followed by letters. -/
def trailingLettersCsv : String := "ticker,quantity,price,date\nAAPL,10abc,150,2024-01-01"

/-- A file whose quantity field is empty. -/
def emptyQuantityCsv : String := "ticker,quantity,price,date\nAAPL,,150,2024-01-01"

/-- A file whose row has a fifth field. -/
def extraFieldCsv : String := "ticker,quantity,price,date\nAAPL,10,150,2024-01-01,extra"

/-- A file whose row has three fields only. -/
def shortRowCsv : String := "ticker,quantity,price,date\nAAPL,10,150"

/-- A file whose row has a date that does not parse. -/
def badDateCsv : String := "ticker,quantity,price,date\nXYZ,5,10,bad-date"

/-- A data row with a ticker field and quantity and price fields that read as
numbers. -/
def numericRow (headers : List String) (line : String) : Prop :=
  (∃ t, column headers (valuesOf line) "ticker" = some t) ∧
  parseFloatArg (column headers (valuesOf line) "quantity") ≠ JSNum.nan ∧
  parseFloatArg (column headers (valuesOf line) "price") ≠ JSNum.nan

/-- A data row whose date field is missing or does not parse as a date. -/
def dateRejected (dateOk : String → Bool) (headers : List String) (line : String) : Prop :=
  ∀ d, column headers (valuesOf line) "date" = some d → dateOk d = false

/-- A file with a lower-case header and one row. -/
def lowerCsv : String := "ticker,quantity,price,date\nAAPL,10,150,2024-01-01"

/-- The file `lowerCsv` with capitalised column names. -/
def capitalisedCsv : String := "Ticker,Quantity,Price,Date\nAAPL,10,150,2024-01-01"

/-- A file whose header lacks the columns quantity and price. -/
def twoColumnCsv : String := "ticker,date\nAAPL,2024-01-01"

/-- The reducer `removeStock`, the payload being an id. -/
def removeStock (state : PortfolioState) (payload : String) (now : String) : PortfolioState :=
  let stocks := state.stocks.filter fun stock => stock.id != payload
  { state with stocks := stocks, totalValue := calculateTotalValue stocks,
               lastUpdated := some now }

/-- The reducer `updateStock`: `findIndex` gives the position of the first
stock with the id of the payload, `none` standing for `-1`. -/
def updateStock (state : PortfolioState) (payload : Holding) (now : String) : PortfolioState :=
  match state.stocks.findIdx? (fun stock => stock.id == payload.id) with
  | none => state
  | some index =>
      let stocks := state.stocks.set index payload
      { state with stocks := stocks, totalValue := calculateTotalValue stocks,
                   lastUpdated := some now }

/-- The actions that change the list of holdings. -/
inductive StoreAction where
  | addStock (payload : Holding)
  | removeStock (payload : String)
  | updateStock (payload : Holding)
  | clearPortfolio
  | processCSVUploadFulfilled (payload : List Holding)

/-- The slice reducer on these actions, `now` being the time of the dispatch. -/
def reduce (state : PortfolioState) (now : String) : StoreAction → PortfolioState
  | StoreAction.addStock payload => addStock state payload now
  | StoreAction.removeStock payload => removeStock state payload now
  | StoreAction.updateStock payload => updateStock state payload now
  | StoreAction.clearPortfolio => clearPortfolio state now
  | StoreAction.processCSVUploadFulfilled payload => processCSVUploadFulfilled state payload now

/-- The states reachable from `initialState` by dispatching such actions. -/
inductive Reachable : PortfolioState → Prop where
  | init : Reachable initialState
  | step (state : PortfolioState) (now : String) (action : StoreAction) :
      Reachable state → Reachable (reduce state now action)

/-- The price the store values a holding at, in the words of the contract:
`currentPrice`, or `purchasePrice` when `currentPrice` is 0 or not a number. -/
def storedPrice (s : Holding) : JSNum :=
  if s.currentPrice = JSNum.fin 0 ∨ s.currentPrice = JSNum.nan then s.purchasePrice
  else s.currentPrice

/-- The price of a holding under the rule `currentPrice if currentPrice > 0,
else purchasePrice`. -/
def positivePrice (s : Holding) : JSNum :=
  if JSNum.gt s.currentPrice JSNum.zero = true then s.currentPrice else s.purchasePrice

/-- A holding whose current price is negative. -/
def negativePriced : Holding :=
  ⟨"1", "AAPL", JSNum.fin 1, JSNum.fin 10, "2024-01-01", JSNum.fin (-1)⟩

/-! ## PortfolioUploadScreen.js: the check of a picked file -/

/-- A non-empty string of decimal digits. -/
def allDigits (ds : List Char) : Bool := !ds.isEmpty && ds.all Char.isDigit

/-- An exponent part `e±digits`, as a whole. -/
def isExponentPart : List Char → Bool
  | c :: rest =>
      (c == 'e' || c == 'E') &&
      (match rest with
       | '+' :: ds => allDigits ds
       | '-' :: ds => allDigits ds
       | ds => allDigits ds)
  | [] => false

/-- An unsigned decimal literal (`StrUnsignedDecimalLiteral`), as a whole. -/
def isUnsignedDecimal (body : List Char) : Bool :=
  body == "Infinity".data ||
  (match body.dropWhile Char.isDigit with
   | [] => !(body.takeWhile Char.isDigit).isEmpty
   | '.' :: r =>
       (!(body.takeWhile Char.isDigit).isEmpty || !(r.takeWhile Char.isDigit).isEmpty) &&
       ((r.dropWhile Char.isDigit).isEmpty || isExponentPart (r.dropWhile Char.isDigit))
   | r1 => !(body.takeWhile Char.isDigit).isEmpty && isExponentPart r1)

/-- A decimal literal (`StrDecimalLiteral`), as a whole. -/
def isStrDecimalLiteral : List Char → Bool
  | '+' :: r => isUnsignedDecimal r
  | '-' :: r => isUnsignedDecimal r
  | cs => isUnsignedDecimal cs

/-- A hexadecimal digit. -/
def isHexDigit (c : Char) : Bool :=
  c.isDigit || (decide (97 ≤ c.toNat) && decide (c.toNat ≤ 102)) ||
    (decide (65 ≤ c.toNat) && decide (c.toNat ≤ 70))

/-- A binary, octal or hexadecimal integer literal, as a whole. -/
def isNonDecimalInteger : List Char → Bool
  | '0' :: x :: ds =>
      !ds.isEmpty &&
      (((x == 'x' || x == 'X') && ds.all isHexDigit) ||
       ((x == 'o' || x == 'O') && ds.all (fun c => decide (48 ≤ c.toNat) && decide (c.toNat ≤ 55))) ||
       ((x == 'b' || x == 'B') && ds.all (fun c => c == '0' || c == '1')))
  | _ => false

/-- The global `isNaN` on a string: the string, converted to a number, is
`NaN`; that is, once trimmed it is neither empty nor a numeric literal. -/
def isNaNString (s : String) : Bool :=
  !((strTrim s).data.isEmpty || isStrDecimalLiteral (strTrim s).data ||
    isNonDecimalInteger (strTrim s).data)

/-- The callback of `lines.every` in `handleFilePick`; `Date.parse` is the
date parser of the host. -/
def fileLineOk (dateOk : String → Bool) (line : String) : Bool :=
  match strSplit line ',' with
  | [p0, p1, p2, p3] =>
      (strTrim p0 != "") && !isNaNString p1 && !isNaNString p2 && dateOk p3
  | _ => false

/-- The value `isValid` of `handleFilePick` for the text of the picked file. -/
def fileIsValid (dateOk : String → Bool) (text : String) : Bool :=
  (strSplit (strTrim text) '\n').all (fileLineOk dateOk)

/-- The characters of a trimmed string. -/
def trimChars (l : List Char) : List Char :=
  ((l.dropWhile isJsSpace).reverse.dropWhile isJsSpace).reverse

/-- The one-line file the upload screen documents. -/
def documentedFile : String := "AAPL,10,175.50,2024-01-15"

/-- A line that supplies exactly the four positional fields, the second and
third reading as numbers. -/
def positionalLine (line : String) : Prop :=
  ∃ t q p d, valuesOf line = [t, q, p, d] ∧ parseFloat q ≠ JSNum.nan ∧
    parseFloat p ≠ JSNum.nan

/-- A headerless text of two positional lines. -/
def headerlessCsv : String := "AAPL,10,150,2024-01-01\nmsft,5,300,2024-02-01"

/-- A store state with one holding, for examples. -/
def oneHoldingState : PortfolioState :=
  addStock initialState ⟨"1", "AAPL", JSNum.fin 10, JSNum.fin 150, "2024-01-01", JSNum.fin 0⟩
    "2024-06-01T00:00:00.000Z"

/-- The rational value of a finite number, 0 for the others. -/
def JSNum.toRat : JSNum → ℚ
  | JSNum.fin q => q
  | _ => 0

/-! ## DashboardScreen.js: the refresh cycle -/

/-- An article of the market news. -/
structure NewsItem where
  id : String
  title : String
  source : String
  date : String
  url : String
  summary : String
deriving DecidableEq

/-- The state of the dashboard screen. -/
structure DashboardState where
  refreshing : Bool
  loading : Bool
  error : Option String
  marketNews : List NewsItem
  stockPrices : PriceMap

/-- The call `Promise.all(promises)` on promises that have settled: the values
when all are fulfilled, else the reason of a rejected one (the first in list
order; on the host, the first to reject). -/
def promiseAll {α : Type} : List (Except String α) → Except String (List α)
  | [] => Except.ok []
  | Except.error e :: _ => Except.error e
  | Except.ok v :: rest =>
      match promiseAll rest with
      | Except.error e => Except.error e
      | Except.ok vs => Except.ok (v :: vs)

/-- The loop `pricesData.forEach((price, index) => ...)` of `loadPortfolioData`
on the remaining stocks and their price data, `newStockPrices` being the map
filled so far; a falsy price throws. -/
def fillPrices : List (Holding × Option Quote) → PriceMap → Except String PriceMap
  | [], newStockPrices => Except.ok newStockPrices
  | (stock, price) :: rest, newStockPrices =>
      match price with
      | none => Except.error ("Failed to get price data for " ++ stock.ticker)
      | some p =>
          fillPrices rest (fun k => if k = stock.ticker then some p else newStockPrices k)

/-- The `try` block of `loadPortfolioData`: the state it leaves, or the
message of the error it throws. The i-th call of `fetchStockPrice`, for the
ticker `t`, settles as `fetchStockPrice i t`; a fulfilled value of `none` is a
falsy one. -/
def refreshTry (stocks : List Holding)
    (fetchStockPrice : Nat → String → Except String (Option Quote))
    (fetchMarketNews : Except String (Option (List NewsItem)))
    (state : DashboardState) : Except String DashboardState :=
  match promiseAll (stocks.enum.map fun p => fetchStockPrice p.1 p.2.ticker) with
  | Except.error message => Except.error message
  | Except.ok pricesData =>
      match fillPrices (stocks.zip pricesData) noQuotes with
      | Except.error message => Except.error message
      | Except.ok newStockPrices =>
          match fetchMarketNews with
          | Except.error message => Except.error message
          | Except.ok none => Except.error "No market news data available"
          | Except.ok (some news) =>
              if news.length = 0 then Except.error "No market news data available"
              else Except.ok { state with stockPrices := newStockPrices,
                                          marketNews := news.take 5 }

/-- The function `loadPortfolioData` of the dashboard, on the stocks of the
store. -/
def loadPortfolioData (stocks : List Holding)
    (fetchStockPrice : Nat → String → Except String (Option Quote))
    (fetchMarketNews : Except String (Option (List NewsItem)))
    (state : DashboardState) : DashboardState :=
  let started := { state with loading := true, error := none }
  let settled :=
    match refreshTry stocks fetchStockPrice fetchMarketNews started with
    | Except.ok s => s
    | Except.error message =>
        { started with error := some ("Failed to load real-time data: " ++ message),
                       stockPrices := noQuotes, marketNews := [] }
  { settled with loading := false, refreshing := false }

/-- A quote fetch that failed or gave no data, for one of the stocks. -/
def quoteFetchFailed (stocks : List Holding)
    (fetchStockPrice : Nat → String → Except String (Option Quote)) : Prop :=
  ∃ i stock, stocks.get? i = some stock ∧
    ((∃ e, fetchStockPrice i stock.ticker = Except.error e) ∨
      fetchStockPrice i stock.ticker = Except.ok none)

/-- A dashboard state holding stale quotes and news, for examples. -/
def staleDashboard : DashboardState :=
  { refreshing := true, loading := false, error := none,
    marketNews := [⟨"1", "Old", "Wire", "2024-01-01T00:00:00.000Z", "u", "s"⟩],
    stockPrices := singleQuote "AAPL" (JSNum.fin 170) }

/-- Two fetches: the one for AAPL gives a quote, the one for MSFT fails. -/
def failingFetch (_ : Nat) (ticker : String) : Except String (Option Quote) :=
  if ticker = "AAPL" then Except.ok (some { currentPrice := some (JSNum.fin 175) })
  else Except.error ("Failed to fetch stock price for " ++ ticker ++ ": Network Error")

/-! ## portfolioSlice.js: persistence -/

/-- A value of JSON; its numbers are finite. -/
inductive Json where
  | null
  | bool (b : Bool)
  | num (q : ℚ)
  | str (s : String)
  | arr (items : List Json)
  | obj (fields : List (String × Json))

/-- The property `v[key]` of a parsed value, `none` standing for `undefined`
(also when `v` is no object). -/
def Json.field (v : Json) (key : String) : Option Json :=
  match v with
  | Json.obj fields => fields.lookup key
  | _ => none

/-- What `JSON.stringify` makes of a number: `NaN` and the infinities become
`null`. -/
def numberJson : JSNum → Json
  | JSNum.fin q => Json.num q
  | _ => Json.null

/-- What `JSON.stringify` makes of a holding. -/
def holdingJson (h : Holding) : Json :=
  Json.obj [("id", Json.str h.id), ("ticker", Json.str h.ticker),
    ("quantity", numberJson h.quantity), ("purchasePrice", numberJson h.purchasePrice),
    ("purchaseDate", Json.str h.purchaseDate), ("currentPrice", numberJson h.currentPrice)]

/-- The object `portfolioToSave` of `savePortfolio`, which is also the payload
of `savePortfolio.fulfilled`. -/
structure SavedPortfolio where
  stocks : List Holding
  totalValue : JSNum
  dailyChange : JSNum
  lastUpdated : Option String
deriving DecidableEq

/-- The object `portfolioToSave` built from the state. -/
def portfolioToSave (portfolio : PortfolioState) : SavedPortfolio :=
  { stocks := portfolio.stocks, totalValue := portfolio.totalValue,
    dailyChange := portfolio.dailyChange, lastUpdated := portfolio.lastUpdated }

/-- What `JSON.stringify` makes of `portfolioToSave`. -/
def snapshotJson (p : SavedPortfolio) : Json :=
  Json.obj [("stocks", Json.arr (p.stocks.map holdingJson)),
    ("totalValue", numberJson p.totalValue), ("dailyChange", numberJson p.dailyChange),
    ("lastUpdated", match p.lastUpdated with
      | none => Json.null
      | some s => Json.str s)]

/-- The case `savePortfolio.fulfilled`. -/
def savePortfolioFulfilled (state : PortfolioState) (payload : SavedPortfolio) :
    PortfolioState :=
  { state with stocks := payload.stocks, totalValue := payload.totalValue,
               lastUpdated := payload.lastUpdated }

/-- What a dispatch of `savePortfolio` leaves: the result `unwrap()` returns
or the message of the error it throws, the state of the slice, and the string
stored under the key `portfolio`. -/
structure SaveResult where
  outcome : Except String SavedPortfolio
  state : PortfolioState
  kv : Option String

/-- The thunk `savePortfolio` dispatched on a state. `jsonText` is the text
`JSON.stringify` writes for a value; `writeError` is the message of the error
`AsyncStorage.setItem` rejects with, `none` when the write succeeds. The slice
has no case for `savePortfolio.rejected`. -/
def savePortfolio (jsonText : Json → String) (writeError : Option String)
    (state : PortfolioState) (kv : Option String) : SaveResult :=
  match writeError with
  | some error => { outcome := Except.error error, state := state, kv := kv }
  | none =>
      { outcome := Except.ok (portfolioToSave state)
        state := savePortfolioFulfilled state (portfolioToSave state)
        kv := some (jsonText (snapshotJson (portfolioToSave state))) }

/-- The object `loadPortfolio` returns when nothing can be read. -/
def emptySnapshot : Json :=
  Json.obj [("stocks", Json.arr []), ("totalValue", Json.num 0), ("dailyChange", Json.num 0),
    ("lastUpdated", Json.null)]

/-- The payload creator of `loadPortfolio`. `read` is the outcome of
`AsyncStorage.getItem('portfolio')`: the message of its error, `none` for
`null`, or the stored string; `jsonParse` is `JSON.parse`, `none` when it
throws. -/
def loadPortfolioPayload (jsonParse : String → Option Json)
    (read : Except String (Option String)) : Json :=
  match read with
  | Except.error _ => emptySnapshot
  | Except.ok none => emptySnapshot
  | Except.ok (some storedPortfolio) =>
      if strTruthy storedPortfolio then
        match jsonParse storedPortfolio with
        | some value => value
        | none => emptySnapshot
      else emptySnapshot

/-- A number read from a payload. -/
def decodeNumber : Option Json → Option JSNum
  | some (Json.num q) => some (JSNum.fin q)
  | _ => none

/-- A string read from a payload. -/
def decodeString : Option Json → Option String
  | some (Json.str s) => some s
  | _ => none

/-- The `lastUpdated` read from a payload: a string or `null`. -/
def decodeLastUpdated : Option Json → Option (Option String)
  | some (Json.str s) => some (some s)
  | some Json.null => some none
  | _ => none

/-- A holding read from a payload: an object with the six fields of the data
model. -/
def decodeHolding (v : Json) : Option Holding :=
  match decodeString (v.field "id"), decodeString (v.field "ticker"),
    decodeNumber (v.field "quantity"), decodeNumber (v.field "purchasePrice"),
    decodeString (v.field "purchaseDate"), decodeNumber (v.field "currentPrice") with
  | some id, some ticker, some quantity, some purchasePrice, some purchaseDate,
      some currentPrice =>
      some { id := id, ticker := ticker, quantity := quantity, purchasePrice := purchasePrice,
             purchaseDate := purchaseDate, currentPrice := currentPrice }
  | _, _, _, _, _, _ => none

/-- The holdings read from a list of values. -/
def decodeHoldings : List Json → Option (List Holding)
  | [] => some []
  | v :: rest =>
      match decodeHolding v, decodeHoldings rest with
      | some h, some hs => some (h :: hs)
      | _, _ => none

/-- The `stocks` read from a payload: an array of holdings. -/
def decodeStocks : Option Json → Option (List Holding)
  | some (Json.arr items) => decodeHoldings items
  | _ => none

/-- The case `loadPortfolio.pending`. -/
def loadPortfolioPending (state : PortfolioState) : PortfolioState :=
  { state with loading := true }

/-- The case `loadPortfolio.fulfilled`, which copies `stocks`, `totalValue`
and `lastUpdated` from the payload: the state it leaves when these are values
of the data model, `none` when they are not (the reducer throws on a payload
that is no object, or stores values that are no holdings, number or date). -/
def loadPortfolioFulfilled (state : PortfolioState) (payload : Json) : Option PortfolioState :=
  match decodeStocks (payload.field "stocks"), decodeNumber (payload.field "totalValue"),
    decodeLastUpdated (payload.field "lastUpdated") with
  | some stocks, some totalValue, some lastUpdated =>
      some { state with loading := false, stocks := stocks, totalValue := totalValue,
                        lastUpdated := lastUpdated }
  | _, _, _ => none

/-- The thunk `loadPortfolio` dispatched on a state: the pending case, then
the fulfilled case on what the payload creator returns; the creator catches
every error, so the case `loadPortfolio.rejected` is never taken. -/
def loadPortfolio (jsonParse : String → Option Json) (read : Except String (Option String))
    (state : PortfolioState) : Option PortfolioState :=
  loadPortfolioFulfilled (loadPortfolioPending state) (loadPortfolioPayload jsonParse read)

/-- The empty Portfolio that a state is initialised to. -/
def emptyPortfolio (state : PortfolioState) : PortfolioState :=
  { state with loading := false, stocks := [], totalValue := JSNum.fin 0, lastUpdated := none }

/-- The text `JSON.stringify` writes for the snapshot of `oneHoldingState`. -/
def oneHoldingText : String :=
  "\x7b\"stocks\":[\x7b\"id\":\"1\",\"ticker\":\"AAPL\",\"quantity\":10,\"purchasePrice\":150," ++
  "\"purchaseDate\":\"2024-01-01\",\"currentPrice\":0\x7d],\"totalValue\":1500," ++
  "\"dailyChange\":0,\"lastUpdated\":\"2024-06-01T00:00:00.000Z\"\x7d"

/-- A `JSON.stringify` for examples, used on the snapshot of `oneHoldingState`
only. -/
def sampleJsonText (_ : Json) : String := oneHoldingText

/-- A `JSON.parse` for examples: it reads `oneHoldingText`, `null` and the
empty object, and throws on every other string. -/
def sampleJsonParse (s : String) : Option Json :=
  if s = oneHoldingText then some (snapshotJson (portfolioToSave oneHoldingState))
  else if s = "null" then some Json.null
  else if s = "\x7b\x7d" then some (Json.obj [])
  else none

/-! ## PortfolioUploadScreen.js: manual entry -/

/-- A row of the manual-entry form: the four text inputs. -/
structure ManualEntry where
  ticker : String
  quantity : String
  price : String
  date : String
deriving DecidableEq

/-- The stocks `handleManualSubmit` makes of the rows; `ids k` is the id
generated for row `k` from the clock and `Math.random`. -/
def manualStocks (ids : Nat → String) (manualEntries : List ManualEntry) : List Holding :=
  manualEntries.enum.map fun p =>
    { id := ids p.1
      ticker := toUpperCase p.2.ticker
      quantity := parseFloat p.2.quantity
      purchasePrice := parseFloat p.2.price
      purchaseDate := p.2.date
      currentPrice := JSNum.fin 0 }

/-- An action of the portfolio slice dispatched by the screen. -/
inductive Dispatched where
  | clearPortfolio
  | addStock (payload : Holding)
  | savePortfolio
deriving DecidableEq

/-- The loop `stocks.forEach(stock => dispatch(addStock(stock)))`; `clock k`
is the time of the `k`-th dispatch. -/
def addStocks (clock : Nat → String) : List Holding → Nat → PortfolioState → PortfolioState
  | [], _, state => state
  | stock :: rest, k, state => addStocks clock rest (k + 1) (addStock state stock (clock k))

/-- What `handleManualSubmit` leaves: the state of the slice, the string under
the key `portfolio`, the screen's `validationErrors`, the actions dispatched in
order, whether the screen navigated to the dashboard, and the message of the
alert shown. -/
structure SubmitResult where
  state : PortfolioState
  kv : Option String
  validationErrors : List String
  dispatched : List Dispatched
  navigated : Bool
  alert : Option String

/-- The handler `handleManualSubmit` on the rows of the form;
`validationErrors` is the screen's list before the call. -/
def handleManualSubmit (dateOk : String → Bool) (ids : Nat → String) (clock : Nat → String)
    (jsonText : Json → String) (writeError : Option String)
    (manualEntries : List ManualEntry) (validationErrors : List String)
    (state : PortfolioState) (kv : Option String) : SubmitResult :=
  let stocks := manualStocks ids manualEntries
  let errors := validatePortfolioData dateOk stocks
  if errors.length > 0 then
    { state := state, kv := kv, validationErrors := errors, dispatched := [],
      navigated := false, alert := none }
  else
    let cleared := clearPortfolio state (clock 0)
    let added := addStocks clock stocks 1 cleared
    let saved := savePortfolio jsonText writeError added kv
    let dispatched :=
      Dispatched.clearPortfolio :: stocks.map Dispatched.addStock ++ [Dispatched.savePortfolio]
    match saved.outcome with
    | Except.ok _ =>
        { state := saved.state, kv := saved.kv, validationErrors := validationErrors,
          dispatched := dispatched, navigated := true, alert := none }
    | Except.error message =>
        { state := saved.state, kv := saved.kv, validationErrors := validationErrors,
          dispatched := dispatched, navigated := false,
          alert := some (if strTruthy message then message else "Error saving portfolio data.") }

/-- A form with a good row and a row without ticker and with a negative
quantity. -/
def badEntries : List ManualEntry :=
  [⟨"aapl", "10", "150", "2024-01-01"⟩, ⟨"", "-5", "300", "2024-02-01"⟩]

/-- A form with one good row. -/
def goodEntries : List ManualEntry := [⟨"aapl", "10", "150", "2024-01-01"⟩]

/-! ## csvUtils.js: the generator -/

/-- The method `items.join(sep)`; an item that is `undefined` (`none`) is
written as the empty string. -/
def arrayJoin (sep : String) : List (Option String) → String
  | [] => ""
  | [item] => item.getD ""
  | item :: next :: rest => item.getD "" ++ sep ++ arrayJoin sep (next :: rest)

/-- The expression `entry[header]` on a holding, as `join` writes it: the
property of that name, a number being written by `numberToString`, and `none`
for a name that is no property of a holding (`undefined`). -/
def Holding.property (numberToString : JSNum → String) (entry : Holding) (header : String) :
    Option String :=
  if header = "id" then some entry.id
  else if header = "ticker" then some entry.ticker
  else if header = "quantity" then some (numberToString entry.quantity)
  else if header = "purchasePrice" then some (numberToString entry.purchasePrice)
  else if header = "purchaseDate" then some entry.purchaseDate
  else if header = "currentPrice" then some (numberToString entry.currentPrice)
  else none

/-- The function `generateCSV` on a list of holdings; `numberToString` is the
conversion of a number to a string. -/
def generateCSV (numberToString : JSNum → String) (portfolio : List Holding) : String :=
  let headers := ["ticker", "quantity", "price", "date"]
  let csvRows := [arrayJoin "," (headers.map some)] ++
    portfolio.map fun entry =>
      arrayJoin "," (headers.map fun header => entry.property numberToString header)
  arrayJoin "\n" (csvRows.map some)

/-- The digits after the decimal point of `r / d`, for `r < d`, at most `fuel`
of them. -/
def fractionDigits : Nat → Nat → Nat → List Char
  | 0, _, _ => []
  | fuel + 1, r, d =>
      if r = 0 then [] else Char.ofNat (48 + r * 10 / d) :: fractionDigits fuel (r * 10 % d) d

/-- A conversion of numbers to strings for examples: the decimal expansion,
cut after 17 digits of the fraction; it is what JavaScript writes for the
integers and short decimals of the examples. -/
def sampleNumberToString : JSNum → String
  | JSNum.nan => "NaN"
  | JSNum.pinf => "Infinity"
  | JSNum.ninf => "-Infinity"
  | JSNum.fin q =>
      (if q.num < 0 then "-" else "") ++ toString (q.num.natAbs / q.den) ++
        (if q.num.natAbs % q.den = 0 then ""
         else "." ++ String.mk (fractionDigits 17 (q.num.natAbs % q.den) q.den))

/-- The holdings `parseCSV` returns for the file `lowerCsv`. -/
def parsedHoldings : List Holding :=
  [⟨"0", "AAPL", JSNum.fin 10, JSNum.fin 150, "2024-01-01", JSNum.fin 0⟩]

/-- The row `generateCSV` writes for a holding. -/
def generatedRow (numberToString : JSNum → String) (entry : Holding) : String :=
  entry.ticker ++ "," ++ numberToString entry.quantity ++ ",,"

/-! ## PortfolioUploadScreen.js: file upload -/

/-- What the document picker and the read of the picked file give
`handleFilePick`: the picker rejects, the user cancels, the result has no
asset, the read of the file rejects, or the text of the file. -/
inductive Picked where
  | failed
  | canceled
  | noAsset
  | unreadable
  | file (text : String)
deriving DecidableEq

/-- What `handleFilePick` leaves: the state of the slice, the string under the
key `portfolio`, whether the screen navigated to the dashboard, and the title
of the alert shown. -/
structure PickResult where
  state : PortfolioState
  kv : Option String
  navigated : Bool
  alert : Option String

/-- The handler `handleFilePick`: the shape check on the text, then
`processCSVUpload` and `savePortfolio`, each unwrapped, then the navigation;
an error of either thunk is caught by the inner `catch`. -/
def handleFilePick (dateOk : String → Bool) (uuidv4 : Nat → String) (typeError now : String)
    (jsonText : Json → String) (writeError : Option String) (picked : Picked)
    (state : PortfolioState) (kv : Option String) : PickResult :=
  match picked with
  | Picked.failed => { state := state, kv := kv, navigated := false, alert := some "Error" }
  | Picked.canceled => { state := state, kv := kv, navigated := false, alert := none }
  | Picked.noAsset => { state := state, kv := kv, navigated := false, alert := none }
  | Picked.unreadable =>
      { state := state, kv := kv, navigated := false, alert := some "Error Reading File" }
  | Picked.file text =>
      if !fileIsValid dateOk text then
        { state := state, kv := kv, navigated := false, alert := some "Invalid Format" }
      else
        let uploaded := processCSVUpload dateOk uuidv4 typeError now state text
        match parseCSV dateOk uuidv4 typeError text with
        | Except.error _ =>
            { state := uploaded, kv := kv, navigated := false,
              alert := some "Error Reading File" }
        | Except.ok _ =>
            let saved := savePortfolio jsonText writeError uploaded kv
            match saved.outcome with
            | Except.ok _ =>
                { state := saved.state, kv := saved.kv, navigated := true, alert := none }
            | Except.error _ =>
                { state := saved.state, kv := saved.kv, navigated := false,
                  alert := some "Error Reading File" }

/-- Three holdings of one share each: A and C bought at 100, B at 0. -/
def unpricedHolding : List Holding :=
  [⟨"1", "A", JSNum.fin 1, JSNum.fin 100, "2024-01-01", JSNum.fin 0⟩,
   ⟨"2", "B", JSNum.fin 1, JSNum.fin 0, "2024-01-01", JSNum.fin 0⟩,
   ⟨"3", "C", JSNum.fin 1, JSNum.fin 100, "2024-01-01", JSNum.fin 0⟩]

/-- Quotes for A and C only: 110 and 120. -/
def unpricedQuotes : PriceMap := quotesOf [("A", JSNum.fin 110), ("C", JSNum.fin 120)]

/-- A holding of quantity `Infinity`, as `parseFloat` reads the entry
`Infinity`, bought at 1. -/
def unboundedHolding : Holding :=
  ⟨"1", "A", JSNum.pinf, JSNum.fin 1, "2024-01-01", JSNum.fin 0⟩

/-- A share bought at 150 and a share sold short at 150. -/
def longAndShort : List Holding :=
  [⟨"1", "AAPL", JSNum.fin 1, JSNum.fin 150, "2024-01-01", JSNum.fin 0⟩,
   ⟨"2", "MSFT", JSNum.fin (-1), JSNum.fin 150, "2024-01-01", JSNum.fin 0⟩]

/-- A store state with no holding and a total of 5, as `loadPortfolio` leaves
it when the stored snapshot says so. -/
def inconsistentState : PortfolioState :=
  { stocks := [], totalValue := JSNum.fin 5, dailyChange := JSNum.fin 0, loading := false,
    error := none, lastUpdated := none }

/-! # Theorems -/

/-! ## Lemmas on the validator -/

theorem quantity_rule_eq (q : JSNum) :
    ((!q.truthy) || JSNum.le q JSNum.zero) = !(JSNum.gt q JSNum.zero) := by
  cases q with
  | fin x =>
    rcases lt_trichotomy x 0 with h | h | h
    · have h1 : x ≠ 0 := ne_of_lt h
      have h2 : ¬ (0 < x) := not_lt.mpr (le_of_lt h)
      simp [JSNum.truthy, JSNum.le, JSNum.gt, JSNum.lt, JSNum.zero, h1, h2, le_of_lt h]
    · simp [JSNum.truthy, JSNum.le, JSNum.gt, JSNum.lt, JSNum.zero, h]
    · have h1 : x ≠ 0 := ne_of_gt h
      have h2 : ¬ (x ≤ 0) := not_le.mpr h
      simp [JSNum.truthy, JSNum.le, JSNum.gt, JSNum.lt, JSNum.zero, h1, h2, h]
  | nan => simp [JSNum.truthy, JSNum.le, JSNum.gt, JSNum.lt, JSNum.zero]
  | pinf => simp [JSNum.truthy, JSNum.le, JSNum.gt, JSNum.lt, JSNum.zero]
  | ninf => simp [JSNum.truthy, JSNum.le, JSNum.gt, JSNum.lt, JSNum.zero]

theorem ticker_rule_eq (t : String) :
    ((!strTruthy t) || t.length == 0) = decide (t = "") := by
  by_cases h : t = ""
  · subst h; decide
  · have h1 : strTruthy t = true := by simp [strTruthy, h]
    have h2 : t.length ≠ 0 := by
      intro h0
      apply h
      have h3 : t.data = [] := List.length_eq_zero.mp h0
      cases t
      simp_all
    simp [h1, h, h2]

theorem validateStock_eq (dateOk : String → Bool) (stock : Holding) (index : Nat)
    (errors : List String) :
    validateStock dateOk stock index errors
      = errors ++ rowErrors dateOk (index + 1) stock := by
  unfold validateStock rowErrors isValidDate
  simp only [ticker_rule_eq, quantity_rule_eq]
  by_cases h1 : stock.ticker = "" <;>
  cases h2 : JSNum.gt stock.quantity JSNum.zero <;>
  cases h3 : JSNum.gt stock.purchasePrice JSNum.zero <;>
  cases h4 : dateOk stock.purchaseDate <;>
  simp [h1]

theorem validateLoop_eq (dateOk : String → Bool) (stocks : List Holding) :
    ∀ (index : Nat) (errors : List String),
      validateLoop dateOk stocks index errors
        = errors ++ (stocks.enumFrom (index + 1)).flatMap fun p => rowErrors dateOk p.1 p.2 := by
  induction stocks with
  | nil => intro index errors; simp [validateLoop]
  | cons s rest ih =>
    intro index errors
    simp [validateLoop, ih, validateStock_eq, List.enumFrom]

theorem validatePortfolioData_eq_expected (dateOk : String → Bool) (stocks : List Holding) :
    validatePortfolioData dateOk stocks = expectedErrors dateOk stocks := by
  simp [validatePortfolioData, expectedErrors, validateLoop_eq]

theorem rowErrors_eq_nil_iff (dateOk : String → Bool) (n : Nat) (h : Holding) :
    rowErrors dateOk n h = [] ↔ h.valid dateOk := by
  unfold rowErrors Holding.valid
  by_cases h1 : h.ticker = "" <;>
  by_cases h2 : JSNum.gt h.quantity JSNum.zero = true <;>
  by_cases h3 : JSNum.gt h.purchasePrice JSNum.zero = true <;>
  by_cases h4 : dateOk h.purchaseDate = true <;>
  simp [h1, h2, h3, h4]

theorem expectedErrors_eq_nil_iff (dateOk : String → Bool) (stocks : List Holding) :
    expectedErrors dateOk stocks = [] ↔ ∀ h ∈ stocks, h.valid dateOk := by
  unfold expectedErrors
  rw [List.flatMap_eq_nil_iff]
  constructor
  · intro hall h hmem
    obtain ⟨i, hi, hget⟩ := List.getElem_of_mem hmem
    have hm : (i + 1, h) ∈ stocks.enumFrom 1 := by
      rw [List.mk_mem_enumFrom_iff_le_and_getElem?_sub]
      refine ⟨by omega, ?_⟩
      simp [List.getElem?_eq_getElem hi, hget]
    exact (rowErrors_eq_nil_iff dateOk (i + 1) h).mp (hall _ hm)
  · intro hall p hp
    have hmem : p.2 ∈ stocks := by
      have h1 := List.mem_enumFrom hp
      exact h1.2.2 ▸ List.getElem_mem _
    exact (rowErrors_eq_nil_iff dateOk p.1 p.2).mpr (hall _ hmem)

/-! ## The validator: claims C1 and C2 -/

/-- C1: `validatePortfolioData` returns the empty list if and only if every
candidate has a non-empty ticker, a quantity > 0, a purchase price > 0 and a
purchase date that parses to a valid date. -/
theorem validatePortfolioData_eq_nil_iff (dateOk : String → Bool) (stocks : List Holding) :
    validatePortfolioData dateOk stocks = [] ↔
      ∀ h ∈ stocks, h.ticker ≠ "" ∧ JSNum.gt h.quantity JSNum.zero = true ∧
        JSNum.gt h.purchasePrice JSNum.zero = true ∧
        isValidDate dateOk h.purchaseDate = true := by
  rw [validatePortfolioData_eq_expected, expectedErrors_eq_nil_iff]
  rfl

/-- C2: `validatePortfolioData` returns, for rows in list order and numbered
from 1, exactly one message per violated rule of the row, in the order ticker,
quantity, purchase price, purchase date, and nothing for a row satisfying all
rules; on the candidates (AAPL, 10, 150, 2024-01-01), (XYZ, -5, 10, bad-date)
the result is the two messages of row 2. -/
theorem validatePortfolioData_messages (dateOk : String → Bool) (stocks : List Holding) :
    validatePortfolioData dateOk stocks
        = (stocks.enumFrom 1).flatMap (fun p => rowErrors dateOk p.1 p.2) ∧
    (∀ n h, h.valid dateOk → rowErrors dateOk n h = []) ∧
    (∀ id1 id2 cp1 cp2, dateOk "2024-01-01" = true → dateOk "bad-date" = false →
      validatePortfolioData dateOk
          [⟨id1, "AAPL", JSNum.fin 10, JSNum.fin 150, "2024-01-01", cp1⟩,
           ⟨id2, "XYZ", JSNum.fin (-5), JSNum.fin 10, "bad-date", cp2⟩]
        = ["Row 2: Invalid quantity", "Row 2: Invalid purchase date"]) := by
  refine ⟨validatePortfolioData_eq_expected dateOk stocks, ?_, ?_⟩
  · intro n h hv
    exact (rowErrors_eq_nil_iff dateOk n h).mpr hv
  · intro id1 id2 cp1 cp2 h1 h2
    rw [validatePortfolioData_eq_expected]
    have e1 : rowMessage 2 "Invalid quantity" = "Row 2: Invalid quantity" := by decide
    have e2 : rowMessage 2 "Invalid purchase date" = "Row 2: Invalid purchase date" := by
      decide
    have s1 : ("AAPL" : String) ≠ "" := by decide
    have s2 : ("XYZ" : String) ≠ "" := by decide
    simp [expectedErrors, List.enumFrom, rowErrors, JSNum.gt, JSNum.lt, JSNum.zero, h1, h2,
      e1, e2, s1, s2]
    norm_num

/-- C2, at a concrete date parser: the one of the examples accepts 2024-01-01
and rejects bad-date, and the two candidates give the two messages of row 2. -/
theorem validatePortfolioData_messages_witness :
    sampleDateOk "2024-01-01" = true ∧ sampleDateOk "bad-date" = false ∧
    validatePortfolioData sampleDateOk
        [⟨"0", "AAPL", JSNum.fin 10, JSNum.fin 150, "2024-01-01", JSNum.fin 0⟩,
         ⟨"1", "XYZ", JSNum.fin (-5), JSNum.fin 10, "bad-date", JSNum.fin 0⟩]
      = ["Row 2: Invalid quantity", "Row 2: Invalid purchase date"] :=
  ⟨by decide, by decide,
    (validatePortfolioData_messages sampleDateOk []).2.2 "0" "1" (JSNum.fin 0) (JSNum.fin 0)
      (by decide) (by decide)⟩

/-! ## Arithmetic of finite numbers -/

@[simp] theorem JSNum.fin_add_fin (a b : ℚ) : JSNum.fin a + JSNum.fin b = JSNum.fin (a + b) :=
  rfl

@[simp] theorem JSNum.fin_mul_fin (a b : ℚ) : JSNum.fin a * JSNum.fin b = JSNum.fin (a * b) :=
  rfl

@[simp] theorem JSNum.fin_sub_fin (a b : ℚ) : JSNum.fin a - JSNum.fin b = JSNum.fin (a - b) := by
  show JSNum.add (JSNum.fin a) (JSNum.neg (JSNum.fin b)) = _
  simp [JSNum.add, JSNum.neg, sub_eq_add_neg]

theorem JSNum.fin_div_fin (a : ℚ) {b : ℚ} (hb : b ≠ 0) :
    JSNum.fin a / JSNum.fin b = JSNum.fin (a / b) := by
  show JSNum.div (JSNum.fin a) (JSNum.fin b) = _
  simp [JSNum.div, hb]

theorem JSNum.isFinite_iff (x : JSNum) : x.isFinite = true ↔ ∃ q, x = JSNum.fin q := by
  cases x <;> simp [JSNum.isFinite]

/-! ## Total return: claim C4 -/

theorem totalsLoop_eq (prices : PriceMap) (stocks : List Holding) :
    ∀ c v : JSNum, totalsLoop prices stocks (c, v)
      = (stocks.foldl (fun acc s => acc + s.quantity * s.purchasePrice) c,
         stocks.foldl (fun acc s => acc + s.quantity * currentPriceOf prices s) v) := by
  induction stocks with
  | nil => intro c v; rfl
  | cons s rest ih => intro c v; simp [totalsLoop, ih]

theorem JSNum.sum_map {α : Type} (f : α → JSNum) (l : List α) :
    JSNum.sum (l.map f) = l.foldl (fun acc s => acc + f s) (JSNum.fin 0) := by
  simp [JSNum.sum, List.foldl_map]

theorem calculateTotalPortfolioReturn_formula (stocks : List Holding) (prices : PriceMap)
    (h : stocks ≠ []) :
    calculateTotalPortfolioReturn stocks prices
      = ((JSNum.sum (stocks.map fun s => s.quantity * currentPriceOf prices s)
            - JSNum.sum (stocks.map fun s => s.quantity * s.purchasePrice))
          / JSNum.sum (stocks.map fun s => s.quantity * s.purchasePrice)) * JSNum.fin 100 := by
  have hlen : stocks.length ≠ 0 := by
    intro h0; exact h (List.length_eq_zero.mp h0)
  simp only [calculateTotalPortfolioReturn, hlen, if_false, totalsLoop_eq, JSNum.sum_map]

/-- C4: for a non-empty list of holdings `calculateTotalPortfolioReturn` is
(Σ quantity×effectivePrice − Σ quantity×purchasePrice) / (Σ quantity×purchasePrice) × 100,
and it is 0 for the empty list; 10 AAPL bought at 150 and quoted at 175 have
current value 1750, cost basis 1500 and total return 250/1500×100, which is
16.67 to two decimals. -/
theorem calculateTotalPortfolioReturn_eq (stocks : List Holding) (prices : PriceMap)
    (h : stocks ≠ []) :
    calculateTotalPortfolioReturn stocks prices
      = ((JSNum.sum (stocks.map fun s => s.quantity * currentPriceOf prices s)
            - JSNum.sum (stocks.map fun s => s.quantity * s.purchasePrice))
          / JSNum.sum (stocks.map fun s => s.quantity * s.purchasePrice)) * JSNum.fin 100 ∧
    calculateTotalPortfolioReturn [] prices = JSNum.fin 0 ∧
    (∀ id date cp,
      let aapl : Holding := ⟨id, "AAPL", JSNum.fin 10, JSNum.fin 150, date, cp⟩
      let quotes := singleQuote "AAPL" (JSNum.fin 175)
      JSNum.sum ([aapl].map fun s => s.quantity * currentPriceOf quotes s) = JSNum.fin 1750 ∧
      JSNum.sum ([aapl].map fun s => s.quantity * s.purchasePrice) = JSNum.fin 1500 ∧
      calculateTotalPortfolioReturn [aapl] quotes = JSNum.fin (250 / 1500 * 100) ∧
      |(250 / 1500 * 100 : ℚ) - 16.67| < 0.005) := by
  refine ⟨calculateTotalPortfolioReturn_formula stocks prices h, rfl, ?_⟩
  intro id date cp
  have hq : currentPriceOf (singleQuote "AAPL" (JSNum.fin 175))
      ⟨id, "AAPL", JSNum.fin 10, JSNum.fin 150, date, cp⟩ = JSNum.fin 175 := by
    simp [currentPriceOf, singleQuote, JSNum.or, JSNum.truthy]
  have h1500 : (1500 : ℚ) ≠ 0 := by norm_num
  refine ⟨?_, ?_, ?_, ?_⟩
  · simp only [List.map, hq, JSNum.sum, List.foldl, JSNum.fin_add_fin, JSNum.fin_mul_fin]
    norm_num
  · simp only [List.map, JSNum.sum, List.foldl, JSNum.fin_add_fin, JSNum.fin_mul_fin]
    norm_num
  · rw [calculateTotalPortfolioReturn_formula _ _ (by simp)]
    simp only [List.map, hq, JSNum.sum, List.foldl, JSNum.fin_add_fin, JSNum.fin_mul_fin,
      JSNum.fin_sub_fin]
    have e1 : (0 + 10 * 150 : ℚ) = 1500 := by norm_num
    rw [e1, JSNum.fin_div_fin _ h1500, JSNum.fin_mul_fin]
    norm_num
  · rw [abs_lt]; constructor <;> norm_num

/-- C4, at a concrete portfolio: 10 AAPL bought at 150 and quoted at 175 with
5 MSFT bought at 300 and not quoted return 250/3000×100. -/
theorem calculateTotalPortfolioReturn_eq_witness :
    ([⟨"1", "AAPL", JSNum.fin 10, JSNum.fin 150, "2024-01-01", JSNum.fin 0⟩,
      ⟨"2", "MSFT", JSNum.fin 5, JSNum.fin 300, "2024-01-02", JSNum.fin 0⟩] : List Holding) ≠ [] ∧
    calculateTotalPortfolioReturn
      [⟨"1", "AAPL", JSNum.fin 10, JSNum.fin 150, "2024-01-01", JSNum.fin 0⟩,
       ⟨"2", "MSFT", JSNum.fin 5, JSNum.fin 300, "2024-01-02", JSNum.fin 0⟩]
      (singleQuote "AAPL" (JSNum.fin 175)) = JSNum.fin (250 / 3000 * 100) := by
  refine ⟨by simp, ?_⟩
  have hne : ("MSFT" : String) ≠ "AAPL" := by decide
  have h3000 : (3000 : ℚ) ≠ 0 := by norm_num
  rw [(calculateTotalPortfolioReturn_eq _ (singleQuote "AAPL" (JSNum.fin 175)) (by simp)).1]
  simp only [List.map, currentPriceOf, singleQuote, hne, if_true, if_false, Option.bind,
    JSNum.or, JSNum.truthy, JSNum.sum, List.foldl, JSNum.fin_add_fin, JSNum.fin_mul_fin,
    JSNum.fin_sub_fin]
  norm_num
  rw [JSNum.fin_div_fin _ h3000, JSNum.fin_mul_fin]
  norm_num

/-! ## Allocation: claim C7 -/

theorem calculatePortfolioAllocation_cons (env : ChartEnv) (s : Holding) (rest : List Holding)
    (prices : PriceMap) :
    calculatePortfolioAllocation env (s :: rest) prices
      = (s :: rest).enum.map fun p =>
          { name := p.2.ticker
            value := p.2.quantity * currentPriceOf prices p.2
            percentage := ((p.2.quantity * currentPriceOf prices p.2)
              / JSNum.sum ((s :: rest).map fun t => t.quantity * currentPriceOf prices t))
              * JSNum.fin 100
            color := "hsl(" ++ env.hue p.1 ++ ", 70%, 50%)"
            legendFontColor := env.textColor
            legendFontSize := 12 } := by
  simp only [calculatePortfolioAllocation, List.length_cons, Nat.succ_ne_zero, if_false,
    JSNum.sum_map]

theorem map_enumFrom_snd {α β : Type} (f : α → β) (l : List α) :
    ∀ n, (l.enumFrom n).map (fun p => f p.2) = l.map f := by
  induction l with
  | nil => intro n; rfl
  | cons a l ih => intro n; simp [List.enumFrom, ih]

/-- C7: for a non-empty list of holdings `calculatePortfolioAllocation`
returns one entry per holding, in holding order, with name = ticker,
value = quantity × effectivePrice and percentage = value / (Σ of all values) × 100
(in particular when the total value is not zero); for the empty list it returns
the empty sequence. -/
theorem calculatePortfolioAllocation_eq (env : ChartEnv) (stocks : List Holding)
    (prices : PriceMap) (h : stocks ≠ []) :
    (calculatePortfolioAllocation env stocks prices).length = stocks.length ∧
    (calculatePortfolioAllocation env stocks prices).map
        (fun e => (e.name, e.value, e.percentage))
      = stocks.map (fun s =>
          (s.ticker, s.quantity * currentPriceOf prices s,
            ((s.quantity * currentPriceOf prices s)
              / JSNum.sum (stocks.map fun t => t.quantity * currentPriceOf prices t))
              * JSNum.fin 100)) ∧
    calculatePortfolioAllocation env [] prices = [] := by
  cases stocks with
  | nil => exact absurd rfl h
  | cons s rest =>
    rw [calculatePortfolioAllocation_cons]
    refine ⟨by simp, ?_, rfl⟩
    rw [List.map_map]
    exact map_enumFrom_snd (fun t : Holding =>
      (t.ticker, t.quantity * currentPriceOf prices t,
        ((t.quantity * currentPriceOf prices t)
          / JSNum.sum ((s :: rest).map fun u => u.quantity * currentPriceOf prices u))
          * JSNum.fin 100)) (s :: rest) 0

/-- C7, at a concrete portfolio: 10 AAPL quoted at 175 and 5 MSFT valued at
their purchase price 350 each weigh 50 % of the total value 3500. -/
theorem calculatePortfolioAllocation_eq_witness :
    ([⟨"1", "AAPL", JSNum.fin 10, JSNum.fin 150, "2024-01-01", JSNum.fin 0⟩,
      ⟨"2", "MSFT", JSNum.fin 5, JSNum.fin 350, "2024-01-02", JSNum.fin 0⟩] : List Holding) ≠ [] ∧
    (calculatePortfolioAllocation ⟨"#000000", fun _ => "0"⟩
      [⟨"1", "AAPL", JSNum.fin 10, JSNum.fin 150, "2024-01-01", JSNum.fin 0⟩,
       ⟨"2", "MSFT", JSNum.fin 5, JSNum.fin 350, "2024-01-02", JSNum.fin 0⟩]
      (singleQuote "AAPL" (JSNum.fin 175))).map (fun e => (e.name, e.value, e.percentage))
      = [("AAPL", JSNum.fin 1750, JSNum.fin 50), ("MSFT", JSNum.fin 1750, JSNum.fin 50)] := by
  refine ⟨by simp, ?_⟩
  have hne : ("MSFT" : String) ≠ "AAPL" := by decide
  have h3500 : (3500 : ℚ) ≠ 0 := by norm_num
  rw [(calculatePortfolioAllocation_eq ⟨"#000000", fun _ => "0"⟩ _
    (singleQuote "AAPL" (JSNum.fin 175)) (by simp)).2.1]
  simp only [List.map, currentPriceOf, singleQuote, hne, if_true, if_false, Option.bind,
    JSNum.or, JSNum.truthy, JSNum.sum, List.foldl, JSNum.fin_add_fin, JSNum.fin_mul_fin]
  norm_num
  rw [JSNum.fin_div_fin _ h3500, JSNum.fin_mul_fin]
  norm_num

/-! ## Zero divisors: claim C8 -/

/-- C8 fails as stated: one holding of quantity 0 bought at 150 has total cost
basis 0 and total value 0, yet `calculateTotalPortfolioReturn` returns `NaN`,
not 0, and `calculatePortfolioAllocation` returns one entry, of percentage
`NaN`, not the empty sequence. -/
theorem zero_divisor_not_guarded :
    JSNum.sum (([⟨"1", "AAPL", JSNum.fin 0, JSNum.fin 150, "2024-01-01", JSNum.fin 0⟩] :
      List Holding).map fun s => s.quantity * s.purchasePrice) = JSNum.fin 0 ∧
    calculateTotalPortfolioReturn
      [⟨"1", "AAPL", JSNum.fin 0, JSNum.fin 150, "2024-01-01", JSNum.fin 0⟩] noQuotes
      = JSNum.nan ∧
    JSNum.sum (([⟨"1", "AAPL", JSNum.fin 0, JSNum.fin 150, "2024-01-01", JSNum.fin 0⟩] :
      List Holding).map fun s => s.quantity * currentPriceOf noQuotes s) = JSNum.fin 0 ∧
    (calculatePortfolioAllocation ⟨"#000000", fun _ => "0"⟩
      [⟨"1", "AAPL", JSNum.fin 0, JSNum.fin 150, "2024-01-01", JSNum.fin 0⟩] noQuotes).map
        (fun e => (e.name, e.percentage)) = [("AAPL", JSNum.nan)] := by
  have hdiv : JSNum.fin 0 / JSNum.fin 0 = JSNum.nan := by
    show JSNum.div (JSNum.fin 0) (JSNum.fin 0) = _
    simp [JSNum.div]
  have hmul : JSNum.nan * JSNum.fin 100 = JSNum.nan := rfl
  refine ⟨?_, ?_, ?_, ?_⟩
  · simp [JSNum.sum]
  · rw [calculateTotalPortfolioReturn_formula _ _ (by simp)]
    simp [JSNum.sum, currentPriceOf, noQuotes, hdiv, hmul]
  · simp [JSNum.sum, currentPriceOf, noQuotes]
  · rw [calculatePortfolioAllocation_cons]
    simp [JSNum.sum, currentPriceOf, noQuotes, hdiv, hmul, List.enum, List.enumFrom]

/-! ## The effective price: claim C9 -/

/-- C9 fails as stated: with a quote of current price 0 stored under AAPL, the
effective price of an AAPL holding bought at 150 is 150, not the quoted 0. -/
theorem quoted_zero_not_used :
    singleQuote "AAPL" (JSNum.fin 0) "AAPL" = some { currentPrice := some (JSNum.fin 0) } ∧
    currentPriceOf (singleQuote "AAPL" (JSNum.fin 0))
      ⟨"1", "AAPL", JSNum.fin 10, JSNum.fin 150, "2024-01-01", JSNum.fin 0⟩ = JSNum.fin 150 ∧
    JSNum.fin 150 ≠ JSNum.fin 0 := by
  refine ⟨by simp [singleQuote], ?_, by simp⟩
  simp [currentPriceOf, singleQuote, JSNum.or, JSNum.truthy]

/-- C9, amended: the effective price of a holding is `quotes[ticker].currentPrice`
when the quote map has an entry for the ticker whose `currentPrice` is a
truthy number (neither 0 nor `NaN`), and `holding.purchasePrice` otherwise:
when no quote is present, when the quote has no `currentPrice`, and when the
quoted value is 0 or `NaN`. The three valuation functions use this price. -/
theorem currentPriceOf_eq (prices : PriceMap) (stock : Holding) :
    (∀ q p, prices stock.ticker = some q → q.currentPrice = some p → p.truthy = true →
      currentPriceOf prices stock = p) ∧
    (∀ q p, prices stock.ticker = some q → q.currentPrice = some p → p.truthy = false →
      currentPriceOf prices stock = stock.purchasePrice) ∧
    (∀ q, prices stock.ticker = some q → q.currentPrice = none →
      currentPriceOf prices stock = stock.purchasePrice) ∧
    (prices stock.ticker = none → currentPriceOf prices stock = stock.purchasePrice) ∧
    (∀ p : JSNum, p.truthy = false ↔ (p = JSNum.fin 0 ∨ p = JSNum.nan)) ∧
    totalsLoop prices [stock] (JSNum.fin 0, JSNum.fin 0)
      = (JSNum.fin 0 + stock.quantity * stock.purchasePrice,
         JSNum.fin 0 + stock.quantity * currentPriceOf prices stock) ∧
    (∀ env, (calculatePortfolioAllocation env [stock] prices).map (fun e => e.value)
      = [stock.quantity * currentPriceOf prices stock]) ∧
    (stockPerformanceOf prices stock).currentPrice = currentPriceOf prices stock := by
  refine ⟨?_, ?_, ?_, ?_, ?_, rfl, ?_, rfl⟩
  · intro q p hq hp ht
    simp [currentPriceOf, hq, hp, JSNum.or, ht]
  · intro q p hq hp ht
    simp [currentPriceOf, hq, hp, JSNum.or, ht]
  · intro q hq hp
    simp [currentPriceOf, hq, hp]
  · intro hq
    simp [currentPriceOf, hq]
  · intro p
    cases p <;> simp [JSNum.truthy]
  · intro env
    rw [calculatePortfolioAllocation_cons]
    simp [List.enum, List.enumFrom]

/-- C9, amended, at a concrete quote: with AAPL quoted at 175, a truthy number,
the effective price of an AAPL holding bought at 150 is 175. -/
theorem currentPriceOf_eq_witness :
    singleQuote "AAPL" (JSNum.fin 175) "AAPL" = some { currentPrice := some (JSNum.fin 175) } ∧
    (JSNum.fin 175).truthy = true ∧
    currentPriceOf (singleQuote "AAPL" (JSNum.fin 175))
      ⟨"1", "AAPL", JSNum.fin 10, JSNum.fin 150, "2024-01-01", JSNum.fin 0⟩ = JSNum.fin 175 := by
  have hq : singleQuote "AAPL" (JSNum.fin 175) "AAPL"
      = some { currentPrice := some (JSNum.fin 175) } := by simp [singleQuote]
  have ht : (JSNum.fin 175).truthy = true := by simp [JSNum.truthy]
  exact ⟨hq, ht,
    (currentPriceOf_eq (singleQuote "AAPL" (JSNum.fin 175))
      ⟨"1", "AAPL", JSNum.fin 10, JSNum.fin 150, "2024-01-01", JSNum.fin 0⟩).1 _ _ hq rfl ht⟩

/-! ## The stable sort -/

theorem sortInsert_perm {α : Type} (cmp : α → α → JSNum) (x : α) :
    ∀ l : List α, (sortInsert cmp x l).Perm (x :: l) := by
  intro l
  induction l with
  | nil => exact List.Perm.refl _
  | cons y ys ih =>
    unfold sortInsert
    split
    · exact List.Perm.refl _
    · exact (List.Perm.cons y ih).trans (List.Perm.swap x y ys)

theorem arraySort_perm {α : Type} (cmp : α → α → JSNum) :
    ∀ l : List α, (arraySort cmp l).Perm l := by
  intro l
  induction l with
  | nil => exact List.Perm.refl _
  | cons x xs ih =>
    unfold arraySort
    exact (sortInsert_perm cmp x _).trans (List.Perm.cons x ih)

theorem JSNum.gt_sub_zero {a b : JSNum} (ha : a ≠ JSNum.nan) (hb : b ≠ JSNum.nan) :
    JSNum.gt (b - a) JSNum.zero = JSNum.lt a b := by
  cases a <;> cases b <;> first
    | exact absurd rfl ha
    | exact absurd rfl hb
    | rfl
    | skip
  rename_i x y
  rw [JSNum.fin_sub_fin]
  simp [JSNum.gt, JSNum.lt, JSNum.zero]

theorem JSNum.jle_of_not_jlt {a b : JSNum} (ha : a ≠ JSNum.nan) (hb : b ≠ JSNum.nan)
    (h : JSNum.lt a b = false) : JSNum.le b a = true := by
  cases a <;> cases b <;> first
    | exact absurd rfl ha
    | exact absurd rfl hb
    | rfl
    | (simp [JSNum.lt] at h; done)
    | skip
  rename_i x y
  simp only [JSNum.lt, decide_eq_false_iff_not, not_lt] at h
  simp [JSNum.le, h]

theorem JSNum.jle_of_jlt {a b : JSNum} (h : JSNum.lt a b = true) : JSNum.le a b = true := by
  cases a <;> cases b <;> first
    | rfl
    | (simp [JSNum.lt] at h; done)
    | skip
  rename_i x y
  simp only [JSNum.lt, decide_eq_true_eq] at h
  simp [JSNum.le, le_of_lt h]

theorem JSNum.jle_trans {a b c : JSNum} (hab : JSNum.le a b = true) (hbc : JSNum.le b c = true) :
    JSNum.le a c = true := by
  cases a <;> cases b <;> cases c <;> first
    | rfl
    | (simp [JSNum.le] at hab; done)
    | (simp [JSNum.le] at hbc; done)
    | skip
  rename_i x y z
  simp only [JSNum.le, decide_eq_true_eq] at hab hbc ⊢
  exact le_trans hab hbc

theorem notAfter_desc {α : Type} (k : α → JSNum) (x y : α)
    (hx : k x ≠ JSNum.nan) (hy : k y ≠ JSNum.nan) :
    notAfter (fun a b => k b - k a) x y = !(JSNum.lt (k x) (k y)) := by
  simp only [notAfter, JSNum.gt_sub_zero hx hy]

theorem mem_sortInsert {α : Type} (cmp : α → α → JSNum) (x : α) (l : List α) (z : α) :
    z ∈ sortInsert cmp x l ↔ z = x ∨ z ∈ l := by
  rw [(sortInsert_perm cmp x l).mem_iff, List.mem_cons]

theorem mem_arraySort {α : Type} (cmp : α → α → JSNum) (l : List α) (z : α) :
    z ∈ arraySort cmp l ↔ z ∈ l :=
  (arraySort_perm cmp l).mem_iff

theorem sortInsert_sorted {α : Type} (k : α → JSNum) (x : α) (hx : k x ≠ JSNum.nan) :
    ∀ l : List α, (∀ y ∈ l, k y ≠ JSNum.nan) →
      l.Pairwise (fun a b => JSNum.le (k b) (k a) = true) →
      (sortInsert (fun a b => k b - k a) x l).Pairwise
        (fun a b => JSNum.le (k b) (k a) = true) := by
  intro l
  induction l with
  | nil => intro _ _; simp [sortInsert]
  | cons y ys ih =>
    intro hnan hsorted
    have hy : k y ≠ JSNum.nan := hnan y (List.mem_cons_self y ys)
    have hys : ∀ z ∈ ys, k z ≠ JSNum.nan := fun z hz => hnan z (List.mem_cons_of_mem y hz)
    rw [List.pairwise_cons] at hsorted
    unfold sortInsert
    rw [notAfter_desc k x y hx hy]
    cases hlt : JSNum.lt (k x) (k y)
    · have hyx : JSNum.le (k y) (k x) = true := JSNum.jle_of_not_jlt hx hy hlt
      simp only [Bool.not_false, if_true]
      rw [List.pairwise_cons]
      refine ⟨?_, List.pairwise_cons.mpr hsorted⟩
      intro z hz
      rcases List.mem_cons.mp hz with rfl | hz
      · exact hyx
      · exact JSNum.jle_trans (hsorted.1 z hz) hyx
    · have hxy : JSNum.le (k x) (k y) = true := JSNum.jle_of_jlt hlt
      simp only [Bool.not_true, Bool.false_eq_true, if_false]
      rw [List.pairwise_cons]
      refine ⟨?_, ih hys hsorted.2⟩
      intro z hz
      rcases (mem_sortInsert _ x ys z).mp hz with rfl | hz
      · exact hxy
      · exact hsorted.1 z hz

theorem arraySort_sorted {α : Type} (k : α → JSNum) :
    ∀ l : List α, (∀ y ∈ l, k y ≠ JSNum.nan) →
      (arraySort (fun a b => k b - k a) l).Pairwise
        (fun a b => JSNum.le (k b) (k a) = true) := by
  intro l
  induction l with
  | nil => intro _; simp [arraySort]
  | cons x xs ih =>
    intro hnan
    unfold arraySort
    refine sortInsert_sorted k x (hnan x (List.mem_cons_self x xs)) _ ?_
      (ih fun y hy => hnan y (List.mem_cons_of_mem x hy))
    intro y hy
    exact hnan y (List.mem_cons_of_mem x ((mem_arraySort _ xs y).mp hy))

theorem key_ne_of_after {α : Type} (k : α → JSNum) (x y : α)
    (h : notAfter (fun a b => k b - k a) x y = false) : k x ≠ k y := by
  intro he
  simp only [notAfter, he, Bool.not_eq_false'] at h
  cases hk : k y with
  | fin q =>
    rw [hk, JSNum.fin_sub_fin] at h
    simp [JSNum.gt, JSNum.lt, JSNum.zero] at h
  | nan => rw [hk] at h; exact absurd h (by decide)
  | pinf => rw [hk] at h; exact absurd h (by decide)
  | ninf => rw [hk] at h; exact absurd h (by decide)

theorem sortInsert_filter_key {α : Type} (k : α → JSNum) (v : JSNum) (x : α) :
    ∀ l : List α, (sortInsert (fun a b => k b - k a) x l).filter (fun a => decide (k a = v))
      = (x :: l).filter (fun a => decide (k a = v)) := by
  intro l
  induction l with
  | nil => rfl
  | cons y ys ih =>
    unfold sortInsert
    cases hna : notAfter (fun a b => k b - k a) x y
    · have hne := key_ne_of_after k x y hna
      simp only [Bool.false_eq_true, if_false]
      rw [List.filter_cons, ih]
      by_cases hx : k x = v
      · have hy : k y ≠ v := fun h => hne (hx.trans h.symm)
        simp [List.filter_cons, hx, hy]
      · simp [List.filter_cons, hx]
    · simp

theorem arraySort_filter_key {α : Type} (k : α → JSNum) (v : JSNum) :
    ∀ l : List α, (arraySort (fun a b => k b - k a) l).filter (fun a => decide (k a = v))
      = l.filter (fun a => decide (k a = v)) := by
  intro l
  induction l with
  | nil => rfl
  | cons x xs ih =>
    unfold arraySort
    rw [sortInsert_filter_key, List.filter_cons, ih, List.filter_cons]

/-! ## Losers: claim C6 -/

theorem fourLosers_performance :
    fourLosers.map (stockPerformanceOf fourQuotes)
      = [⟨"A", JSNum.fin 1, JSNum.fin 100, JSNum.fin 90, JSNum.fin (-10), JSNum.fin (-10),
          JSNum.fin 90⟩,
         ⟨"B", JSNum.fin 1, JSNum.fin 100, JSNum.fin 80, JSNum.fin (-20), JSNum.fin (-20),
          JSNum.fin 80⟩,
         ⟨"C", JSNum.fin 1, JSNum.fin 100, JSNum.fin 70, JSNum.fin (-30), JSNum.fin (-30),
          JSNum.fin 70⟩,
         ⟨"D", JSNum.fin 1, JSNum.fin 100, JSNum.fin 60, JSNum.fin (-40), JSNum.fin (-40),
          JSNum.fin 60⟩] := by
  have h100 : (100 : ℚ) ≠ 0 := by norm_num
  simp only [fourLosers, fourQuotes, List.map, stockPerformanceOf, currentPriceOf, quotesOf]
  simp [List.lookup, JSNum.or, JSNum.truthy, JSNum.fin_div_fin _ h100]
  norm_num

theorem gainerAndLoser_performance :
    gainerAndLoser.map (stockPerformanceOf (quotesOf [("A", JSNum.fin 120), ("B", JSNum.fin 90)]))
      = [⟨"A", JSNum.fin 1, JSNum.fin 100, JSNum.fin 120, JSNum.fin 20, JSNum.fin 20,
          JSNum.fin 120⟩,
         ⟨"B", JSNum.fin 1, JSNum.fin 100, JSNum.fin 90, JSNum.fin (-10), JSNum.fin (-10),
          JSNum.fin 90⟩] := by
  have h100 : (100 : ℚ) ≠ 0 := by norm_num
  simp only [gainerAndLoser, List.map, stockPerformanceOf, currentPriceOf, quotesOf]
  simp [List.lookup, JSNum.or, JSNum.truthy, JSNum.fin_div_fin _ h100]
  norm_num

/-- C6, on the code: of four holdings that lost 10, 20, 30 and 40 per cent,
`calculatePortfolioGainersLosers` returns as losers the three that lost 10, 20
and 30 per cent, and omits D, the worst performer, whose return of −40 per cent
is lower than that of every returned holding. On the two holdings of the
example, at +20 and −10 per cent, the gainers are the first and the losers the
second. -/
theorem losers_omit_worst_performer :
    (calculatePortfolioGainersLosers fourLosers fourQuotes).losers.map
        (fun p => (p.ticker, p.returnPercentage))
      = [("A", JSNum.fin (-10)), ("B", JSNum.fin (-20)), ("C", JSNum.fin (-30))] ∧
    (fourLosers.map (stockPerformanceOf fourQuotes)).map
        (fun p => (p.ticker, p.returnPercentage))
      = [("A", JSNum.fin (-10)), ("B", JSNum.fin (-20)), ("C", JSNum.fin (-30)),
         ("D", JSNum.fin (-40))] ∧
    JSNum.lt (JSNum.fin (-40)) (JSNum.fin (-30)) = true ∧
    (calculatePortfolioGainersLosers gainerAndLoser
        (quotesOf [("A", JSNum.fin 120), ("B", JSNum.fin 90)])).gainers.map
        (fun p => (p.ticker, p.returnPercentage)) = [("A", JSNum.fin 20)] ∧
    (calculatePortfolioGainersLosers gainerAndLoser
        (quotesOf [("A", JSNum.fin 120), ("B", JSNum.fin 90)])).losers.map
        (fun p => (p.ticker, p.returnPercentage)) = [("B", JSNum.fin (-10))] := by
  have hperf := fourLosers_performance
  have hperf2 := gainerAndLoser_performance
  have hlen2 : gainerAndLoser.length ≠ 0 := by decide
  refine ⟨?_, ?_, ?_, ?_, ?_⟩
  · have hlen : fourLosers.length ≠ 0 := by decide
    simp only [calculatePortfolioGainersLosers, hlen, if_false, hperf]
    simp [arraySort, sortInsert, notAfter, JSNum.gt, JSNum.lt, JSNum.zero]
    norm_num
  · rw [hperf]
    rfl
  · simp only [JSNum.lt, decide_eq_true_eq]
    norm_num
  · simp only [calculatePortfolioGainersLosers, hlen2, if_false, hperf2]
    simp [arraySort, sortInsert, notAfter, JSNum.gt, JSNum.lt, JSNum.zero]
    norm_num
  · simp only [calculatePortfolioGainersLosers, hlen2, if_false, hperf2]
    simp [arraySort, sortInsert, notAfter, JSNum.gt, JSNum.lt, JSNum.zero]
    norm_num

/-! ## The parser on well-formed input -/

theorem JSNum.isNaN_eq_false {x : JSNum} (h : x ≠ JSNum.nan) : x.isNaN = false := by
  cases x <;> first | rfl | exact absurd rfl h

theorem parseLine_good (dateOk : String → Bool) (typeError : String) (headers : List String)
    (id line : String) (h : goodRow dateOk headers line) :
    parseLine dateOk typeError headers id line = Except.ok (candidateOf headers id line) := by
  obtain ⟨⟨t, ht⟩, hq, hp, d, hd, hok⟩ := h
  simp only [parseLine, candidateOf, ht, hd, JSNum.isNaN_eq_false hq, JSNum.isNaN_eq_false hp,
    isValidDate, hok, Option.getD_some, Bool.or_self, Bool.not_true, Bool.false_eq_true,
    if_false]

theorem parseLines_good (dateOk : String → Bool) (uuidv4 : Nat → String) (typeError : String)
    (headers : List String) (rows : List String)
    (h : ∀ row ∈ rows, goodRow dateOk headers row) :
    ∀ k, parseLines dateOk uuidv4 typeError headers rows k
      = Except.ok ((rows.enumFrom k).map fun p => candidateOf headers (uuidv4 p.1) p.2) := by
  induction rows with
  | nil => intro k; rfl
  | cons row rest ih =>
    intro k
    have hrow := parseLine_good dateOk typeError headers (uuidv4 k) row
      (h row (List.mem_cons_self row rest))
    have hrest := ih (fun r hr => h r (List.mem_cons_of_mem row hr)) (k + 1)
    simp only [parseLines, hrow, hrest, List.enumFrom_cons, List.map_cons]

theorem missingHeaders_eq_nil (headers : List String)
    (h : ∀ name ∈ requiredHeaders, name ∈ headers) :
    (requiredHeaders.filter fun header => !(headers.contains (toLowerCase header))) = [] := by
  have e1 : toLowerCase "ticker" = "ticker" := by decide
  have e2 : toLowerCase "quantity" = "quantity" := by decide
  have e3 : toLowerCase "price" = "price" := by decide
  have e4 : toLowerCase "date" = "date" := by decide
  have h1 := h "ticker" (by simp [requiredHeaders])
  have h2 := h "quantity" (by simp [requiredHeaders])
  have h3 := h "price" (by simp [requiredHeaders])
  have h4 := h "date" (by simp [requiredHeaders])
  simp [requiredHeaders, e1, e2, e3, e4, h1, h2, h3, h4]

theorem parseCSV_good (dateOk : String → Bool) (uuidv4 : Nat → String) (typeError : String)
    (csvData header : String) (rows : List String)
    (hsplit : strSplit csvData '\n' = header :: rows)
    (hheader : ∀ name ∈ requiredHeaders, name ∈ headersOf header)
    (hrows : ∀ row ∈ rows, goodRow dateOk (headersOf header) row) :
    parseCSV dateOk uuidv4 typeError csvData
      = Except.ok (rows.enum.map fun p => candidateOf (headersOf header) (uuidv4 p.1) p.2) := by
  have hmiss := missingHeaders_eq_nil (headersOf header) hheader
  unfold headersOf at hmiss
  simp only [parseCSV, hsplit, List.headD_cons, hmiss, List.length_nil, gt_iff_lt,
    lt_self_iff_false, if_false, List.drop_one, List.tail_cons]
  have hlines := parseLines_good dateOk uuidv4 typeError _ rows hrows 0
  unfold headersOf at hlines
  rw [hlines]
  rfl

theorem candidate_ids_nodup (uuidv4 : Nat → String) (headers : List String)
    (rows : List String) (hinj : Function.Injective uuidv4) :
    ((rows.enum.map fun p => candidateOf headers (uuidv4 p.1) p.2).map Holding.id).Nodup := by
  have h : (rows.enum.map fun p => candidateOf headers (uuidv4 p.1) p.2).map Holding.id
      = (List.range rows.length).map uuidv4 := by
    rw [← List.enum_map_fst, List.map_map, List.map_map]
    rfl
  rw [h]
  exact List.Nodup.map hinj (List.nodup_range _)

/-! ## The parser: claim C10 -/

/-- C10: for an input whose first line names the columns ticker, quantity,
price and date (in any order) and whose N further lines are data rows with a
ticker field, numeric quantity and price fields (zero and negative numbers
included) and a parseable date, `parseCSV` returns exactly N candidates, in row
order, each built from the columns of those names (ticker upper-cased, quantity
and purchasePrice the parsed numbers, purchaseDate the date token,
currentPrice 0), with pairwise distinct ids when the id generator never
returns the same value twice. -/
theorem parseCSV_header_rows (dateOk : String → Bool) (uuidv4 : Nat → String)
    (typeError : String) (csvData header : String) (rows : List String)
    (hsplit : strSplit csvData '\n' = header :: rows)
    (hheader : ∀ name ∈ requiredHeaders, name ∈ headersOf header)
    (hrows : ∀ row ∈ rows, goodRow dateOk (headersOf header) row) :
    ∃ stocks : List Holding,
      parseCSV dateOk uuidv4 typeError csvData = Except.ok stocks ∧
      stocks.length = rows.length ∧
      stocks = rows.enum.map (fun p => candidateOf (headersOf header) (uuidv4 p.1) p.2) ∧
      (∀ s ∈ stocks, s.currentPrice = JSNum.fin 0) ∧
      (Function.Injective uuidv4 → (stocks.map Holding.id).Nodup) := by
  refine ⟨_, parseCSV_good dateOk uuidv4 typeError csvData header rows hsplit hheader hrows,
    by simp, rfl, ?_, candidate_ids_nodup uuidv4 (headersOf header) rows⟩
  intro s hs
  obtain ⟨p, _, rfl⟩ := List.mem_map.mp hs
  rfl

theorem parseFloat_of_scan {s : String} {lit : NumLit}
    (h : scanDecimal (s.data.dropWhile isJsSpace) = some lit) :
    parseFloatArg (some s) = lit.toNum := by
  simp only [parseFloatArg, parseFloat, h]

theorem NumLit.decimal_toNum_ne_nan (neg : Bool) (m : Nat) (e : Int) :
    (NumLit.decimal neg m e).toNum ≠ JSNum.nan := by
  simp [NumLit.toNum]

/-- C10, at a concrete file: the header `date,ticker,price,quantity` followed
by the rows `2024-01-01,aapl,150,10` and `2024-02-03,xyz,0,-5` satisfies the
hypotheses, and `parseCSV` returns two candidates. -/
theorem parseCSV_header_rows_witness :
    strSplit reorderedCsv '\n'
      = "date,ticker,price,quantity" :: ["2024-01-01,aapl,150,10", "2024-02-03,xyz,0,-5"] ∧
    (∀ name ∈ requiredHeaders, name ∈ headersOf "date,ticker,price,quantity") ∧
    (∀ row ∈ ["2024-01-01,aapl,150,10", "2024-02-03,xyz,0,-5"],
      goodRow sampleDateOk (headersOf "date,ticker,price,quantity") row) ∧
    (∃ stocks : List Holding,
      parseCSV sampleDateOk sampleUuid "TypeError" reorderedCsv = Except.ok stocks ∧
      stocks.length = 2 ∧
      stocks.map Holding.ticker = ["AAPL", "XYZ"]) := by
  have hsplit : strSplit reorderedCsv '\n'
      = "date,ticker,price,quantity" :: ["2024-01-01,aapl,150,10", "2024-02-03,xyz,0,-5"] := by
    decide
  have hheader : ∀ name ∈ requiredHeaders, name ∈ headersOf "date,ticker,price,quantity" := by
    decide
  have hrows : ∀ row ∈ ["2024-01-01,aapl,150,10", "2024-02-03,xyz,0,-5"],
      goodRow sampleDateOk (headersOf "date,ticker,price,quantity") row := by
    intro row hrow
    simp only [List.mem_cons, List.mem_singleton, List.not_mem_nil, or_false] at hrow
    rcases hrow with rfl | rfl
    · have cq : column (headersOf "date,ticker,price,quantity")
          ((strSplit "2024-01-01,aapl,150,10" ',').map strTrim) "quantity" = some "10" := by
        decide
      have cp : column (headersOf "date,ticker,price,quantity")
          ((strSplit "2024-01-01,aapl,150,10" ',').map strTrim) "price" = some "150" := by
        decide
      have sq : scanDecimal ("10".data.dropWhile isJsSpace)
          = some (NumLit.decimal false 10 0) := by decide
      have sp : scanDecimal ("150".data.dropWhile isJsSpace)
          = some (NumLit.decimal false 150 0) := by decide
      refine ⟨⟨"aapl", by decide⟩, ?_, ?_, ⟨"2024-01-01", by decide, by decide⟩⟩
      · rw [cq, parseFloat_of_scan sq]; exact NumLit.decimal_toNum_ne_nan _ _ _
      · rw [cp, parseFloat_of_scan sp]; exact NumLit.decimal_toNum_ne_nan _ _ _
    · have cq : column (headersOf "date,ticker,price,quantity")
          ((strSplit "2024-02-03,xyz,0,-5" ',').map strTrim) "quantity" = some "-5" := by
        decide
      have cp : column (headersOf "date,ticker,price,quantity")
          ((strSplit "2024-02-03,xyz,0,-5" ',').map strTrim) "price" = some "0" := by
        decide
      have sq : scanDecimal ("-5".data.dropWhile isJsSpace)
          = some (NumLit.decimal true 5 0) := by decide
      have sp : scanDecimal ("0".data.dropWhile isJsSpace)
          = some (NumLit.decimal false 0 0) := by decide
      refine ⟨⟨"xyz", by decide⟩, ?_, ?_, ⟨"2024-02-03", by decide, by decide⟩⟩
      · rw [cq, parseFloat_of_scan sq]; exact NumLit.decimal_toNum_ne_nan _ _ _
      · rw [cp, parseFloat_of_scan sp]; exact NumLit.decimal_toNum_ne_nan _ _ _
  refine ⟨hsplit, hheader, hrows, ?_⟩
  obtain ⟨stocks, hok, hlen, heq, _, _⟩ :=
    parseCSV_header_rows sampleDateOk sampleUuid "TypeError" reorderedCsv _ _ hsplit hheader hrows
  refine ⟨stocks, hok, hlen, ?_⟩
  rw [heq]
  decide

/-! ## The thunk `processCSVUpload` without the screen -/

theorem negativeQuantityCsv_parse :
    parseCSV sampleDateOk sampleUuid "TypeError" negativeQuantityCsv
      = Except.ok [⟨"0", "AAPL", JSNum.fin (-5), JSNum.fin 10, "2024-01-01", JSNum.fin 0⟩] := by
  have hsplit : strSplit negativeQuantityCsv '\n'
      = "ticker,quantity,price,date" :: ["AAPL,-5,10,2024-01-01"] := by decide
  have hheader : ∀ name ∈ requiredHeaders, name ∈ headersOf "ticker,quantity,price,date" := by
    decide
  have ct : column (headersOf "ticker,quantity,price,date")
      ((strSplit "AAPL,-5,10,2024-01-01" ',').map strTrim) "ticker" = some "AAPL" := by decide
  have cq : column (headersOf "ticker,quantity,price,date")
      ((strSplit "AAPL,-5,10,2024-01-01" ',').map strTrim) "quantity" = some "-5" := by decide
  have cp : column (headersOf "ticker,quantity,price,date")
      ((strSplit "AAPL,-5,10,2024-01-01" ',').map strTrim) "price" = some "10" := by decide
  have cd : column (headersOf "ticker,quantity,price,date")
      ((strSplit "AAPL,-5,10,2024-01-01" ',').map strTrim) "date" = some "2024-01-01" := by
    decide
  have sq : scanDecimal ("-5".data.dropWhile isJsSpace)
      = some (NumLit.decimal true 5 0) := by decide
  have sp : scanDecimal ("10".data.dropWhile isJsSpace)
      = some (NumLit.decimal false 10 0) := by decide
  have hrows : ∀ row ∈ ["AAPL,-5,10,2024-01-01"],
      goodRow sampleDateOk (headersOf "ticker,quantity,price,date") row := by
    intro row hrow
    rw [List.mem_singleton] at hrow
    subst hrow
    refine ⟨⟨"AAPL", ct⟩, ?_, ?_, ⟨"2024-01-01", cd, by decide⟩⟩
    · rw [cq, parseFloat_of_scan sq]; exact NumLit.decimal_toNum_ne_nan _ _ _
    · rw [cp, parseFloat_of_scan sp]; exact NumLit.decimal_toNum_ne_nan _ _ _
  rw [parseCSV_good sampleDateOk sampleUuid "TypeError" negativeQuantityCsv _ _ hsplit hheader
    hrows]
  have hu : toUpperCase "AAPL" = "AAPL" := by decide
  have hid : sampleUuid 0 = "0" := by decide
  have hc : candidateOf (headersOf "ticker,quantity,price,date") "0" "AAPL,-5,10,2024-01-01"
      = ⟨"0", "AAPL", JSNum.fin (-5), JSNum.fin 10, "2024-01-01", JSNum.fin 0⟩ := by
    simp only [candidateOf, ct, cq, cp, cd, parseFloat_of_scan sq, parseFloat_of_scan sp,
      NumLit.toNum, Option.getD_some, hu]
    norm_num
  simp only [List.enum, List.enumFrom, List.map_cons, List.map_nil, hid, hc]

/-- The thunk `processCSVUpload` taken alone does not validate: dispatched on
the file `ticker,quantity,price,date` / `AAPL,-5,10,2024-01-01` it stores the
holding of quantity −5, which `validatePortfolioData` reports as invalid. The
upload screen never dispatches it on this text, which fails the shape check of
`handleFilePick`. -/
theorem csv_upload_stores_invalid_holding :
    (processCSVUpload sampleDateOk sampleUuid "TypeError" "2024-06-01T00:00:00.000Z"
        initialState negativeQuantityCsv).stocks
      = [⟨"0", "AAPL", JSNum.fin (-5), JSNum.fin 10, "2024-01-01", JSNum.fin 0⟩] ∧
    validatePortfolioData sampleDateOk
        (processCSVUpload sampleDateOk sampleUuid "TypeError" "2024-06-01T00:00:00.000Z"
          initialState negativeQuantityCsv).stocks
      = ["Row 1: Invalid quantity"] := by
  have hstocks : (processCSVUpload sampleDateOk sampleUuid "TypeError"
      "2024-06-01T00:00:00.000Z" initialState negativeQuantityCsv).stocks
      = [⟨"0", "AAPL", JSNum.fin (-5), JSNum.fin 10, "2024-01-01", JSNum.fin 0⟩] := by
    simp only [processCSVUpload, negativeQuantityCsv_parse, processCSVUploadFulfilled]
  refine ⟨hstocks, ?_⟩
  rw [hstocks, validatePortfolioData_eq_expected]
  have e1 : rowMessage 1 "Invalid quantity" = "Row 1: Invalid quantity" := by decide
  have d1 : sampleDateOk "2024-01-01" = true := by decide
  simp [expectedErrors, List.enumFrom, rowErrors, JSNum.gt, JSNum.lt, JSNum.zero, e1, d1]

/-! ## The parser on malformed input -/

theorem parseLines_error_of_line (dateOk : String → Bool) (uuidv4 : Nat → String)
    (typeError : String) (headers : List String) (row : String)
    (hbad : ∀ id, ∃ e, parseLine dateOk typeError headers id row = Except.error e) :
    ∀ (rows : List String), row ∈ rows →
      ∀ k, ∃ e, parseLines dateOk uuidv4 typeError headers rows k = Except.error e := by
  intro rows
  induction rows with
  | nil => intro h; exact absurd h (List.not_mem_nil row)
  | cons r rest ih =>
    intro hmem k
    unfold parseLines
    cases hr : parseLine dateOk typeError headers (uuidv4 k) r with
    | error e => exact ⟨e, rfl⟩
    | ok stock =>
      have hrest : row ∈ rest := by
        rcases List.mem_cons.mp hmem with rfl | h
        · obtain ⟨e, he⟩ := hbad (uuidv4 k)
          rw [he] at hr
          exact Except.noConfusion hr
        · exact h
      obtain ⟨e, he⟩ := ih hrest (k + 1)
      exact ⟨e, by simp only [he]⟩

theorem parseCSV_error_of_line (dateOk : String → Bool) (uuidv4 : Nat → String)
    (typeError : String) (csvData row : String) (hrow : row ∈ dataLines csvData)
    (hbad : ∀ id, ∃ e,
      parseLine dateOk typeError (headersOf (firstLine csvData)) id row = Except.error e) :
    ∃ message, parseCSV dateOk uuidv4 typeError csvData
      = Except.error ("CSV parsing error: " ++ message) := by
  unfold parseCSV
  simp only
  split
  · rename_i message _
    exact ⟨message, rfl⟩
  · rename_i stocks hbody
    exfalso
    split at hbody
    · exact Except.noConfusion hbody
    · obtain ⟨e, he⟩ := parseLines_error_of_line dateOk uuidv4 typeError
        (headersOf (firstLine csvData)) row hbad (dataLines csvData) hrow 0
      unfold headersOf firstLine dataLines at he
      rw [he] at hbody
      exact Except.noConfusion hbody

theorem parseLine_error_of_nan (dateOk : String → Bool) (typeError : String)
    (headers : List String) (id line : String)
    (hnan : parseFloatArg (column headers (valuesOf line) "quantity") = JSNum.nan ∨
      parseFloatArg (column headers (valuesOf line) "price") = JSNum.nan) :
    ∃ e, parseLine dateOk typeError headers id line = Except.error e := by
  unfold valuesOf at hnan
  cases ht : column headers ((strSplit line ',').map strTrim) "ticker" with
  | none => exact ⟨typeError, by simp only [parseLine, ht]⟩
  | some t =>
    refine ⟨"Invalid numeric values in CSV", ?_⟩
    rcases hnan with h | h <;> simp [parseLine, ht, h, JSNum.isNaN]

theorem parseCSV_of_lines (dateOk : String → Bool) (uuidv4 : Nat → String) (typeError : String)
    (csvData header : String) (rows : List String)
    (hsplit : strSplit csvData '\n' = header :: rows)
    (hheader : ∀ name ∈ requiredHeaders, name ∈ headersOf header) :
    parseCSV dateOk uuidv4 typeError csvData
      = match parseLines dateOk uuidv4 typeError (headersOf header) rows 0 with
        | Except.error message => Except.error ("CSV parsing error: " ++ message)
        | Except.ok stocks => Except.ok stocks := by
  have hmiss := missingHeaders_eq_nil (headersOf header) hheader
  unfold headersOf at hmiss
  simp only [parseCSV, hsplit, List.headD_cons, hmiss, List.length_nil, gt_iff_lt,
    lt_self_iff_false, if_false, List.drop_one, List.tail_cons, headersOf]

theorem parseLine_eval (dateOk : String → Bool) (typeError : String) (headers : List String)
    (id line t q p d : String) (lq lp : NumLit)
    (ht : column headers (valuesOf line) "ticker" = some t)
    (hq : column headers (valuesOf line) "quantity" = some q)
    (hp : column headers (valuesOf line) "price" = some p)
    (hd : column headers (valuesOf line) "date" = some d)
    (sq : scanDecimal (q.data.dropWhile isJsSpace) = some lq)
    (sp : scanDecimal (p.data.dropWhile isJsSpace) = some lp)
    (hqn : lq.toNum ≠ JSNum.nan) (hpn : lp.toNum ≠ JSNum.nan) :
    parseLine dateOk typeError headers id line
      = if dateOk d = true then
          Except.ok ⟨id, toUpperCase t, lq.toNum, lp.toNum, d, JSNum.fin 0⟩
        else Except.error "Invalid date format in CSV" := by
  unfold valuesOf at ht hq hp hd
  simp only [parseLine, ht, hq, hp, hd, parseFloat_of_scan sq, parseFloat_of_scan sp,
    JSNum.isNaN_eq_false hqn, JSNum.isNaN_eq_false hpn, isValidDate, Bool.or_self,
    Bool.false_eq_true, if_false]
  cases dateOk d <;> simp

theorem parseFloat_of_no_scan {s : String}
    (h : scanDecimal (s.data.dropWhile isJsSpace) = none) : parseFloat s = JSNum.nan := by
  simp only [parseFloat, h]

/-! ## Numeric fields: claim C13 -/

/-- C13 fails as stated: the quantity field `10abc` is not a number as a whole,
yet `parseCSV` returns a candidate, of quantity 10. -/
theorem parseCSV_accepts_numeric_prefix :
    valuesOf "AAPL,10abc,150,2024-01-01" = ["AAPL", "10abc", "150", "2024-01-01"] ∧
    parseCSV sampleDateOk sampleUuid "TypeError" trailingLettersCsv
      = Except.ok [⟨"0", "AAPL", JSNum.fin 10, JSNum.fin 150, "2024-01-01", JSNum.fin 0⟩] := by
  refine ⟨by decide, ?_⟩
  have hsplit : strSplit trailingLettersCsv '\n'
      = "ticker,quantity,price,date" :: ["AAPL,10abc,150,2024-01-01"] := by decide
  have hheader : ∀ name ∈ requiredHeaders, name ∈ headersOf "ticker,quantity,price,date" := by
    decide
  rw [parseCSV_of_lines _ _ _ _ _ _ hsplit hheader]
  have hl := parseLine_eval sampleDateOk "TypeError" (headersOf "ticker,quantity,price,date")
    (sampleUuid 0) "AAPL,10abc,150,2024-01-01" "AAPL" "10abc" "150" "2024-01-01"
    (NumLit.decimal false 10 0) (NumLit.decimal false 150 0)
    (by decide) (by decide) (by decide) (by decide) (by decide) (by decide)
    (NumLit.decimal_toNum_ne_nan _ _ _) (NumLit.decimal_toNum_ne_nan _ _ _)
  have hd : sampleDateOk "2024-01-01" = true := by decide
  have hu : toUpperCase "AAPL" = "AAPL" := by decide
  have hid : sampleUuid 0 = "0" := by decide
  simp only [parseLines, hl, hd, if_true, hu, NumLit.toNum]
  rw [hid]
  norm_num

/-- C13, amended: `parseCSV` fails with an error carrying a message, and
returns no candidates whatever the other rows contain, whenever `parseFloat`
finds no number at the start of the quantity or price field of some data row
(the field is missing, empty, or starts with something else, as `abc`); a field
that starts with a number, as `10abc`, is read as that number. -/
theorem parseCSV_fails_of_nan (dateOk : String → Bool) (uuidv4 : Nat → String)
    (typeError : String) (csvData row : String) (hrow : row ∈ dataLines csvData)
    (hnan :
      parseFloatArg (column (headersOf (firstLine csvData)) (valuesOf row) "quantity")
        = JSNum.nan ∨
      parseFloatArg (column (headersOf (firstLine csvData)) (valuesOf row) "price")
        = JSNum.nan) :
    (∃ message, parseCSV dateOk uuidv4 typeError csvData
      = Except.error ("CSV parsing error: " ++ message)) ∧
    parseFloatArg none = JSNum.nan ∧ parseFloat "" = JSNum.nan ∧
    parseFloat "abc" = JSNum.nan ∧ parseFloat "10abc" = JSNum.fin 10 := by
  refine ⟨parseCSV_error_of_line dateOk uuidv4 typeError csvData row hrow
    (fun id => parseLine_error_of_nan dateOk typeError _ id row hnan), rfl,
    parseFloat_of_no_scan (s := "") (by decide),
    parseFloat_of_no_scan (s := "abc") (by decide), ?_⟩
  have h := @parseFloat_of_scan "10abc" (NumLit.decimal false 10 0) (by decide)
  simp only [parseFloatArg] at h
  rw [h]
  simp only [NumLit.toNum]
  norm_num

/-- C13, amended, at a concrete file: the row `AAPL,,150,2024-01-01` has an
empty quantity field, and `parseCSV` fails. -/
theorem parseCSV_fails_of_nan_witness :
    "AAPL,,150,2024-01-01" ∈ dataLines emptyQuantityCsv ∧
    parseFloatArg (column (headersOf (firstLine emptyQuantityCsv))
      (valuesOf "AAPL,,150,2024-01-01") "quantity") = JSNum.nan ∧
    ∃ message, parseCSV sampleDateOk sampleUuid "TypeError" emptyQuantityCsv
      = Except.error ("CSV parsing error: " ++ message) := by
  have hrow : "AAPL,,150,2024-01-01" ∈ dataLines emptyQuantityCsv := by decide
  have hc : column (headersOf (firstLine emptyQuantityCsv))
      (valuesOf "AAPL,,150,2024-01-01") "quantity" = some "" := by decide
  have hnan : parseFloatArg (column (headersOf (firstLine emptyQuantityCsv))
      (valuesOf "AAPL,,150,2024-01-01") "quantity") = JSNum.nan := by
    rw [hc]
    exact parseFloat_of_no_scan (s := "") (by decide)
  exact ⟨hrow, hnan,
    (parseCSV_fails_of_nan sampleDateOk sampleUuid "TypeError" emptyQuantityCsv _ hrow
      (Or.inl hnan)).1⟩

/-! ## Column count: claim C14 -/

theorem parseLine_error_of_missing_column (dateOk : String → Bool) (typeError : String)
    (headers : List String) (id line name : String) (hname : name ∈ requiredHeaders)
    (hnone : column headers (valuesOf line) name = none) :
    ∃ e, parseLine dateOk typeError headers id line = Except.error e := by
  simp only [requiredHeaders, List.mem_cons, List.mem_singleton, List.not_mem_nil,
    or_false] at hname
  rcases hname with rfl | rfl | rfl | rfl
  · unfold valuesOf at hnone
    exact ⟨typeError, by simp only [parseLine, hnone]⟩
  · exact parseLine_error_of_nan dateOk typeError headers id line (Or.inl (by rw [hnone]; rfl))
  · exact parseLine_error_of_nan dateOk typeError headers id line (Or.inr (by rw [hnone]; rfl))
  · unfold valuesOf at hnone
    cases ht : column headers ((strSplit line ',').map strTrim) "ticker" with
    | none => exact ⟨typeError, by simp only [parseLine, ht]⟩
    | some t =>
      by_cases hn : ((parseFloatArg (column headers ((strSplit line ',').map strTrim)
          "quantity")).isNaN || (parseFloatArg (column headers ((strSplit line ',').map strTrim)
          "price")).isNaN) = true
      · exact ⟨"Invalid numeric values in CSV", by simp only [parseLine, ht, hn, if_true]⟩
      · exact ⟨"Invalid date format in CSV", by simp [parseLine, ht, hn, hnone]⟩

theorem column_last_eq_none (headers values : List String)
    (hperm : headers.Perm requiredHeaders) (hshort : values.length < 4) :
    ∃ name ∈ requiredHeaders, column headers values name = none := by
  have hlen : headers.length = 4 := by rw [hperm.length_eq]; rfl
  have hnodup : headers.Nodup := hperm.nodup_iff.mpr (by decide)
  have h3 : 3 < headers.length := by omega
  refine ⟨headers[3], hperm.mem_iff.mp (List.getElem_mem h3), ?_⟩
  have hidx : headers.indexOf headers[3] = 3 := List.indexOf_getElem hnodup 3 h3
  simp only [column, indexOf, hidx, h3, if_true]
  exact List.get?_eq_none.mpr (by omega)

/-- C14 fails as stated: the row `AAPL,10,150,2024-01-01,extra` has five
fields under a header of four columns, yet `parseCSV` returns its candidate. -/
theorem parseCSV_accepts_extra_field :
    (strSplit "AAPL,10,150,2024-01-01,extra" ',').length = 5 ∧
    (headersOf (firstLine extraFieldCsv)).length = 4 ∧
    parseCSV sampleDateOk sampleUuid "TypeError" extraFieldCsv
      = Except.ok [⟨"0", "AAPL", JSNum.fin 10, JSNum.fin 150, "2024-01-01", JSNum.fin 0⟩] := by
  refine ⟨by decide, by decide, ?_⟩
  have hsplit : strSplit extraFieldCsv '\n'
      = "ticker,quantity,price,date" :: ["AAPL,10,150,2024-01-01,extra"] := by decide
  have hheader : ∀ name ∈ requiredHeaders, name ∈ headersOf "ticker,quantity,price,date" := by
    decide
  rw [parseCSV_of_lines _ _ _ _ _ _ hsplit hheader]
  have hl := parseLine_eval sampleDateOk "TypeError" (headersOf "ticker,quantity,price,date")
    (sampleUuid 0) "AAPL,10,150,2024-01-01,extra" "AAPL" "10" "150" "2024-01-01"
    (NumLit.decimal false 10 0) (NumLit.decimal false 150 0)
    (by decide) (by decide) (by decide) (by decide) (by decide) (by decide)
    (NumLit.decimal_toNum_ne_nan _ _ _) (NumLit.decimal_toNum_ne_nan _ _ _)
  have hd : sampleDateOk "2024-01-01" = true := by decide
  have hu : toUpperCase "AAPL" = "AAPL" := by decide
  have hid : sampleUuid 0 = "0" := by decide
  simp only [parseLines, hl, hd, if_true, hu, NumLit.toNum]
  rw [hid]
  norm_num

/-- C14, amended: under a header that declares exactly the four columns
ticker, quantity, price and date, `parseCSV` fails whenever some data row has
fewer than four comma-separated fields. (A row with more fields is read from
the fields under the four names.) -/
theorem parseCSV_fails_of_short_row (dateOk : String → Bool) (uuidv4 : Nat → String)
    (typeError : String) (csvData row : String)
    (hheader : (headersOf (firstLine csvData)).Perm requiredHeaders)
    (hrow : row ∈ dataLines csvData)
    (hshort : (strSplit row ',').length < 4) :
    ∃ message, parseCSV dateOk uuidv4 typeError csvData
      = Except.error ("CSV parsing error: " ++ message) := by
  have hvalues : (valuesOf row).length < 4 := by simpa [valuesOf] using hshort
  obtain ⟨name, hname, hnone⟩ :=
    column_last_eq_none (headersOf (firstLine csvData)) (valuesOf row) hheader hvalues
  exact parseCSV_error_of_line dateOk uuidv4 typeError csvData row hrow
    (fun id => parseLine_error_of_missing_column dateOk typeError _ id row name hname hnone)

/-- C14, amended, at a concrete file: under the header
`ticker,quantity,price,date` the row `AAPL,10,150` has three fields, and
`parseCSV` fails. -/
theorem parseCSV_fails_of_short_row_witness :
    (headersOf (firstLine shortRowCsv)).Perm requiredHeaders ∧
    "AAPL,10,150" ∈ dataLines shortRowCsv ∧
    (strSplit "AAPL,10,150" ',').length < 4 ∧
    ∃ message, parseCSV sampleDateOk sampleUuid "TypeError" shortRowCsv
      = Except.error ("CSV parsing error: " ++ message) := by
  have hheader : (headersOf (firstLine shortRowCsv)).Perm requiredHeaders := by
    have h : headersOf (firstLine shortRowCsv) = requiredHeaders := by decide
    rw [h]
  have hrow : "AAPL,10,150" ∈ dataLines shortRowCsv := by decide
  have hshort : (strSplit "AAPL,10,150" ',').length < 4 := by decide
  exact ⟨hheader, hrow, hshort,
    parseCSV_fails_of_short_row sampleDateOk sampleUuid "TypeError" shortRowCsv _ hheader hrow
      hshort⟩

/-! ## Dates: claim C15 -/

theorem splitAux_ne_nil (sep : Char) (l : List Char) : ∀ cur, splitAux sep l cur ≠ [] := by
  induction l with
  | nil => intro cur; simp [splitAux]
  | cons c cs ih =>
    intro cur
    unfold splitAux
    split
    · simp
    · exact ih _

theorem strSplit_eq_cons (s : String) :
    strSplit s '\n' = firstLine s :: dataLines s := by
  unfold firstLine dataLines
  cases h : strSplit s '\n' with
  | nil =>
    exfalso
    unfold strSplit at h
    exact splitAux_ne_nil '\n' s.data [] (List.map_eq_nil_iff.mp h)
  | cons a l => rfl

theorem parseLine_date_rejected (dateOk : String → Bool) (typeError : String)
    (headers : List String) (id line : String) (hnum : numericRow headers line)
    (hbad : dateRejected dateOk headers line) :
    parseLine dateOk typeError headers id line
      = Except.error "Invalid date format in CSV" := by
  obtain ⟨⟨t, ht⟩, hq, hp⟩ := hnum
  unfold dateRejected at hbad
  unfold valuesOf at ht hq hp hbad
  cases hd : column headers ((strSplit line ',').map strTrim) "date" with
  | none =>
    simp [parseLine, ht, hd, JSNum.isNaN_eq_false hq, JSNum.isNaN_eq_false hp]
  | some d =>
    simp [parseLine, ht, hd, JSNum.isNaN_eq_false hq, JSNum.isNaN_eq_false hp, isValidDate,
      hbad d hd]

theorem parseLine_numeric (dateOk : String → Bool) (typeError : String)
    (headers : List String) (id line : String) (hnum : numericRow headers line) :
    parseLine dateOk typeError headers id line = Except.error "Invalid date format in CSV" ∨
    ((∃ stock, parseLine dateOk typeError headers id line = Except.ok stock) ∧
      ¬ dateRejected dateOk headers line) := by
  by_cases hbad : dateRejected dateOk headers line
  · exact Or.inl (parseLine_date_rejected dateOk typeError headers id line hnum hbad)
  · right
    refine ⟨?_, hbad⟩
    unfold dateRejected at hbad
    push_neg at hbad
    obtain ⟨d, hd, hok⟩ := hbad
    have hgood : goodRow dateOk headers line := by
      obtain ⟨ht, hq, hp⟩ := hnum
      unfold valuesOf at ht hq hp hd
      exact ⟨ht, hq, hp, d, hd, by simpa using hok⟩
    exact ⟨_, parseLine_good dateOk typeError headers id line hgood⟩

theorem parseLines_date_rejected (dateOk : String → Bool) (uuidv4 : Nat → String)
    (typeError : String) (headers : List String) :
    ∀ rows : List String, (∀ row ∈ rows, numericRow headers row) →
      (∃ row ∈ rows, dateRejected dateOk headers row) →
      ∀ k, parseLines dateOk uuidv4 typeError headers rows k
        = Except.error "Invalid date format in CSV" := by
  intro rows
  induction rows with
  | nil => intro _ h; obtain ⟨row, hrow, _⟩ := h; exact absurd hrow (List.not_mem_nil row)
  | cons r rest ih =>
    intro hnum hbad k
    rcases parseLine_numeric dateOk typeError headers (uuidv4 k) r
      (hnum r (List.mem_cons_self r rest)) with herr | ⟨⟨stock, hok⟩, hnot⟩
    · simp only [parseLines, herr]
    · have hrest : ∃ row ∈ rest, dateRejected dateOk headers row := by
        obtain ⟨row, hrow, hrej⟩ := hbad
        rcases List.mem_cons.mp hrow with rfl | h
        · exact absurd hrej hnot
        · exact ⟨row, h, hrej⟩
      have := ih (fun row h => hnum row (List.mem_cons_of_mem r h)) hrest (k + 1)
      simp only [parseLines, hok, this]

/-- C15 fails as stated: the row `XYZ,5,10,bad-date` has four fields with
numeric quantity and price, and `parseCSV` fails on it, with the message of
its own date check. -/
theorem parseCSV_rejects_bad_date :
    valuesOf "XYZ,5,10,bad-date" = ["XYZ", "5", "10", "bad-date"] ∧
    sampleDateOk "bad-date" = false ∧
    parseCSV sampleDateOk sampleUuid "TypeError" badDateCsv
      = Except.error "CSV parsing error: Invalid date format in CSV" := by
  refine ⟨by decide, by decide, ?_⟩
  have hsplit : strSplit badDateCsv '\n'
      = "ticker,quantity,price,date" :: ["XYZ,5,10,bad-date"] := by decide
  have hheader : ∀ name ∈ requiredHeaders, name ∈ headersOf "ticker,quantity,price,date" := by
    decide
  rw [parseCSV_of_lines _ _ _ _ _ _ hsplit hheader]
  have hl := parseLine_eval sampleDateOk "TypeError" (headersOf "ticker,quantity,price,date")
    (sampleUuid 0) "XYZ,5,10,bad-date" "XYZ" "5" "10" "bad-date"
    (NumLit.decimal false 5 0) (NumLit.decimal false 10 0)
    (by decide) (by decide) (by decide) (by decide) (by decide) (by decide)
    (NumLit.decimal_toNum_ne_nan _ _ _) (NumLit.decimal_toNum_ne_nan _ _ _)
  have hd : sampleDateOk "bad-date" = false := by decide
  simp only [parseLines, hl, hd, Bool.false_eq_true, if_false]
  exact congrArg Except.error
    (by decide : "CSV parsing error: " ++ "Invalid date format in CSV"
      = "CSV parsing error: Invalid date format in CSV")

/-- C15, amended: `parseCSV` itself rejects invalid dates: for every
header-bearing input whose data rows have a ticker field and numeric quantity
and price fields, `parseCSV` fails with the message
`CSV parsing error: Invalid date format in CSV`, and returns no candidates,
as soon as the date token of some row is missing or does not parse as a date. -/
theorem parseCSV_rejects_invalid_date (dateOk : String → Bool) (uuidv4 : Nat → String)
    (typeError : String) (csvData : String)
    (hheader : ∀ name ∈ requiredHeaders, name ∈ headersOf (firstLine csvData))
    (hrows : ∀ row ∈ dataLines csvData, numericRow (headersOf (firstLine csvData)) row)
    (hbad : ∃ row ∈ dataLines csvData,
      dateRejected dateOk (headersOf (firstLine csvData)) row) :
    parseCSV dateOk uuidv4 typeError csvData
      = Except.error "CSV parsing error: Invalid date format in CSV" := by
  rw [parseCSV_of_lines _ _ _ _ _ _ (strSplit_eq_cons csvData) hheader,
    parseLines_date_rejected dateOk uuidv4 typeError _ _ hrows hbad 0]
  exact congrArg Except.error
    (by decide : "CSV parsing error: " ++ "Invalid date format in CSV"
      = "CSV parsing error: Invalid date format in CSV")

/-- C15, amended, at a concrete file: the row `XYZ,5,10,bad-date` is numeric
and its date is rejected, and `parseCSV` fails with the date message. -/
theorem parseCSV_rejects_invalid_date_witness :
    (∀ name ∈ requiredHeaders, name ∈ headersOf (firstLine badDateCsv)) ∧
    (∀ row ∈ dataLines badDateCsv, numericRow (headersOf (firstLine badDateCsv)) row) ∧
    (∃ row ∈ dataLines badDateCsv,
      dateRejected sampleDateOk (headersOf (firstLine badDateCsv)) row) ∧
    parseCSV sampleDateOk sampleUuid "TypeError" badDateCsv
      = Except.error "CSV parsing error: Invalid date format in CSV" := by
  have hheader : ∀ name ∈ requiredHeaders, name ∈ headersOf (firstLine badDateCsv) := by
    decide
  have hlines : dataLines badDateCsv = ["XYZ,5,10,bad-date"] := by decide
  have cq : column (headersOf (firstLine badDateCsv)) (valuesOf "XYZ,5,10,bad-date")
      "quantity" = some "5" := by decide
  have cp : column (headersOf (firstLine badDateCsv)) (valuesOf "XYZ,5,10,bad-date")
      "price" = some "10" := by decide
  have cd : column (headersOf (firstLine badDateCsv)) (valuesOf "XYZ,5,10,bad-date")
      "date" = some "bad-date" := by decide
  have hrows : ∀ row ∈ dataLines badDateCsv,
      numericRow (headersOf (firstLine badDateCsv)) row := by
    intro row hrow
    rw [hlines, List.mem_singleton] at hrow
    subst hrow
    refine ⟨⟨"XYZ", by decide⟩, ?_, ?_⟩
    · rw [cq, @parseFloat_of_scan "5" (NumLit.decimal false 5 0) (by decide)]
      exact NumLit.decimal_toNum_ne_nan _ _ _
    · rw [cp, @parseFloat_of_scan "10" (NumLit.decimal false 10 0) (by decide)]
      exact NumLit.decimal_toNum_ne_nan _ _ _
  have hbad : ∃ row ∈ dataLines badDateCsv,
      dateRejected sampleDateOk (headersOf (firstLine badDateCsv)) row := by
    refine ⟨"XYZ,5,10,bad-date", by rw [hlines]; exact List.mem_singleton.mpr rfl, ?_⟩
    intro d hd
    rw [cd] at hd
    cases hd
    decide
  exact ⟨hheader, hrows, hbad,
    parseCSV_rejects_invalid_date sampleDateOk sampleUuid "TypeError" badDateCsv hheader hrows
      hbad⟩

/-! ## The header: claims C16 and C17 -/

theorem missingHeaders_eq_filter (headers : List String) :
    (requiredHeaders.filter fun header => !(headers.contains (toLowerCase header)))
      = requiredHeaders.filter fun name => decide (name ∉ headers) := by
  have e1 : toLowerCase "ticker" = "ticker" := by decide
  have e2 : toLowerCase "quantity" = "quantity" := by decide
  have e3 : toLowerCase "price" = "price" := by decide
  have e4 : toLowerCase "date" = "date" := by decide
  apply List.filter_congr
  intro name hname
  simp only [requiredHeaders, List.mem_cons, List.mem_singleton, List.not_mem_nil,
    or_false] at hname
  rcases hname with rfl | rfl | rfl | rfl <;> simp [e1, e2, e3, e4]

theorem parseCSV_of_missing (dateOk : String → Bool) (uuidv4 : Nat → String)
    (typeError : String) (csvData : String)
    (hmissing : ∃ name ∈ requiredHeaders, name ∉ headersOf (firstLine csvData)) :
    parseCSV dateOk uuidv4 typeError csvData
      = Except.error ("CSV parsing error: " ++ ("Missing required headers: " ++
          ", ".intercalate
            (requiredHeaders.filter fun name =>
              decide (name ∉ headersOf (firstLine csvData))))) := by
  obtain ⟨name, hreq, hnot⟩ := hmissing
  have hmem : name ∈ requiredHeaders.filter fun name =>
      decide (name ∉ headersOf (firstLine csvData)) :=
    List.mem_filter.mpr ⟨hreq, by simpa using hnot⟩
  have hpos : 0 < (requiredHeaders.filter fun name =>
      decide (name ∉ headersOf (firstLine csvData))).length :=
    List.length_pos_of_mem hmem
  have hfilter := missingHeaders_eq_filter (headersOf (firstLine csvData))
  unfold headersOf firstLine at hfilter hpos
  simp only [parseCSV, hfilter, gt_iff_lt, hpos, if_true, headersOf, firstLine]

/-- C16: for every input whose first line lacks at least one of the required
column names ticker, quantity, price, date, `parseCSV` fails without returning
candidates, with the message `CSV parsing error: Missing required headers: `
followed by exactly the absent names, in the order ticker, quantity, price,
date, separated by `, `. -/
theorem parseCSV_missing_headers (dateOk : String → Bool) (uuidv4 : Nat → String)
    (typeError : String) (csvData : String)
    (hmissing : ∃ name ∈ requiredHeaders, name ∉ headersOf (firstLine csvData)) :
    parseCSV dateOk uuidv4 typeError csvData
      = Except.error ("CSV parsing error: Missing required headers: " ++
          ", ".intercalate
            (requiredHeaders.filter fun name =>
              decide (name ∉ headersOf (firstLine csvData)))) ∧
    (∀ name, name ∈ (requiredHeaders.filter fun name =>
        decide (name ∉ headersOf (firstLine csvData)))
      ↔ name ∈ requiredHeaders ∧ name ∉ headersOf (firstLine csvData)) := by
  refine ⟨?_, ?_⟩
  · rw [parseCSV_of_missing dateOk uuidv4 typeError csvData hmissing]
    have e : ∀ t : String, "CSV parsing error: " ++ ("Missing required headers: " ++ t)
        = "CSV parsing error: Missing required headers: " ++ t := by
      intro t
      rw [← String.append_assoc]
      rfl
    rw [e]
  · intro name
    simp [List.mem_filter]

/-- C16, at a concrete file: the header `ticker,date` lacks quantity and
price, and the message lists these two names. -/
theorem parseCSV_missing_headers_witness :
    (∃ name ∈ requiredHeaders, name ∉ headersOf (firstLine twoColumnCsv)) ∧
    parseCSV sampleDateOk sampleUuid "TypeError" twoColumnCsv
      = Except.error "CSV parsing error: Missing required headers: quantity, price" := by
  have hmissing : ∃ name ∈ requiredHeaders, name ∉ headersOf (firstLine twoColumnCsv) :=
    ⟨"quantity", by decide, by decide⟩
  refine ⟨hmissing, ?_⟩
  rw [(parseCSV_missing_headers sampleDateOk sampleUuid "TypeError" twoColumnCsv hmissing).1]
  exact congrArg Except.error (by decide)

theorem lowerCsv_row (id : String) :
    parseLine sampleDateOk "TypeError" (headersOf "ticker,quantity,price,date") id
        "AAPL,10,150,2024-01-01"
      = Except.ok ⟨id, "AAPL", JSNum.fin 10, JSNum.fin 150, "2024-01-01", JSNum.fin 0⟩ := by
  have hl := parseLine_eval sampleDateOk "TypeError" (headersOf "ticker,quantity,price,date")
    id "AAPL,10,150,2024-01-01" "AAPL" "10" "150" "2024-01-01"
    (NumLit.decimal false 10 0) (NumLit.decimal false 150 0)
    (by decide) (by decide) (by decide) (by decide) (by decide) (by decide)
    (NumLit.decimal_toNum_ne_nan _ _ _) (NumLit.decimal_toNum_ne_nan _ _ _)
  have hd : sampleDateOk "2024-01-01" = true := by decide
  have hu : toUpperCase "AAPL" = "AAPL" := by decide
  rw [hl]
  simp only [hd, if_true, hu, NumLit.toNum]
  norm_num

theorem lowerCsv_parse :
    parseCSV sampleDateOk sampleUuid "TypeError" lowerCsv
      = Except.ok [⟨"0", "AAPL", JSNum.fin 10, JSNum.fin 150, "2024-01-01", JSNum.fin 0⟩] := by
  have hsplit : strSplit lowerCsv '\n'
      = "ticker,quantity,price,date" :: ["AAPL,10,150,2024-01-01"] := by decide
  have hheader : ∀ name ∈ requiredHeaders, name ∈ headersOf "ticker,quantity,price,date" := by
    decide
  have hid : sampleUuid 0 = "0" := by decide
  rw [parseCSV_of_lines _ _ _ _ _ _ hsplit hheader]
  simp only [parseLines, lowerCsv_row, hid]

/-- C17, on the code: the file `lowerCsv` is parsed into one candidate, and the
same file with the column names capitalised, `Ticker,Quantity,Price,Date`, is
rejected with all four names reported missing. -/
theorem capitalised_header_rejected :
    (headersOf (firstLine capitalisedCsv)).map toLowerCase = headersOf (firstLine lowerCsv) ∧
    dataLines capitalisedCsv = dataLines lowerCsv ∧
    parseCSV sampleDateOk sampleUuid "TypeError" lowerCsv
      = Except.ok [⟨"0", "AAPL", JSNum.fin 10, JSNum.fin 150, "2024-01-01", JSNum.fin 0⟩] ∧
    parseCSV sampleDateOk sampleUuid "TypeError" capitalisedCsv
      = Except.error
          "CSV parsing error: Missing required headers: ticker, quantity, price, date" := by
  refine ⟨by decide, by decide, lowerCsv_parse, ?_⟩
  · have hmissing : ∃ name ∈ requiredHeaders, name ∉ headersOf (firstLine capitalisedCsv) :=
      ⟨"ticker", by decide, by decide⟩
    rw [parseCSV_of_missing sampleDateOk sampleUuid "TypeError" capitalisedCsv hmissing]
    exact congrArg Except.error (by decide)

/-! ## Trailing newline: claim C18 -/

theorem splitAux_append_sep (sep : Char) (l : List Char) :
    ∀ cur, splitAux sep (l ++ [sep]) cur = splitAux sep l cur ++ [[]] := by
  induction l with
  | nil => intro cur; simp [splitAux]
  | cons c cs ih =>
    intro cur
    by_cases h : c = sep
    · simp [splitAux, h, ih]
    · simp [splitAux, h, ih]

theorem strSplit_append_newline (s : String) :
    strSplit (s ++ "\n") '\n' = strSplit s '\n' ++ [""] := by
  have hdata : (s ++ "\n").data = s.data ++ ['\n'] := by
    rw [String.data_append]
  simp only [strSplit, hdata, splitAux_append_sep, List.map_append, List.map_cons, List.map_nil]

theorem empty_line_mem_dataLines (s : String) : "" ∈ dataLines (s ++ "\n") := by
  unfold dataLines
  rw [strSplit_append_newline, strSplit_eq_cons s]
  simp

theorem empty_line_quantity_nan (headers : List String) :
    parseFloatArg (column headers (valuesOf "") "quantity") = JSNum.nan := by
  have hv : valuesOf "" = [""] := by decide
  have he : parseFloat "" = JSNum.nan := parseFloat_of_no_scan (by decide)
  rw [hv]
  unfold column
  cases indexOf headers "quantity" with
  | none => rfl
  | some i =>
    cases i with
    | zero => exact he
    | succ n => rfl

/-- C18, on the code: every input followed by a newline is rejected by
`parseCSV`, for the empty last line has no numeric quantity; so the file
`lowerCsv`, parsed into one candidate, is rejected once a trailing newline is
added, with the message `CSV parsing error: Invalid numeric values in CSV`. -/
theorem trailing_newline_rejected (dateOk : String → Bool) (uuidv4 : Nat → String)
    (typeError : String) (csvData : String) :
    (∃ message, parseCSV dateOk uuidv4 typeError (csvData ++ "\n")
      = Except.error ("CSV parsing error: " ++ message)) ∧
    parseCSV sampleDateOk sampleUuid "TypeError" lowerCsv
      = Except.ok [⟨"0", "AAPL", JSNum.fin 10, JSNum.fin 150, "2024-01-01", JSNum.fin 0⟩] ∧
    parseCSV sampleDateOk sampleUuid "TypeError" (lowerCsv ++ "\n")
      = Except.error "CSV parsing error: Invalid numeric values in CSV" := by
  refine ⟨?_, ?_, ?_⟩
  · exact parseCSV_error_of_line dateOk uuidv4 typeError (csvData ++ "\n") ""
      (empty_line_mem_dataLines csvData)
      (fun id => parseLine_error_of_nan dateOk typeError _ id ""
        (Or.inl (empty_line_quantity_nan _)))
  · exact lowerCsv_parse
  · have hsplit : strSplit (lowerCsv ++ "\n") '\n'
        = "ticker,quantity,price,date" :: ["AAPL,10,150,2024-01-01", ""] := by decide
    have hheader : ∀ name ∈ requiredHeaders,
        name ∈ headersOf "ticker,quantity,price,date" := by decide
    have ht : column (headersOf "ticker,quantity,price,date") ((strSplit "" ',').map strTrim)
        "ticker" = some "" := by decide
    have hq : column (headersOf "ticker,quantity,price,date") ((strSplit "" ',').map strTrim)
        "quantity" = none := by decide
    have hempty : ∀ id, parseLine sampleDateOk "TypeError"
        (headersOf "ticker,quantity,price,date") id ""
        = Except.error "Invalid numeric values in CSV" := by
      intro id
      simp [parseLine, ht, hq, parseFloatArg, JSNum.isNaN]
    rw [parseCSV_of_lines _ _ _ _ _ _ hsplit hheader]
    simp only [parseLines, lowerCsv_row, hempty]
    exact congrArg Except.error (by decide)

/-! ## The store: claims C19 and C20 -/

theorem JSNum.or_eq_storedPrice (s : Holding) :
    JSNum.or s.currentPrice s.purchasePrice = storedPrice s := by
  unfold JSNum.or storedPrice
  cases h : s.currentPrice with
  | fin q =>
    by_cases hq : q = 0
    · simp [JSNum.truthy, hq]
    · simp [JSNum.truthy, hq]
  | nan => simp [JSNum.truthy]
  | pinf => simp [JSNum.truthy]
  | ninf => simp [JSNum.truthy]

theorem calculateTotalValue_eq_sum (stocks : List Holding) :
    calculateTotalValue stocks
      = JSNum.sum (stocks.map fun s => s.quantity * storedPrice s) := by
  rw [JSNum.sum_map]
  unfold calculateTotalValue
  simp only [JSNum.or_eq_storedPrice]

theorem reduce_totalValue (state : PortfolioState) (now : String) (action : StoreAction)
    (h : state.totalValue = calculateTotalValue state.stocks) :
    (reduce state now action).totalValue
      = calculateTotalValue (reduce state now action).stocks := by
  cases action with
  | addStock payload => rfl
  | removeStock payload => rfl
  | updateStock payload =>
    simp only [reduce, updateStock]
    split
    · exact h
    · rfl
  | clearPortfolio => rfl
  | processCSVUploadFulfilled payload => rfl

/-- C19: in every store state reachable from the initial empty state by
`addStock`, `removeStock`, `updateStock`, `clearPortfolio` and
`processCSVUpload.fulfilled`, `totalValue` is the sum over the current stocks
of quantity × (currentPrice, or purchasePrice when currentPrice is 0 or not a
number). -/
theorem reachable_totalValue (state : PortfolioState) (h : Reachable state) :
    state.totalValue = JSNum.sum (state.stocks.map fun s => s.quantity * storedPrice s) := by
  rw [← calculateTotalValue_eq_sum]
  induction h with
  | init => rfl
  | step state now action _ ih => exact reduce_totalValue state now action ih

/-- C19, at a concrete state: the state reached by adding a holding of 10
shares bought at 150 and then removing the id `9` is reachable, and its total
value is 1500. -/
theorem reachable_totalValue_witness :
    Reachable (reduce (reduce initialState "t1"
      (StoreAction.addStock ⟨"1", "AAPL", JSNum.fin 10, JSNum.fin 150, "2024-01-01",
        JSNum.fin 0⟩)) "t2" (StoreAction.removeStock "9")) ∧
    (reduce (reduce initialState "t1"
      (StoreAction.addStock ⟨"1", "AAPL", JSNum.fin 10, JSNum.fin 150, "2024-01-01",
        JSNum.fin 0⟩)) "t2" (StoreAction.removeStock "9")).totalValue = JSNum.fin 1500 := by
  have hr : Reachable (reduce (reduce initialState "t1"
      (StoreAction.addStock ⟨"1", "AAPL", JSNum.fin 10, JSNum.fin 150, "2024-01-01",
        JSNum.fin 0⟩)) "t2" (StoreAction.removeStock "9")) :=
    Reachable.step _ _ _ (Reachable.step _ _ _ Reachable.init)
  refine ⟨hr, ?_⟩
  rw [reachable_totalValue _ hr]
  have hne : ("1" != "9") = true := by decide
  simp [reduce, removeStock, addStock, initialState, hne, storedPrice, JSNum.sum]
  norm_num

/-- C20 fails as stated: adding to the empty store one share bought at 10
whose current price is −1 sets `totalValue` to −1, while the sum of
quantity × (currentPrice if currentPrice > 0, else purchasePrice) is 10. -/
theorem addStock_uses_negative_price :
    (addStock initialState negativePriced "t").totalValue = JSNum.fin (-1) ∧
    JSNum.sum ((addStock initialState negativePriced "t").stocks.map
      fun s => s.quantity * positivePrice s) = JSNum.fin 10 := by
  constructor
  · simp [addStock, initialState, negativePriced, calculateTotalValue, JSNum.or, JSNum.truthy]
  · simp [addStock, initialState, negativePriced, positivePrice, JSNum.sum, JSNum.gt, JSNum.lt,
      JSNum.zero]
    norm_num

/-- C20, amended: `addStock` yields stocks equal to the old list followed by
the holding and sets `totalValue` to the sum over the new list of
quantity × (currentPrice if currentPrice is neither 0 nor `NaN`, else
purchasePrice); this is the sum of quantity × (currentPrice if currentPrice > 0,
else purchasePrice) whenever no holding of the new list has a negative current
price. -/
theorem addStock_eq (state : PortfolioState) (payload : Holding) (now : String) :
    (addStock state payload now).stocks = state.stocks ++ [payload] ∧
    (addStock state payload now).totalValue
      = JSNum.sum ((state.stocks ++ [payload]).map fun s => s.quantity * storedPrice s) ∧
    ((∀ s ∈ state.stocks ++ [payload], JSNum.lt s.currentPrice JSNum.zero = false) →
      (addStock state payload now).totalValue
        = JSNum.sum ((state.stocks ++ [payload]).map fun s => s.quantity * positivePrice s)) := by
  have htotal : (addStock state payload now).totalValue
      = JSNum.sum ((state.stocks ++ [payload]).map fun s => s.quantity * storedPrice s) :=
    calculateTotalValue_eq_sum _
  refine ⟨rfl, htotal, ?_⟩
  intro hpos
  rw [htotal]
  congr 1
  apply List.map_congr_left
  intro s hs
  have h := hpos s hs
  congr 1
  unfold storedPrice positivePrice
  cases hc : s.currentPrice with
  | fin q =>
    rw [hc] at h
    simp only [JSNum.lt, JSNum.zero, decide_eq_false_iff_not, not_lt] at h
    by_cases hq : q = 0
    · simp [JSNum.gt, JSNum.lt, JSNum.zero, hq]
    · have hq' : 0 < q := lt_of_le_of_ne h (Ne.symm hq)
      simp [JSNum.gt, JSNum.lt, JSNum.zero, hq, hq']
  | nan => simp [JSNum.gt, JSNum.lt, JSNum.zero]
  | pinf => simp [JSNum.gt, JSNum.lt, JSNum.zero]
  | ninf => rw [hc] at h; simp [JSNum.lt, JSNum.zero] at h

/-- C20, amended, at a concrete state: adding 10 shares bought at 150, of
current price 0, to the empty store gives a list without negative current
price and the total value 1500. -/
theorem addStock_eq_witness :
    (∀ s ∈ initialState.stocks ++
        [(⟨"1", "AAPL", JSNum.fin 10, JSNum.fin 150, "2024-01-01", JSNum.fin 0⟩ : Holding)],
      JSNum.lt s.currentPrice JSNum.zero = false) ∧
    (addStock initialState ⟨"1", "AAPL", JSNum.fin 10, JSNum.fin 150, "2024-01-01", JSNum.fin 0⟩
      "t").totalValue = JSNum.fin 1500 := by
  have hpos : ∀ s ∈ initialState.stocks ++
      [(⟨"1", "AAPL", JSNum.fin 10, JSNum.fin 150, "2024-01-01", JSNum.fin 0⟩ : Holding)],
      JSNum.lt s.currentPrice JSNum.zero = false := by
    intro s hs
    simp only [initialState, List.nil_append, List.mem_singleton] at hs
    subst hs
    simp [JSNum.lt, JSNum.zero]
  refine ⟨hpos, ?_⟩
  rw [(addStock_eq initialState _ "t").2.2 hpos]
  simp [initialState, positivePrice, JSNum.sum, JSNum.gt, JSNum.lt, JSNum.zero]
  norm_num

/-! ## Lists of characters: splitting and trimming -/

theorem mem_takeWhile_sat (p : Char → Bool) (l : List Char) (x : Char)
    (hx : x ∈ l.takeWhile p) : p x = true :=
  List.mem_takeWhile_imp hx

theorem rdrop_append_of_all {p : Char → Bool} (a b : List Char) (h : ∀ x ∈ b, p x = true) :
    ((a ++ b).reverse.dropWhile p).reverse = (a.reverse.dropWhile p).reverse := by
  rw [List.reverse_append, List.dropWhile_append_of_pos]
  intro x hx
  exact h x (List.mem_reverse.mp hx)

theorem rdrop_append_of_exists {p : Char → Bool} (a b : List Char)
    (h : ∃ x ∈ b, p x = false) :
    ((a ++ b).reverse.dropWhile p).reverse = a ++ (b.reverse.dropWhile p).reverse := by
  have hne : (b.reverse.dropWhile p).isEmpty = false := by
    obtain ⟨x, hx, hpx⟩ := h
    cases hd : b.reverse.dropWhile p with
    | nil =>
      have hall := List.dropWhile_eq_nil_iff.mp hd x (List.mem_reverse.mpr hx)
      rw [hpx] at hall
      exact absurd hall (by decide)
    | cons y ys => rfl
  rw [List.reverse_append, List.dropWhile_append, hne]
  simp

theorem rdrop_decompose (p : Char → Bool) (l : List Char) :
    ∃ w, (∀ x ∈ w, p x = true) ∧ l = (l.reverse.dropWhile p).reverse ++ w := by
  refine ⟨(l.reverse.takeWhile p).reverse, ?_, ?_⟩
  · intro x hx
    exact mem_takeWhile_sat p l.reverse x (List.mem_reverse.mp hx)
  · have h := List.takeWhile_append_dropWhile p l.reverse
    have h2 := congrArg List.reverse h
    rw [List.reverse_append, List.reverse_reverse] at h2
    exact h2.symm

theorem trimChars_append_left (w l : List Char) (hw : ∀ x ∈ w, isJsSpace x = true) :
    trimChars (w ++ l) = trimChars l := by
  unfold trimChars
  rw [List.dropWhile_append_of_pos hw]

theorem trimChars_append_right (l w : List Char) (hw : ∀ x ∈ w, isJsSpace x = true) :
    trimChars (l ++ w) = trimChars l := by
  unfold trimChars
  rw [List.dropWhile_append]
  cases hd : l.dropWhile isJsSpace with
  | nil =>
    have : w.dropWhile isJsSpace = [] := List.dropWhile_eq_nil_iff.mpr hw
    simp [this]
  | cons y ys =>
    simp only [List.isEmpty_cons, Bool.false_eq_true, if_false]
    exact rdrop_append_of_all (y :: ys) w hw

theorem splitAux_cur (sep : Char) (l : List Char) :
    ∀ cur, splitAux sep l cur
      = (cur.reverse ++ l.takeWhile (fun c => c != sep)) :: (splitAux sep l []).tail := by
  induction l with
  | nil => intro cur; simp [splitAux]
  | cons c cs ih =>
    intro cur
    by_cases h : c = sep
    · simp [splitAux, h, List.takeWhile]
    · have hne : (c != sep) = true := by simpa using h
      simp only [splitAux, h, if_false, List.takeWhile, hne]
      rw [ih (c :: cur), ih [c]]
      simp

theorem splitAux_cons_sep (sep : Char) (cs cur : List Char) :
    splitAux sep (sep :: cs) cur = cur.reverse :: splitAux sep cs [] := by
  simp [splitAux]

theorem splitAux_cons_ne (sep c : Char) (cs cur : List Char) (h : c ≠ sep) :
    splitAux sep (c :: cs) cur = splitAux sep cs (c :: cur) := by
  simp [splitAux, h]

theorem splitAux_append_left (sep : Char) (w l : List Char) (hw : sep ∉ w) :
    ∀ cur, splitAux sep (w ++ l) cur = splitAux sep l (w.reverse ++ cur) := by
  induction w with
  | nil => intro cur; rfl
  | cons c cs ih =>
    intro cur
    have hc : c ≠ sep := fun h => hw (h ▸ List.mem_cons_self c cs)
    have hcs : sep ∉ cs := fun h => hw (List.mem_cons_of_mem c h)
    rw [List.cons_append, splitAux_cons_ne sep c _ cur hc, ih hcs (c :: cur)]
    simp

theorem fields_append_left (w l : List Char) (hw : ∀ x ∈ w, isJsSpace x = true) :
    (splitAux ',' (w ++ l) []).map trimChars = (splitAux ',' l []).map trimChars := by
  have hsep : ',' ∉ w := fun h => absurd (hw ',' h) (by decide)
  have h1 := splitAux_cur ',' l (w.reverse ++ [])
  have h2 := splitAux_cur ',' l []
  rw [splitAux_append_left ',' w l hsep [], h1]
  conv_rhs => rw [h2]
  simp only [List.append_nil, List.reverse_reverse, List.map_cons, List.reverse_nil,
    List.nil_append]
  rw [trimChars_append_left w _ hw]

theorem fields_append_right (w : List Char) (hw : ∀ x ∈ w, isJsSpace x = true) (l : List Char) :
    ∀ cur, (splitAux ',' (l ++ w) cur).map trimChars = (splitAux ',' l cur).map trimChars := by
  have hsep : ',' ∉ w := fun h => absurd (hw ',' h) (by decide)
  induction l with
  | nil =>
    intro cur
    have h := splitAux_append_left ',' w [] hsep cur
    rw [List.append_nil] at h
    simp only [List.nil_append, h, splitAux, List.reverse_append, List.reverse_reverse,
      List.map_cons, List.map_nil]
    rw [trimChars_append_right _ w hw]
  | cons c cs ih =>
    intro cur
    by_cases h : c = ','
    · subst h
      rw [List.cons_append, splitAux_cons_sep, splitAux_cons_sep, List.map_cons, List.map_cons,
        ih []]
    · rw [List.cons_append, splitAux_cons_ne ',' c _ cur h, splitAux_cons_ne ',' c _ cur h,
        ih (c :: cur)]

theorem first_line_of_trimmed (cs : List Char)
    (hnon : ∃ x ∈ cs.takeWhile (fun c => c != '\n'), isJsSpace x = false) :
    ∃ w1 w2, (∀ x ∈ w1, isJsSpace x = true) ∧ (∀ x ∈ w2, isJsSpace x = true) ∧
      cs.takeWhile (fun c => c != '\n')
        = w1 ++ (trimChars cs).takeWhile (fun c => c != '\n') ++ w2 := by
  have hcs : cs = cs.takeWhile (fun c => c != '\n') ++ cs.dropWhile (fun c => c != '\n') :=
    (List.takeWhile_append_dropWhile _ cs).symm
  generalize hL : cs.takeWhile (fun c => c != '\n') = L0 at hnon hcs ⊢
  generalize hR : cs.dropWhile (fun c => c != '\n') = rest at hcs
  have hL0 : ∀ x ∈ L0, (x != '\n') = true := by
    intro x hx
    rw [← hL] at hx
    exact mem_takeWhile_sat (fun c => c != '\n') cs x hx
  have hsplit : L0 = L0.takeWhile isJsSpace ++ L0.dropWhile isJsSpace :=
    (List.takeWhile_append_dropWhile _ L0).symm
  have hw1 : ∀ x ∈ L0.takeWhile isJsSpace, isJsSpace x = true :=
    fun x hx => mem_takeWhile_sat isJsSpace L0 x hx
  have hd0 : (L0.dropWhile isJsSpace).isEmpty = false := by
    cases hd : L0.dropWhile isJsSpace with
    | nil =>
      obtain ⟨x, hx, hpx⟩ := hnon
      have hall := List.dropWhile_eq_nil_iff.mp hd x hx
      rw [hpx] at hall
      exact absurd hall (by decide)
    | cons y ys => rfl
  have hd0L : ∀ x ∈ L0.dropWhile isJsSpace, (x != '\n') = true :=
    fun x hx => hL0 x ((List.dropWhile_sublist _).subset hx)
  have htrim : trimChars cs
      = ((L0.dropWhile isJsSpace ++ rest).reverse.dropWhile isJsSpace).reverse := by
    unfold trimChars
    rw [hcs, List.dropWhile_append, hd0]
    simp
  by_cases hrest : ∀ x ∈ rest, isJsSpace x = true
  · rw [htrim, rdrop_append_of_all _ rest hrest]
    obtain ⟨w2, hw2, hdec⟩ := rdrop_decompose isJsSpace (L0.dropWhile isJsSpace)
    have hT : ∀ x ∈ ((L0.dropWhile isJsSpace).reverse.dropWhile isJsSpace).reverse,
        (x != '\n') = true := by
      intro x hx
      apply hd0L x
      rw [hdec]
      exact List.mem_append_left _ hx
    refine ⟨L0.takeWhile isJsSpace, w2, hw1, hw2, ?_⟩
    rw [List.takeWhile_eq_self_iff.mpr hT, List.append_assoc, ← hdec]
    exact hsplit
  · push_neg at hrest
    obtain ⟨x, hx, hpx⟩ := hrest
    have hpx' : isJsSpace x = false := by simpa using hpx
    rw [htrim, rdrop_append_of_exists _ rest ⟨x, hx, hpx'⟩]
    obtain ⟨w, hw, hdec⟩ := rdrop_decompose isJsSpace rest
    have hhead : ∃ t, (rest.reverse.dropWhile isJsSpace).reverse = '\n' :: t := by
      cases hr : (rest.reverse.dropWhile isJsSpace).reverse with
      | nil =>
        rw [hr, List.nil_append] at hdec
        rw [hdec] at hx
        have := hw x hx
        rw [hpx'] at this
        exact absurd this (by decide)
      | cons c t =>
        refine ⟨t, ?_⟩
        rw [hr, List.cons_append] at hdec
        have hc : (c != '\n') = false := by
          have h := List.head_dropWhile_not (fun c => c != '\n') cs
            (by rw [hR, hdec]; exact List.cons_ne_nil _ _)
          simp only [hR, hdec, List.head_cons] at h
          simpa using h
        have : c = '\n' := by simpa using hc
        rw [this]
    obtain ⟨t, ht⟩ := hhead
    refine ⟨L0.takeWhile isJsSpace, [], hw1, by simp, ?_⟩
    rw [ht, List.takeWhile_append_of_pos hd0L]
    simp only [List.takeWhile_cons, bne_self_eq_false, Bool.false_eq_true, if_false,
      List.append_nil]
    exact hsplit

/-! ## The picked file: claim C12 -/

theorem strSplit_head (s : String) (sep : Char) :
    ∃ tl, strSplit s sep = String.mk (s.data.takeWhile (fun c => c != sep)) :: tl := by
  refine ⟨((splitAux sep s.data []).tail).map String.mk, ?_⟩
  unfold strSplit
  rw [splitAux_cur sep s.data []]
  simp

theorem headersOf_firstLine (text : String) :
    headersOf (firstLine text)
      = ((splitAux ',' (text.data.takeWhile (fun c => c != '\n')) []).map trimChars).map
          String.mk := by
  obtain ⟨tl, htl⟩ := strSplit_head text '\n'
  unfold headersOf firstLine
  rw [htl]
  simp only [List.headD_cons, strSplit, List.map_map]
  rfl

theorem headers_of_blank_line (L0 : List Char) (h : ∀ x ∈ L0, isJsSpace x = true) :
    (splitAux ',' L0 []).map trimChars = [[]] := by
  have h1 := fields_append_left L0 [] h
  rw [List.append_nil] at h1
  rw [h1]
  rfl

theorem mem_requiredHeaders_of_subset (hs : List String) (hsub : requiredHeaders ⊆ hs)
    (hlen : hs.length = 4) : ∀ x ∈ hs, x ∈ requiredHeaders := by
  have hnodup : requiredHeaders.Nodup := by decide
  have hperm : requiredHeaders.Perm hs :=
    (List.subperm_of_subset hnodup hsub).perm_of_length_le (by rw [hlen]; decide)
  intro x hx
  exact hperm.mem_iff.mpr hx

theorem isNaNString_of_header (s : String) (h : strTrim s ∈ requiredHeaders) :
    isNaNString s = true := by
  simp only [requiredHeaders, List.mem_cons, List.mem_singleton, List.not_mem_nil,
    or_false] at h
  rcases h with h | h | h | h <;>
  · simp only [isNaNString, h]
    decide

theorem fileLineOk_fields (dateOk : String → Bool) (line : List Char)
    (h : fileLineOk dateOk (String.mk line) = true) :
    ∃ q0 q1 q2 q3, splitAux ',' line [] = [q0, q1, q2, q3] ∧
      isNaNString (String.mk q1) = false := by
  unfold fileLineOk strSplit at h
  rcases hs : splitAux ',' line [] with _ | ⟨q0, _ | ⟨q1, _ | ⟨q2, _ | ⟨q3, _ | ⟨q4, r⟩⟩⟩⟩⟩
  all_goals simp only [hs, List.map_cons, List.map_nil] at h
  all_goals first
    | exact absurd h (by decide)
    | skip
  refine ⟨q0, q1, q2, q3, rfl, ?_⟩
  simp only [Bool.and_eq_true, Bool.not_eq_true'] at h
  exact h.1.1.2

theorem no_headers_of_valid_file (dateOk : String → Bool) (text : String)
    (hvalid : fileIsValid dateOk text = true) :
    ∃ name ∈ requiredHeaders, name ∉ headersOf (firstLine text) := by
  by_contra hcon
  push_neg at hcon
  have hsub : requiredHeaders ⊆ headersOf (firstLine text) := fun x hx => hcon x hx
  rw [headersOf_firstLine] at hsub
  by_cases hnon : ∃ x ∈ text.data.takeWhile (fun c => c != '\n'), isJsSpace x = false
  · obtain ⟨w1, w2, hw1, hw2, hL0⟩ := first_line_of_trimmed text.data hnon
    obtain ⟨tl, htl⟩ := strSplit_head (strTrim text) '\n'
    have hline : fileLineOk dateOk
        (String.mk ((trimChars text.data).takeWhile (fun c => c != '\n'))) = true := by
      unfold fileIsValid at hvalid
      rw [htl, List.all_cons, Bool.and_eq_true] at hvalid
      exact hvalid.1
    obtain ⟨q0, q1, q2, q3, hq, hnum⟩ := fileLineOk_fields dateOk _ hline
    have hfields : (splitAux ',' (text.data.takeWhile (fun c => c != '\n')) []).map trimChars
        = [trimChars q0, trimChars q1, trimChars q2, trimChars q3] := by
      rw [hL0, fields_append_right w2 hw2 _ [], fields_append_left w1 _ hw1, hq]
      rfl
    rw [hfields] at hsub
    have hmem := mem_requiredHeaders_of_subset _ hsub rfl (String.mk (trimChars q1))
      (by simp)
    have hnan := isNaNString_of_header (String.mk q1) hmem
    rw [hnan] at hnum
    exact absurd hnum (by decide)
  · push_neg at hnon
    have hblank := headers_of_blank_line _ (fun x hx => by simpa using hnon x hx)
    rw [hblank] at hsub
    have := hsub (show "ticker" ∈ requiredHeaders by decide)
    exact absurd this (by decide)

/-- C12, on the code: a text that passes the shape check of `handleFilePick`
is never parsed: `parseCSV` rejects it, its first line lacking a required
column name, and `processCSVUpload` leaves the holdings of the store as they
were. -/
theorem picked_file_never_parsed (dateOk : String → Bool) (uuidv4 : Nat → String)
    (typeError now : String) (state : PortfolioState) (text : String)
    (hvalid : fileIsValid dateOk text = true) :
    (∃ message, parseCSV dateOk uuidv4 typeError text
      = Except.error ("CSV parsing error: Missing required headers: " ++ message)) ∧
    (processCSVUpload dateOk uuidv4 typeError now state text).stocks = state.stocks := by
  have hmissing := no_headers_of_valid_file dateOk text hvalid
  have herr := parseCSV_of_missing dateOk uuidv4 typeError text hmissing
  refine ⟨⟨", ".intercalate
    (requiredHeaders.filter fun name => decide (name ∉ headersOf (firstLine text))), ?_⟩, ?_⟩
  · rw [herr, ← String.append_assoc]
    rfl
  · simp only [processCSVUpload, herr, processCSVUploadRejected, processCSVUploadPending]

/-- C12, at the documented file: the one-line file `AAPL,10,175.50,2024-01-15`
passes the shape check, and `parseCSV` rejects it with all four column names
reported missing. -/
theorem picked_file_never_parsed_witness :
    fileIsValid sampleDateOk documentedFile = true ∧
    parseCSV sampleDateOk sampleUuid "TypeError" documentedFile
      = Except.error
          "CSV parsing error: Missing required headers: ticker, quantity, price, date" ∧
    (processCSVUpload sampleDateOk sampleUuid "TypeError" "t" initialState
      documentedFile).stocks = [] := by
  have hvalid : fileIsValid sampleDateOk documentedFile = true := by decide
  refine ⟨hvalid, ?_,
    (picked_file_never_parsed sampleDateOk sampleUuid "TypeError" "t" initialState
      documentedFile hvalid).2⟩
  have hmissing : ∃ name ∈ requiredHeaders, name ∉ headersOf (firstLine documentedFile) :=
    ⟨"ticker", by decide, by decide⟩
  rw [parseCSV_of_missing sampleDateOk sampleUuid "TypeError" documentedFile hmissing]
  exact congrArg Except.error (by decide)

/-! ## Headerless text: claim C11 -/

theorem parseFloat_header_nan (name : String) (h : name ∈ requiredHeaders) :
    parseFloat name = JSNum.nan := by
  simp only [requiredHeaders, List.mem_cons, List.mem_singleton, List.not_mem_nil,
    or_false] at h
  rcases h with rfl | rfl | rfl | rfl
  · exact @parseFloat_of_no_scan "ticker" (by decide)
  · exact @parseFloat_of_no_scan "quantity" (by decide)
  · exact @parseFloat_of_no_scan "price" (by decide)
  · exact @parseFloat_of_no_scan "date" (by decide)

theorem firstLine_mem (text : String) : firstLine text ∈ strSplit text '\n' := by
  rw [strSplit_eq_cons text]
  exact List.mem_cons_self _ _

theorem headerless_missing (text : String) (h : positionalLine (firstLine text)) :
    ∃ name ∈ requiredHeaders, name ∉ headersOf (firstLine text) := by
  obtain ⟨t, q, p, d, hv, hq, _⟩ := h
  by_contra hcon
  push_neg at hcon
  have hsub : requiredHeaders ⊆ headersOf (firstLine text) := fun x hx => hcon x hx
  have hh : headersOf (firstLine text) = [t, q, p, d] := hv
  rw [hh] at hsub
  have hmem := mem_requiredHeaders_of_subset _ hsub rfl q (by simp)
  exact hq (parseFloat_header_nan q hmem)

theorem strSplit_header_append (text : String) :
    strSplit ("ticker,quantity,price,date\n" ++ text) '\n'
      = "ticker,quantity,price,date" :: strSplit text '\n' := by
  have hdata : ("ticker,quantity,price,date\n" ++ text).data
      = "ticker,quantity,price,date".data ++ '\n' :: text.data := by
    rw [String.data_append]
    rfl
  unfold strSplit
  rw [hdata, splitAux_append_left '\n' _ _ (by decide) [], splitAux_cons_sep]
  simp

theorem column_positional (t q p d : String) :
    column requiredHeaders [t, q, p, d] "ticker" = some t ∧
    column requiredHeaders [t, q, p, d] "quantity" = some q ∧
    column requiredHeaders [t, q, p, d] "price" = some p ∧
    column requiredHeaders [t, q, p, d] "date" = some d := by
  have h0 : indexOf requiredHeaders "ticker" = some 0 := by decide
  have h1 : indexOf requiredHeaders "quantity" = some 1 := by decide
  have h2 : indexOf requiredHeaders "price" = some 2 := by decide
  have h3 : indexOf requiredHeaders "date" = some 3 := by decide
  simp [column, h0, h1, h2, h3]

theorem candidateOf_positional (id line t q p d : String) (hv : valuesOf line = [t, q, p, d]) :
    candidateOf requiredHeaders id line
      = ⟨id, toUpperCase t, parseFloat q, parseFloat p, d, JSNum.fin 0⟩ := by
  unfold valuesOf at hv
  obtain ⟨c0, c1, c2, c3⟩ := column_positional t q p d
  simp only [candidateOf, hv, c0, c1, c2, c3, Option.getD_some, parseFloatArg]

theorem goodRow_positional (dateOk : String → Bool) (line : String) (h : positionalLine line)
    (hdate : ∀ d, (valuesOf line).get? 3 = some d → dateOk d = true) :
    goodRow dateOk requiredHeaders line := by
  obtain ⟨t, q, p, d, hv, hq, hp⟩ := h
  have hd : dateOk d = true := hdate d (by rw [hv]; rfl)
  unfold valuesOf at hv
  obtain ⟨c0, c1, c2, c3⟩ := column_positional t q p d
  unfold goodRow
  rw [hv, c0, c1, c2, c3]
  exact ⟨⟨t, rfl⟩, hq, hp, d, rfl, hd⟩

/-- C11 fails as stated: on the headerless text of the two lines
`AAPL,10,150,2024-01-01` and `msft,5,300,2024-02-01`, each supplying the four
positional fields, `parseCSV` returns no candidate: it reads the first line as
a header and reports the four column names missing. -/
theorem parseCSV_rejects_headerless :
    (strSplit headerlessCsv '\n').map valuesOf
      = [["AAPL", "10", "150", "2024-01-01"], ["msft", "5", "300", "2024-02-01"]] ∧
    parseCSV sampleDateOk sampleUuid "TypeError" headerlessCsv
      = Except.error
          "CSV parsing error: Missing required headers: ticker, quantity, price, date" := by
  refine ⟨by decide, ?_⟩
  have hmissing : ∃ name ∈ requiredHeaders, name ∉ headersOf (firstLine headerlessCsv) :=
    ⟨"ticker", by decide, by decide⟩
  rw [parseCSV_of_missing sampleDateOk sampleUuid "TypeError" headerlessCsv hmissing]
  exact congrArg Except.error (by decide)

/-- C11, amended: `parseCSV` has no headerless mode. For every headerless text
whose lines each supply exactly the four positional fields
ticker,quantity,price,date (numeric quantity and price), `parseCSV` returns no
candidate and fails with `CSV parsing error: Missing required headers: ...`;
once the header line `ticker,quantity,price,date` is put before the same lines,
and their dates parse, it returns one candidate per line, in order, with ticker
upper-cased, quantity and purchasePrice parsed as numbers and purchaseDate
kept as the date token. -/
theorem parseCSV_headerless (dateOk : String → Bool) (uuidv4 : Nat → String)
    (typeError : String) (text : String)
    (hlines : ∀ line ∈ strSplit text '\n', positionalLine line) :
    (∃ message, parseCSV dateOk uuidv4 typeError text
      = Except.error ("CSV parsing error: Missing required headers: " ++ message)) ∧
    ((∀ line ∈ strSplit text '\n', ∀ d, (valuesOf line).get? 3 = some d → dateOk d = true) →
      ∃ stocks : List Holding,
        parseCSV dateOk uuidv4 typeError ("ticker,quantity,price,date\n" ++ text)
          = Except.ok stocks ∧
        stocks.length = (strSplit text '\n').length ∧
        ∀ i line t q p d, (strSplit text '\n').get? i = some line →
          valuesOf line = [t, q, p, d] →
          stocks.get? i
            = some ⟨uuidv4 i, toUpperCase t, parseFloat q, parseFloat p, d, JSNum.fin 0⟩) := by
  constructor
  · have hmissing := headerless_missing text (hlines _ (firstLine_mem text))
    refine ⟨", ".intercalate
      (requiredHeaders.filter fun name => decide (name ∉ headersOf (firstLine text))), ?_⟩
    rw [parseCSV_of_missing dateOk uuidv4 typeError text hmissing, ← String.append_assoc]
    rfl
  · intro hdates
    have hheaders : headersOf "ticker,quantity,price,date" = requiredHeaders := by decide
    have hgood : ∀ row ∈ strSplit text '\n',
        goodRow dateOk (headersOf "ticker,quantity,price,date") row := by
      intro row hrow
      rw [hheaders]
      exact goodRow_positional dateOk row (hlines row hrow) (hdates row hrow)
    have hparse := parseCSV_good dateOk uuidv4 typeError
      ("ticker,quantity,price,date\n" ++ text) "ticker,quantity,price,date"
      (strSplit text '\n') (strSplit_header_append text)
      (by rw [hheaders]; exact fun name h => h) hgood
    refine ⟨_, hparse, by simp, ?_⟩
    intro i line t q p d hget hv
    rw [hheaders]
    simp only [List.get?_eq_getElem?, List.getElem?_map, List.getElem?_enum] at hget ⊢
    rw [hget]
    simp only [Option.map_some']
    rw [candidateOf_positional _ line t q p d hv]

/-- C11, amended, at a concrete text: the two lines of `headerlessCsv` are
positional, and `parseCSV` rejects the text. -/
theorem parseCSV_headerless_witness :
    (∀ line ∈ strSplit headerlessCsv '\n', positionalLine line) ∧
    ∃ message, parseCSV sampleDateOk sampleUuid "TypeError" headerlessCsv
      = Except.error ("CSV parsing error: Missing required headers: " ++ message) := by
  have hsplit : strSplit headerlessCsv '\n'
      = ["AAPL,10,150,2024-01-01", "msft,5,300,2024-02-01"] := by decide
  have hlines : ∀ line ∈ strSplit headerlessCsv '\n', positionalLine line := by
    intro line hline
    rw [hsplit] at hline
    simp only [List.mem_cons, List.mem_singleton, List.not_mem_nil, or_false] at hline
    rcases hline with rfl | rfl
    · refine ⟨"AAPL", "10", "150", "2024-01-01", by decide, ?_, ?_⟩
      · have h := @parseFloat_of_scan "10" (NumLit.decimal false 10 0) (by decide)
        simp only [parseFloatArg] at h
        rw [h]
        exact NumLit.decimal_toNum_ne_nan _ _ _
      · have h := @parseFloat_of_scan "150" (NumLit.decimal false 150 0) (by decide)
        simp only [parseFloatArg] at h
        rw [h]
        exact NumLit.decimal_toNum_ne_nan _ _ _
    · refine ⟨"msft", "5", "300", "2024-02-01", by decide, ?_, ?_⟩
      · have h := @parseFloat_of_scan "5" (NumLit.decimal false 5 0) (by decide)
        simp only [parseFloatArg] at h
        rw [h]
        exact NumLit.decimal_toNum_ne_nan _ _ _
      · have h := @parseFloat_of_scan "300" (NumLit.decimal false 300 0) (by decide)
        simp only [parseFloatArg] at h
        rw [h]
        exact NumLit.decimal_toNum_ne_nan _ _ _
  exact ⟨hlines, (parseCSV_headerless sampleDateOk sampleUuid "TypeError" headerlessCsv
    hlines).1⟩

/-! ## The store: claims C21, C22 and C24 -/

theorem reachable_consistent (state : PortfolioState) (h : Reachable state) :
    state.totalValue = calculateTotalValue state.stocks := by
  induction h with
  | init => rfl
  | step state now action _ ih => exact reduce_totalValue state now action ih

theorem filter_id_ne_eq_self (stocks : List Holding) (id : String)
    (habsent : ∀ s ∈ stocks, s.id ≠ id) :
    stocks.filter (fun stock => stock.id != id) = stocks := by
  apply List.filter_eq_self.mpr
  intro s hs
  simpa using habsent s hs

/-- Claim C21, amended: for every store state and every id that matches no
stored holding, `removeStock` leaves the stocks list unchanged and sets
`totalValue` to the total of that unchanged list; this is the `totalValue` the
state had in every state whose `totalValue` is the total of its stocks, and so
in every state the store reaches by its mutations. -/
theorem removeStock_absent (state : PortfolioState) (id now : String)
    (habsent : ∀ s ∈ state.stocks, s.id ≠ id) :
    (removeStock state id now).stocks = state.stocks ∧
    (removeStock state id now).totalValue = calculateTotalValue state.stocks ∧
    (state.totalValue = calculateTotalValue state.stocks →
      (removeStock state id now).totalValue = state.totalValue) ∧
    (Reachable state → (removeStock state id now).totalValue = state.totalValue) := by
  have hstocks : (removeStock state id now).stocks = state.stocks :=
    filter_id_ne_eq_self state.stocks id habsent
  have htotal : (removeStock state id now).totalValue = calculateTotalValue state.stocks := by
    show calculateTotalValue (state.stocks.filter fun stock => stock.id != id) = _
    rw [filter_id_ne_eq_self state.stocks id habsent]
  exact ⟨hstocks, htotal, fun h => htotal.trans h.symm,
    fun h => htotal.trans (reachable_consistent state h).symm⟩

/-- Claim C21, amended, at a concrete state: the store holding the one holding of id `1` is
reachable, the id `9` matches no holding, and removing it leaves the list and
the total value 1500 as they were. -/
theorem removeStock_absent_witness :
    (∀ s ∈ oneHoldingState.stocks, s.id ≠ "9") ∧
    Reachable oneHoldingState ∧
    (removeStock oneHoldingState "9" "t").stocks = oneHoldingState.stocks ∧
    (removeStock oneHoldingState "9" "t").totalValue = oneHoldingState.totalValue := by
  have habsent : ∀ s ∈ oneHoldingState.stocks, s.id ≠ "9" := by
    intro s hs
    simp only [oneHoldingState, addStock, initialState, List.nil_append,
      List.mem_singleton] at hs
    subst hs
    decide
  have hreach : Reachable oneHoldingState :=
    Reachable.step initialState _ (StoreAction.addStock _) Reachable.init
  have h := removeStock_absent oneHoldingState "9" "t" habsent
  exact ⟨habsent, hreach, h.1, h.2.2.2 hreach⟩

/-- C22: for every store state and holding `h`: if a stored holding has id
`h.id`, `updateStock` puts `h` at the position of the first such holding,
leaving the list length and every other entry unchanged, and sets `totalValue`
to the total of the new list; if no stored holding has id `h.id`, `updateStock`
leaves the state as it is. -/
theorem updateStock_spec (state : PortfolioState) (h : Holding) (now : String) :
    ((∀ s ∈ state.stocks, s.id ≠ h.id) → updateStock state h now = state) ∧
    ((∃ s ∈ state.stocks, s.id = h.id) →
      ∃ i, i < state.stocks.length ∧
        (∃ s, state.stocks.get? i = some s ∧ s.id = h.id) ∧
        (∀ j s, j < i → state.stocks.get? j = some s → s.id ≠ h.id) ∧
        (updateStock state h now).stocks = state.stocks.set i h ∧
        (updateStock state h now).stocks.length = state.stocks.length ∧
        (updateStock state h now).stocks.get? i = some h ∧
        (∀ j, j ≠ i → (updateStock state h now).stocks.get? j = state.stocks.get? j) ∧
        (updateStock state h now).totalValue
          = calculateTotalValue (updateStock state h now).stocks) := by
  constructor
  · intro habsent
    have hnone : state.stocks.findIdx? (fun stock => stock.id == h.id) = none := by
      rw [List.findIdx?_eq_none_iff]
      intro s hs
      simpa using habsent s hs
    simp only [updateStock, hnone]
  · intro hex
    obtain ⟨s0, hs0, hid0⟩ := hex
    have hsome := List.findIdx?_eq_some_of_exists
      (p := fun stock : Holding => stock.id == h.id) ⟨s0, hs0, by simpa using hid0⟩
    generalize hi : state.stocks.findIdx (fun stock => stock.id == h.id) = i at hsome
    obtain ⟨hlt, hp, hfirst⟩ := List.findIdx?_eq_some_iff_getElem.mp hsome
    have hupd : (updateStock state h now).stocks = state.stocks.set i h := by
      simp only [updateStock, hsome]
    refine ⟨i, hlt, ⟨state.stocks[i], ?_, by simpa using hp⟩, ?_, hupd, ?_, ?_, ?_, ?_⟩
    · simp [List.getElem?_eq_getElem hlt]
    · intro j s hj hget
      have hjlt : j < state.stocks.length := Nat.lt_trans hj hlt
      have hnp := hfirst j hj
      simp only [List.get?_eq_getElem?, List.getElem?_eq_getElem hjlt,
        Option.some.injEq] at hget
      subst hget
      simpa using hnp
    · rw [hupd, List.length_set]
    · rw [hupd]
      simp [List.getElem?_set, hlt]
    · intro j hj
      rw [hupd]
      simp [List.getElem?_set, Ne.symm hj]
    · simp only [updateStock, hsome]

/-- C24: when `parseCSV` fails on an uploaded text, the pending transition of
`processCSVUpload` only raises the loading flag and the rejected transition
only lowers it and records the error message: stocks, totalValue and
lastUpdated (and dailyChange) are exactly as they were. -/
theorem processCSVUpload_rejected (dateOk : String → Bool) (uuidv4 : Nat → String)
    (typeError now : String) (state : PortfolioState) (csvData message : String)
    (hfail : parseCSV dateOk uuidv4 typeError csvData = Except.error message) :
    processCSVUploadPending state = { state with loading := true } ∧
    processCSVUpload dateOk uuidv4 typeError now state csvData
      = { state with loading := false, error := some message } ∧
    (processCSVUpload dateOk uuidv4 typeError now state csvData).stocks = state.stocks ∧
    (processCSVUpload dateOk uuidv4 typeError now state csvData).totalValue
      = state.totalValue ∧
    (processCSVUpload dateOk uuidv4 typeError now state csvData).lastUpdated
      = state.lastUpdated := by
  have h : processCSVUpload dateOk uuidv4 typeError now state csvData
      = { state with loading := false, error := some message } := by
    simp only [processCSVUpload, hfail, processCSVUploadRejected, processCSVUploadPending]
  refine ⟨rfl, h, ?_, ?_, ?_⟩ <;> rw [h]

/-- C24, at a concrete upload: the documented headerless file makes `parseCSV`
fail, and the store that held one holding still holds it, with the message
recorded. -/
theorem processCSVUpload_rejected_witness :
    parseCSV sampleDateOk sampleUuid "TypeError" documentedFile
      = Except.error
          "CSV parsing error: Missing required headers: ticker, quantity, price, date" ∧
    (processCSVUpload sampleDateOk sampleUuid "TypeError" "t" oneHoldingState
      documentedFile).stocks = oneHoldingState.stocks ∧
    (processCSVUpload sampleDateOk sampleUuid "TypeError" "t" oneHoldingState
      documentedFile).error
      = some "CSV parsing error: Missing required headers: ticker, quantity, price, date" := by
  have hfail : parseCSV sampleDateOk sampleUuid "TypeError" documentedFile
      = Except.error
          "CSV parsing error: Missing required headers: ticker, quantity, price, date" := by
    have hmissing : ∃ name ∈ requiredHeaders, name ∉ headersOf (firstLine documentedFile) :=
      ⟨"ticker", by decide, by decide⟩
    rw [parseCSV_of_missing sampleDateOk sampleUuid "TypeError" documentedFile hmissing]
    exact congrArg Except.error (by decide)
  have h := processCSVUpload_rejected sampleDateOk sampleUuid "TypeError" "t" oneHoldingState
    documentedFile _ hfail
  refine ⟨hfail, h.2.2.1, ?_⟩
  rw [h.2.1]

/-! ## Allocation percentages: claim C29 -/

theorem JSNum.foldl_fin (l : List ℚ) :
    ∀ c : ℚ, (l.map JSNum.fin).foldl (fun acc x => acc + x) (JSNum.fin c)
      = JSNum.fin (c + l.sum) := by
  induction l with
  | nil => intro c; simp
  | cons a l ih =>
    intro c
    simp only [List.map_cons, List.foldl_cons, JSNum.fin_add_fin, ih, List.sum_cons, add_assoc]

theorem JSNum.sum_fin (l : List ℚ) : JSNum.sum (l.map JSNum.fin) = JSNum.fin l.sum := by
  unfold JSNum.sum
  rw [JSNum.foldl_fin l 0, zero_add]

theorem allocation_percentage_list (env : ChartEnv) (stocks : List Holding) (prices : PriceMap)
    (hne : stocks ≠ []) :
    (calculatePortfolioAllocation env stocks prices).map (fun e => e.percentage)
      = stocks.map fun s =>
          ((s.quantity * currentPriceOf prices s)
            / JSNum.sum (stocks.map fun t => t.quantity * currentPriceOf prices t))
            * JSNum.fin 100 := by
  cases stocks with
  | nil => exact absurd rfl hne
  | cons s rest =>
    rw [calculatePortfolioAllocation_cons, List.map_map]
    exact map_enumFrom_snd (fun t : Holding =>
      ((t.quantity * currentPriceOf prices t)
        / JSNum.sum ((s :: rest).map fun u => u.quantity * currentPriceOf prices u))
        * JSNum.fin 100) (s :: rest) 0

/-- C29: for every non-empty list of holdings whose values
quantity × effectivePrice are all positive rationals, the percentages returned
by `calculatePortfolioAllocation` are rationals, each greater than 0 and at
most 100, and their sum is exactly 100. -/
theorem allocation_percentages_sum (env : ChartEnv) (stocks : List Holding) (prices : PriceMap)
    (hne : stocks ≠ [])
    (hpos : ∀ s ∈ stocks, ∃ v : ℚ, 0 < v ∧ s.quantity * currentPriceOf prices s = JSNum.fin v) :
    ∃ ps : List ℚ,
      (calculatePortfolioAllocation env stocks prices).map (fun e => e.percentage)
        = ps.map JSNum.fin ∧
      ps.length = stocks.length ∧
      (∀ p ∈ ps, 0 < p ∧ p ≤ 100) ∧
      ps.sum = 100 ∧
      JSNum.sum ((calculatePortfolioAllocation env stocks prices).map fun e => e.percentage)
        = JSNum.fin 100 := by
  have hval : ∀ s ∈ stocks, s.quantity * currentPriceOf prices s
      = JSNum.fin (s.quantity * currentPriceOf prices s).toRat := by
    intro s hs
    obtain ⟨v, _, hv⟩ := hpos s hs
    rw [hv]
    rfl
  have hvpos : ∀ v ∈ stocks.map (fun s => (s.quantity * currentPriceOf prices s).toRat),
      0 < v := by
    intro v hv
    obtain ⟨s, hs, rfl⟩ := List.mem_map.mp hv
    obtain ⟨w, hw, hvw⟩ := hpos s hs
    rw [hvw]
    exact hw
  have hvals : (stocks.map fun s => s.quantity * currentPriceOf prices s)
      = (stocks.map fun s => (s.quantity * currentPriceOf prices s).toRat).map JSNum.fin := by
    rw [List.map_map]
    exact List.map_congr_left hval
  have hSpos : 0 < (stocks.map fun s => (s.quantity * currentPriceOf prices s).toRat).sum :=
    List.sum_pos _ hvpos (by simpa using hne)
  generalize hS : (stocks.map fun s => (s.quantity * currentPriceOf prices s).toRat).sum = S
    at hSpos
  have hS0 : S ≠ 0 := ne_of_gt hSpos
  have htotal : JSNum.sum (stocks.map fun t => t.quantity * currentPriceOf prices t)
      = JSNum.fin S := by
    rw [hvals, JSNum.sum_fin, hS]
  have hperc : (calculatePortfolioAllocation env stocks prices).map (fun e => e.percentage)
      = (stocks.map fun s => (s.quantity * currentPriceOf prices s).toRat / S * 100).map
          JSNum.fin := by
    rw [allocation_percentage_list env stocks prices hne, htotal, List.map_map]
    apply List.map_congr_left
    intro s hs
    rw [hval s hs, JSNum.fin_div_fin _ hS0, JSNum.fin_mul_fin]
    rfl
  have hsum : (stocks.map fun s => (s.quantity * currentPriceOf prices s).toRat / S * 100).sum
      = 100 := by
    have h1 : (stocks.map fun s => (s.quantity * currentPriceOf prices s).toRat / S * 100)
        = (stocks.map fun s => (s.quantity * currentPriceOf prices s).toRat).map
            (fun v => v * (100 / S)) := by
      rw [List.map_map]
      apply List.map_congr_left
      intro s _
      simp only [Function.comp]
      ring
    rw [h1, List.sum_map_mul_right, List.map_id', hS]
    field_simp
  refine ⟨_, hperc, by simp, ?_, hsum, ?_⟩
  · intro p hp
    obtain ⟨s, hs, rfl⟩ := List.mem_map.mp hp
    have hv : 0 < (s.quantity * currentPriceOf prices s).toRat :=
      hvpos _ (List.mem_map.mpr ⟨s, hs, rfl⟩)
    have hle : (s.quantity * currentPriceOf prices s).toRat ≤ S := by
      rw [← hS]
      exact List.single_le_sum (fun v hv => le_of_lt (hvpos v hv)) _
        (List.mem_map.mpr ⟨s, hs, rfl⟩)
    constructor
    · positivity
    · rw [div_mul_eq_mul_div, div_le_iff₀ hSpos]
      nlinarith
  · rw [hperc, JSNum.sum_fin, hsum]

/-- C29, at a concrete portfolio: 10 AAPL quoted at 175 and 5 MSFT valued at
their purchase price 350 have positive values, and their percentages sum
to 100. -/
theorem allocation_percentages_sum_witness :
    ([⟨"1", "AAPL", JSNum.fin 10, JSNum.fin 150, "2024-01-01", JSNum.fin 0⟩,
      ⟨"2", "MSFT", JSNum.fin 5, JSNum.fin 350, "2024-01-02", JSNum.fin 0⟩] : List Holding) ≠ [] ∧
    (∀ s ∈ ([⟨"1", "AAPL", JSNum.fin 10, JSNum.fin 150, "2024-01-01", JSNum.fin 0⟩,
        ⟨"2", "MSFT", JSNum.fin 5, JSNum.fin 350, "2024-01-02", JSNum.fin 0⟩] : List Holding),
      ∃ v : ℚ, 0 < v ∧
        s.quantity * currentPriceOf (singleQuote "AAPL" (JSNum.fin 175)) s = JSNum.fin v) ∧
    JSNum.sum ((calculatePortfolioAllocation ⟨"#000000", fun _ => "0"⟩
      [⟨"1", "AAPL", JSNum.fin 10, JSNum.fin 150, "2024-01-01", JSNum.fin 0⟩,
       ⟨"2", "MSFT", JSNum.fin 5, JSNum.fin 350, "2024-01-02", JSNum.fin 0⟩]
      (singleQuote "AAPL" (JSNum.fin 175))).map fun e => e.percentage) = JSNum.fin 100 := by
  have hpos : ∀ s ∈ ([⟨"1", "AAPL", JSNum.fin 10, JSNum.fin 150, "2024-01-01", JSNum.fin 0⟩,
      ⟨"2", "MSFT", JSNum.fin 5, JSNum.fin 350, "2024-01-02", JSNum.fin 0⟩] : List Holding),
      ∃ v : ℚ, 0 < v ∧
        s.quantity * currentPriceOf (singleQuote "AAPL" (JSNum.fin 175)) s = JSNum.fin v := by
    intro s hs
    simp only [List.mem_cons, List.mem_singleton, List.not_mem_nil, or_false] at hs
    rcases hs with rfl | rfl
    · refine ⟨1750, by norm_num, ?_⟩
      simp [currentPriceOf, singleQuote, JSNum.or, JSNum.truthy]
      norm_num
    · refine ⟨1750, by norm_num, ?_⟩
      simp [currentPriceOf, singleQuote, JSNum.or, JSNum.truthy]
      norm_num
  obtain ⟨ps, _, _, _, _, h5⟩ := allocation_percentages_sum ⟨"#000000", fun _ => "0"⟩ _
    (singleQuote "AAPL" (JSNum.fin 175)) (by simp) hpos
  exact ⟨by simp, hpos, h5⟩

/-! ## The refresh cycle: claim C28 -/

theorem promiseAll_ok {α : Type} (l : List (Except String α)) :
    ∀ vs, promiseAll l = Except.ok vs → l = vs.map Except.ok := by
  induction l with
  | nil => intro vs h; simp only [promiseAll, Except.ok.injEq] at h; subst h; rfl
  | cons a l ih =>
    intro vs h
    cases a with
    | error e => simp [promiseAll] at h
    | ok v =>
      simp only [promiseAll] at h
      cases hr : promiseAll l with
      | error e => rw [hr] at h; simp at h
      | ok ws =>
        rw [hr] at h
        simp only [Except.ok.injEq] at h
        subst h
        rw [ih ws hr]
        rfl

theorem fillPrices_error_of_none (l : List (Holding × Option Quote)) :
    ∀ m, (∃ stock, (stock, none) ∈ l) → ∃ e, fillPrices l m = Except.error e := by
  induction l with
  | nil => intro m h; obtain ⟨s, hs⟩ := h; exact absurd hs (List.not_mem_nil _)
  | cons a l ih =>
    intro m h
    obtain ⟨stock, price⟩ := a
    cases price with
    | none => exact ⟨_, rfl⟩
    | some p =>
      obtain ⟨s, hs⟩ := h
      have hs' : (s, none) ∈ l := by
        rcases List.mem_cons.mp hs with h1 | h1
        · simp at h1
        · exact h1
      exact ih _ ⟨s, hs'⟩

theorem fillPrices_ok (l : List (Holding × Option Quote)) :
    ∀ m r, fillPrices l m = Except.ok r →
      (∀ k, (m k).isSome = true → (r k).isSome = true) ∧
      (∀ a ∈ l, (r a.1.ticker).isSome = true) := by
  induction l with
  | nil =>
    intro m r h
    simp only [fillPrices, Except.ok.injEq] at h
    subst h
    exact ⟨fun _ hk => hk, fun a ha => absurd ha (List.not_mem_nil _)⟩
  | cons a l ih =>
    intro m r h
    obtain ⟨stock, price⟩ := a
    cases price with
    | none => simp [fillPrices] at h
    | some p =>
      simp only [fillPrices] at h
      obtain ⟨hmono, hall⟩ := ih _ r h
      constructor
      · intro k hk
        apply hmono
        by_cases hkt : k = stock.ticker
        · simp [hkt]
        · simp [hkt, hk]
      · intro a ha
        rcases List.mem_cons.mp ha with rfl | ha
        · apply hmono
          simp
        · exact hall a ha

theorem refreshTry_error_of_failed (stocks : List Holding)
    (fetchStockPrice : Nat → String → Except String (Option Quote))
    (fetchMarketNews : Except String (Option (List NewsItem))) (state : DashboardState)
    (hfail : quoteFetchFailed stocks fetchStockPrice) :
    ∃ message, refreshTry stocks fetchStockPrice fetchMarketNews state
      = Except.error message := by
  obtain ⟨i, stock, hget, hbad⟩ := hfail
  unfold refreshTry
  cases hall : promiseAll (stocks.enum.map fun p => fetchStockPrice p.1 p.2.ticker) with
  | error e => exact ⟨e, rfl⟩
  | ok pricesData =>
    have hmap := promiseAll_ok _ pricesData hall
    have hi : i < stocks.length := by
      rw [List.get?_eq_getElem?] at hget
      exact (List.getElem?_eq_some_iff.mp hget).1
    have hstock : stocks[i] = stock := by
      rw [List.get?_eq_getElem?] at hget
      exact (List.getElem?_eq_some_iff.mp hget).2
    have hlen : pricesData.length = stocks.length := by
      have := congrArg List.length hmap
      simpa using this.symm
    have hpi : i < pricesData.length := by omega
    have hfetch : fetchStockPrice i stock.ticker = Except.ok pricesData[i] := by
      have h1 := congrArg (fun l => l[i]?) hmap
      simp only [List.getElem?_map, List.getElem?_enum, List.getElem?_eq_getElem hi,
        List.getElem?_eq_getElem hpi, Option.map_some', hstock] at h1
      exact Option.some.inj h1
    have hnone : pricesData[i] = none := by
      rcases hbad with ⟨e, he⟩ | hn
      · rw [he] at hfetch
        exact Except.noConfusion hfetch
      · rw [hn] at hfetch
        exact (Except.ok.inj hfetch).symm
    have hmem : (stock, (none : Option Quote)) ∈ stocks.zip pricesData := by
      have hz : (stocks.zip pricesData)[i]? = some (stock, none) := by
        simp [List.getElem?_zip_eq_some, List.getElem?_eq_getElem hi,
          List.getElem?_eq_getElem hpi, hstock, hnone]
      exact List.getElem?_mem hz
    obtain ⟨e, he⟩ := fillPrices_error_of_none _ noQuotes ⟨stock, hmem⟩
    exact ⟨e, by simp only [he]⟩

theorem refreshTry_ok_full (stocks : List Holding)
    (fetchStockPrice : Nat → String → Except String (Option Quote))
    (fetchMarketNews : Except String (Option (List NewsItem))) (state s : DashboardState)
    (h : refreshTry stocks fetchStockPrice fetchMarketNews state = Except.ok s) :
    ∀ stock ∈ stocks, (s.stockPrices stock.ticker).isSome = true := by
  unfold refreshTry at h
  cases hall : promiseAll (stocks.enum.map fun p => fetchStockPrice p.1 p.2.ticker) with
  | error e => rw [hall] at h; simp at h
  | ok pricesData =>
    rw [hall] at h
    simp only at h
    have hmap := promiseAll_ok _ pricesData hall
    have hlen : pricesData.length = stocks.length := by
      have := congrArg List.length hmap
      simpa using this.symm
    cases hfill : fillPrices (stocks.zip pricesData) noQuotes with
    | error e => rw [hfill] at h; simp at h
    | ok newStockPrices =>
      rw [hfill] at h
      simp only at h
      have hfull := (fillPrices_ok _ noQuotes newStockPrices hfill).2
      have hs : s.stockPrices = newStockPrices := by
        cases hnews : fetchMarketNews with
        | error e => rw [hnews] at h; simp at h
        | ok news =>
          rw [hnews] at h
          cases news with
          | none => simp at h
          | some items =>
            simp only at h
            split at h
            · simp at h
            · simp only [Except.ok.injEq] at h
              rw [← h]
      intro stock hstock
      obtain ⟨i, hi, hget⟩ := List.getElem_of_mem hstock
      have hpi : i < pricesData.length := by omega
      have hz : (stocks.zip pricesData)[i]? = some (stock, pricesData[i]) := by
        simp [List.getElem?_zip_eq_some, List.getElem?_eq_getElem hi,
          List.getElem?_eq_getElem hpi, hget]
      rw [hs]
      exact hfull _ (List.getElem?_mem hz)

/-- C28: in `loadPortfolioData`, if the quote fetch of any held ticker fails or
yields no data, the cycle ends with the empty quote map, an empty news list
and one error message, `Failed to load real-time data: ` followed by the
message of the failure; and whatever the fetches give, the quote map at the end
of the cycle is either empty or holds a quote for every held ticker. -/
theorem loadPortfolioData_fail_fast (stocks : List Holding)
    (fetchStockPrice : Nat → String → Except String (Option Quote))
    (fetchMarketNews : Except String (Option (List NewsItem))) (state : DashboardState) :
    (quoteFetchFailed stocks fetchStockPrice →
      (loadPortfolioData stocks fetchStockPrice fetchMarketNews state).stockPrices = noQuotes ∧
      (loadPortfolioData stocks fetchStockPrice fetchMarketNews state).marketNews = [] ∧
      (∃ message, (loadPortfolioData stocks fetchStockPrice fetchMarketNews state).error
        = some ("Failed to load real-time data: " ++ message)) ∧
      (loadPortfolioData stocks fetchStockPrice fetchMarketNews state).loading = false ∧
      (loadPortfolioData stocks fetchStockPrice fetchMarketNews state).refreshing = false) ∧
    ((loadPortfolioData stocks fetchStockPrice fetchMarketNews state).stockPrices = noQuotes ∨
      ∀ stock ∈ stocks,
        ((loadPortfolioData stocks fetchStockPrice fetchMarketNews state).stockPrices
          stock.ticker).isSome = true) := by
  constructor
  · intro hfail
    obtain ⟨message, hm⟩ := refreshTry_error_of_failed stocks fetchStockPrice fetchMarketNews
      { state with loading := true, error := none } hfail
    refine ⟨?_, ?_, ⟨message, ?_⟩, ?_, ?_⟩ <;> simp only [loadPortfolioData, hm]
  · cases hr : refreshTry stocks fetchStockPrice fetchMarketNews
        { state with loading := true, error := none } with
    | error e =>
      left
      simp only [loadPortfolioData, hr]
    | ok s =>
      right
      have hfull := refreshTry_ok_full stocks fetchStockPrice fetchMarketNews _ s hr
      simp only [loadPortfolioData, hr]
      exact hfull

/-- C28, at a concrete cycle: of the fetches for AAPL and MSFT the second
fails; the stale quote of AAPL and the stale news are cleared and the message
of the failure is set. -/
theorem loadPortfolioData_fail_fast_witness :
    quoteFetchFailed
      [⟨"1", "AAPL", JSNum.fin 10, JSNum.fin 150, "2024-01-01", JSNum.fin 0⟩,
       ⟨"2", "MSFT", JSNum.fin 5, JSNum.fin 350, "2024-01-02", JSNum.fin 0⟩] failingFetch ∧
    (loadPortfolioData
      [⟨"1", "AAPL", JSNum.fin 10, JSNum.fin 150, "2024-01-01", JSNum.fin 0⟩,
       ⟨"2", "MSFT", JSNum.fin 5, JSNum.fin 350, "2024-01-02", JSNum.fin 0⟩] failingFetch
      (Except.ok (some [])) staleDashboard).stockPrices = noQuotes ∧
    (loadPortfolioData
      [⟨"1", "AAPL", JSNum.fin 10, JSNum.fin 150, "2024-01-01", JSNum.fin 0⟩,
       ⟨"2", "MSFT", JSNum.fin 5, JSNum.fin 350, "2024-01-02", JSNum.fin 0⟩] failingFetch
      (Except.ok (some [])) staleDashboard).marketNews = [] := by
  have hfail : quoteFetchFailed
      [⟨"1", "AAPL", JSNum.fin 10, JSNum.fin 150, "2024-01-01", JSNum.fin 0⟩,
       ⟨"2", "MSFT", JSNum.fin 5, JSNum.fin 350, "2024-01-02", JSNum.fin 0⟩] failingFetch :=
    ⟨1, ⟨"2", "MSFT", JSNum.fin 5, JSNum.fin 350, "2024-01-02", JSNum.fin 0⟩, rfl,
      Or.inl ⟨"Failed to fetch stock price for " ++ "MSFT" ++ ": Network Error",
        by simp [failingFetch]⟩⟩
  have h := (loadPortfolioData_fail_fast _ failingFetch (Except.ok (some [])) staleDashboard).1
    hfail
  exact ⟨hfail, h.1, h.2.1⟩

/-! ## Persistence: claims C25, C26, C27 -/

theorem decodeHolding_holdingJson (h : Holding)
    (hq : h.quantity.isFinite = true) (hp : h.purchasePrice.isFinite = true)
    (hc : h.currentPrice.isFinite = true) : decodeHolding (holdingJson h) = some h := by
  cases h with
  | mk id ticker quantity purchasePrice purchaseDate currentPrice =>
    obtain ⟨q, rfl⟩ := (JSNum.isFinite_iff _).1 hq
    obtain ⟨p, rfl⟩ := (JSNum.isFinite_iff _).1 hp
    obtain ⟨c, rfl⟩ := (JSNum.isFinite_iff _).1 hc
    rfl

theorem decodeHoldings_map (stocks : List Holding)
    (hfinite : ∀ s ∈ stocks, s.quantity.isFinite = true ∧ s.purchasePrice.isFinite = true ∧
      s.currentPrice.isFinite = true) :
    decodeHoldings (stocks.map holdingJson) = some stocks := by
  induction stocks with
  | nil => rfl
  | cons s rest ih =>
    have hs := hfinite s (List.mem_cons_self _ _)
    have hrest := ih fun t ht => hfinite t (List.mem_cons_of_mem _ ht)
    simp only [List.map_cons, decodeHoldings, decodeHolding_holdingJson s hs.1 hs.2.1 hs.2.2,
      hrest]

theorem loadPortfolioFulfilled_snapshot (state : PortfolioState) (p : SavedPortfolio)
    (hfinite : ∀ s ∈ p.stocks, s.quantity.isFinite = true ∧ s.purchasePrice.isFinite = true ∧
      s.currentPrice.isFinite = true)
    (htotal : p.totalValue.isFinite = true) :
    loadPortfolioFulfilled state (snapshotJson p)
      = some { state with loading := false, stocks := p.stocks, totalValue := p.totalValue,
                          lastUpdated := p.lastUpdated } := by
  cases p with
  | mk stocks totalValue dailyChange lastUpdated =>
    obtain ⟨t, rfl⟩ := (JSNum.isFinite_iff _).1 htotal
    have hstocks : decodeStocks ((snapshotJson ⟨stocks, JSNum.fin t, dailyChange,
        lastUpdated⟩).field "stocks") = some stocks := decodeHoldings_map stocks hfinite
    have htot : decodeNumber ((snapshotJson ⟨stocks, JSNum.fin t, dailyChange,
        lastUpdated⟩).field "totalValue") = some (JSNum.fin t) := rfl
    have hlast : decodeLastUpdated ((snapshotJson ⟨stocks, JSNum.fin t, dailyChange,
        lastUpdated⟩).field "lastUpdated") = some lastUpdated := by
      cases lastUpdated <;> rfl
    simp only [loadPortfolioFulfilled, hstocks, htot, hlast]

theorem loadPortfolioFulfilled_empty (state : PortfolioState) :
    loadPortfolioFulfilled state emptySnapshot
      = some { state with loading := false, stocks := [], totalValue := JSNum.fin 0,
                          lastUpdated := none } := rfl

/-- A stored string that `JSON.parse` reads is handed to the fulfilled case as
the parsed value, whatever the value is; the value `null`, for one, is no
snapshot the reducer can copy from. -/
theorem loadPortfolioPayload_parsed (jsonParse : String → Option Json) (stored : String)
    (value : Json) (hstored : stored ≠ "") (hparse : jsonParse stored = some value) :
    loadPortfolioPayload jsonParse (Except.ok (some stored)) = value ∧
    ∀ state, loadPortfolioFulfilled state Json.null = none := by
  have htruthy : strTruthy stored = true := by simpa [strTruthy] using hstored
  refine ⟨?_, fun _ => rfl⟩
  simp only [loadPortfolioPayload, htruthy, if_true, hparse]

/-- Claim C25, amended: when the read of the key `portfolio` fails, finds nothing,
finds the empty string or finds a string `JSON.parse` throws on, the payload
creator of `loadPortfolio` returns the empty snapshot, so the thunk is
fulfilled (never rejected) and the store is left with `stocks = []`,
`totalValue = 0`, `lastUpdated = null` and `loading = false`. -/
theorem loadPortfolio_never_fails (jsonParse : String → Option Json)
    (read : Except String (Option String)) (state : PortfolioState)
    (hread : (∃ error, read = Except.error error) ∨ read = Except.ok none ∨
      ∃ stored, read = Except.ok (some stored) ∧ (stored = "" ∨ jsonParse stored = none)) :
    loadPortfolioPayload jsonParse read = emptySnapshot ∧
    loadPortfolio jsonParse read state = some (emptyPortfolio state) ∧
    (emptyPortfolio state).stocks = [] ∧
    (emptyPortfolio state).totalValue = JSNum.fin 0 ∧
    (emptyPortfolio state).lastUpdated = none := by
  have hpayload : loadPortfolioPayload jsonParse read = emptySnapshot := by
    rcases hread with ⟨error, rfl⟩ | rfl | ⟨stored, rfl, hbad⟩
    · rfl
    · rfl
    · rcases hbad with rfl | hparse
      · rfl
      · simp only [loadPortfolioPayload, hparse]
        split <;> rfl
  refine ⟨hpayload, ?_, rfl, rfl, rfl⟩
  unfold loadPortfolio
  rw [hpayload, loadPortfolioFulfilled_empty]
  rfl

theorem loadPortfolio_never_fails_witness :
    ((∃ error, (Except.ok (some "\x7bstocks" : Option String) : Except String (Option String))
        = Except.error error) ∨
      (Except.ok (some "\x7bstocks") : Except String (Option String)) = Except.ok none ∨
      ∃ stored, (Except.ok (some "\x7bstocks") : Except String (Option String))
        = Except.ok (some stored) ∧ (stored = "" ∨ sampleJsonParse stored = none)) ∧
    loadPortfolioPayload sampleJsonParse (Except.ok (some "\x7bstocks")) = emptySnapshot ∧
    loadPortfolio sampleJsonParse (Except.ok (some "\x7bstocks")) oneHoldingState
      = some (emptyPortfolio oneHoldingState) ∧
    (emptyPortfolio oneHoldingState).stocks = [] ∧
    (emptyPortfolio oneHoldingState).totalValue = JSNum.fin 0 ∧
    (emptyPortfolio oneHoldingState).lastUpdated = none :=
  ⟨Or.inr (Or.inr ⟨"\x7bstocks", rfl, Or.inr
     ((if_neg (by decide)).trans ((if_neg (by decide)).trans (if_neg (by decide))))⟩),
   loadPortfolio_never_fails sampleJsonParse (Except.ok (some "\x7bstocks")) oneHoldingState
     (Or.inr (Or.inr ⟨"\x7bstocks", rfl, Or.inr
     ((if_neg (by decide)).trans ((if_neg (by decide)).trans (if_neg (by decide))))⟩))⟩

/-- Claim C27: when the write to the key-value store fails with an error,
`savePortfolio` is rejected with that error (which `unwrap()` throws to the
caller), and the state of the slice and the stored string are left as they
were; the submit handler that called it then shows the error and does not
navigate. -/
theorem savePortfolio_write_failure (jsonText : Json → String) (error : String)
    (state : PortfolioState) (kv : Option String) :
    (savePortfolio jsonText (some error) state kv).outcome = Except.error error ∧
    (savePortfolio jsonText (some error) state kv).state = state ∧
    (savePortfolio jsonText (some error) state kv).kv = kv ∧
    ∀ (dateOk : String → Bool) (ids clock : Nat → String) (manualEntries : List ManualEntry)
      (validationErrors : List String),
      validatePortfolioData dateOk (manualStocks ids manualEntries) = [] →
      (handleManualSubmit dateOk ids clock jsonText (some error) manualEntries validationErrors
        state kv).alert
        = some (if strTruthy error then error else "Error saving portfolio data.") ∧
      (handleManualSubmit dateOk ids clock jsonText (some error) manualEntries validationErrors
        state kv).navigated = false := by
  refine ⟨rfl, rfl, rfl, ?_⟩
  intro dateOk ids clock manualEntries validationErrors hvalid
  simp [handleManualSubmit, hvalid, savePortfolio]

/-- Claim C26: for a state whose numbers are finite, when the write succeeds
and `JSON.parse` reads back what `JSON.stringify` wrote for the snapshot,
`savePortfolio` keeps `stocks`, `totalValue` and `lastUpdated`, and a
`loadPortfolio` from the store it wrote, dispatched on any state, is fulfilled
with a state of the same `stocks`, `totalValue` and `lastUpdated`. -/
theorem save_load_round_trip (jsonText : Json → String) (jsonParse : String → Option Json)
    (state : PortfolioState) (kv : Option String)
    (hfinite : ∀ s ∈ state.stocks, s.quantity.isFinite = true ∧
      s.purchasePrice.isFinite = true ∧ s.currentPrice.isFinite = true)
    (htotal : state.totalValue.isFinite = true)
    (htext : jsonText (snapshotJson (portfolioToSave state)) ≠ "")
    (hcodec : jsonParse (jsonText (snapshotJson (portfolioToSave state)))
      = some (snapshotJson (portfolioToSave state))) :
    (savePortfolio jsonText none state kv).outcome = Except.ok (portfolioToSave state) ∧
    (savePortfolio jsonText none state kv).state = state ∧
    ∀ start : PortfolioState, ∃ loaded,
      loadPortfolio jsonParse (Except.ok (savePortfolio jsonText none state kv).kv) start
        = some loaded ∧
      loaded.stocks = state.stocks ∧ loaded.totalValue = state.totalValue ∧
      loaded.lastUpdated = state.lastUpdated := by
  refine ⟨rfl, rfl, ?_⟩
  intro start
  have htruthy : strTruthy (jsonText (snapshotJson (portfolioToSave state))) = true := by
    simpa [strTruthy] using htext
  have hpayload : loadPortfolioPayload jsonParse
      (Except.ok (savePortfolio jsonText none state kv).kv)
      = snapshotJson (portfolioToSave state) := by
    simp only [savePortfolio, loadPortfolioPayload, htruthy, if_true, hcodec]
  unfold loadPortfolio
  rw [hpayload, loadPortfolioFulfilled_snapshot _ _ hfinite htotal]
  exact ⟨_, rfl, rfl, rfl, rfl⟩

theorem oneHoldingState_eq : oneHoldingState
    = { stocks := [⟨"1", "AAPL", JSNum.fin 10, JSNum.fin 150, "2024-01-01", JSNum.fin 0⟩]
        totalValue := JSNum.fin 1500, dailyChange := JSNum.fin 0, loading := false
        error := none, lastUpdated := some "2024-06-01T00:00:00.000Z" } := by
  simp only [oneHoldingState, addStock, initialState, calculateTotalValue, List.nil_append,
    List.foldl_cons, List.foldl_nil, JSNum.or, JSNum.truthy]
  norm_num [JSNum.fin_add_fin, JSNum.fin_mul_fin]

theorem oneHoldingState_finite :
    (∀ s ∈ oneHoldingState.stocks, s.quantity.isFinite = true ∧
      s.purchasePrice.isFinite = true ∧ s.currentPrice.isFinite = true) ∧
    oneHoldingState.totalValue.isFinite = true := by
  rw [oneHoldingState_eq]
  simp [JSNum.isFinite]

theorem save_load_round_trip_witness :
    (∀ s ∈ oneHoldingState.stocks, s.quantity.isFinite = true ∧
      s.purchasePrice.isFinite = true ∧ s.currentPrice.isFinite = true) ∧
    oneHoldingState.totalValue.isFinite = true ∧
    sampleJsonText (snapshotJson (portfolioToSave oneHoldingState)) ≠ "" ∧
    sampleJsonParse (sampleJsonText (snapshotJson (portfolioToSave oneHoldingState)))
      = some (snapshotJson (portfolioToSave oneHoldingState)) ∧
    (savePortfolio sampleJsonText none oneHoldingState none).outcome
      = Except.ok (portfolioToSave oneHoldingState) ∧
    (savePortfolio sampleJsonText none oneHoldingState none).state = oneHoldingState ∧
    ∀ start : PortfolioState, ∃ loaded,
      loadPortfolio sampleJsonParse
        (Except.ok (savePortfolio sampleJsonText none oneHoldingState none).kv) start
        = some loaded ∧
      loaded.stocks = oneHoldingState.stocks ∧
      loaded.totalValue = oneHoldingState.totalValue ∧
      loaded.lastUpdated = oneHoldingState.lastUpdated :=
  ⟨oneHoldingState_finite.1, oneHoldingState_finite.2, by decide, if_pos rfl,
   save_load_round_trip sampleJsonText sampleJsonParse oneHoldingState none
     oneHoldingState_finite.1 oneHoldingState_finite.2 (by decide) (if_pos rfl)⟩

/-! ## Manual entry: claim C23 -/

/-- Claim C23: when `validatePortfolioData` returns a non-empty list for the
stocks made of the entered rows, `handleManualSubmit` dispatches no action (no
`clearPortfolio`, no `addStock`, no `savePortfolio`), leaves the state of the
slice and the stored string as they were, sets the screen's
`validationErrors` to the validator's list itself, and neither navigates nor
shows an alert. -/
theorem handleManualSubmit_blocked (dateOk : String → Bool) (ids clock : Nat → String)
    (jsonText : Json → String) (writeError : Option String)
    (manualEntries : List ManualEntry) (validationErrors : List String)
    (state : PortfolioState) (kv : Option String)
    (herrors : validatePortfolioData dateOk (manualStocks ids manualEntries) ≠ []) :
    (handleManualSubmit dateOk ids clock jsonText writeError manualEntries validationErrors
      state kv).dispatched = [] ∧
    (handleManualSubmit dateOk ids clock jsonText writeError manualEntries validationErrors
      state kv).state = state ∧
    (handleManualSubmit dateOk ids clock jsonText writeError manualEntries validationErrors
      state kv).kv = kv ∧
    (handleManualSubmit dateOk ids clock jsonText writeError manualEntries validationErrors
      state kv).validationErrors
      = validatePortfolioData dateOk (manualStocks ids manualEntries) ∧
    (handleManualSubmit dateOk ids clock jsonText writeError manualEntries validationErrors
      state kv).navigated = false ∧
    (handleManualSubmit dateOk ids clock jsonText writeError manualEntries validationErrors
      state kv).alert = none := by
  have hlen : (validatePortfolioData dateOk (manualStocks ids manualEntries)).length > 0 :=
    List.length_pos.2 herrors
  simp only [handleManualSubmit, hlen, if_true, and_self]

theorem parseFloat_eval {s : String} {lit : NumLit}
    (h : scanDecimal (s.data.dropWhile isJsSpace) = some lit) : parseFloat s = lit.toNum := by
  simp only [parseFloat, h]

theorem badEntries_stocks : manualStocks sampleUuid badEntries
    = [⟨"0", "AAPL", JSNum.fin 10, JSNum.fin 150, "2024-01-01", JSNum.fin 0⟩,
       ⟨"1", "", JSNum.fin (-5), JSNum.fin 300, "2024-02-01", JSNum.fin 0⟩] := by
  have s10 : scanDecimal ("10".data.dropWhile isJsSpace) = some (NumLit.decimal false 10 0) := by
    decide
  have s150 : scanDecimal ("150".data.dropWhile isJsSpace)
      = some (NumLit.decimal false 150 0) := by decide
  have s5 : scanDecimal ("-5".data.dropWhile isJsSpace) = some (NumLit.decimal true 5 0) := by
    decide
  have s300 : scanDecimal ("300".data.dropWhile isJsSpace)
      = some (NumLit.decimal false 300 0) := by decide
  have hu : toUpperCase "aapl" = "AAPL" := by decide
  have hu2 : toUpperCase "" = "" := by decide
  have hid0 : sampleUuid 0 = "0" := by decide
  have hid1 : sampleUuid 1 = "1" := by decide
  simp only [manualStocks, badEntries, List.enum, List.enumFrom, List.map_cons, List.map_nil,
    parseFloat_eval s10, parseFloat_eval s150, parseFloat_eval s5, parseFloat_eval s300,
    NumLit.toNum, hu, hu2, hid0, hid1]
  norm_num

theorem badEntries_errors :
    validatePortfolioData sampleDateOk (manualStocks sampleUuid badEntries)
      = ["Row 2: Missing ticker symbol", "Row 2: Invalid quantity"] := by
  rw [badEntries_stocks, validatePortfolioData_eq_expected]
  have e1 : rowMessage 2 "Missing ticker symbol" = "Row 2: Missing ticker symbol" := by decide
  have e2 : rowMessage 2 "Invalid quantity" = "Row 2: Invalid quantity" := by decide
  have d1 : sampleDateOk "2024-01-01" = true := by decide
  have d2 : sampleDateOk "2024-02-01" = true := by decide
  simp [expectedErrors, List.enumFrom, rowErrors, JSNum.gt, JSNum.lt, JSNum.zero, e1, e2, d1, d2]

theorem handleManualSubmit_blocked_witness :
    validatePortfolioData sampleDateOk (manualStocks sampleUuid badEntries) ≠ [] ∧
    (handleManualSubmit sampleDateOk sampleUuid sampleUuid sampleJsonText none badEntries []
      oneHoldingState (some oneHoldingText)).dispatched = [] ∧
    (handleManualSubmit sampleDateOk sampleUuid sampleUuid sampleJsonText none badEntries []
      oneHoldingState (some oneHoldingText)).state = oneHoldingState ∧
    (handleManualSubmit sampleDateOk sampleUuid sampleUuid sampleJsonText none badEntries []
      oneHoldingState (some oneHoldingText)).kv = some oneHoldingText ∧
    (handleManualSubmit sampleDateOk sampleUuid sampleUuid sampleJsonText none badEntries []
      oneHoldingState (some oneHoldingText)).validationErrors
      = validatePortfolioData sampleDateOk (manualStocks sampleUuid badEntries) ∧
    (handleManualSubmit sampleDateOk sampleUuid sampleUuid sampleJsonText none badEntries []
      oneHoldingState (some oneHoldingText)).navigated = false ∧
    (handleManualSubmit sampleDateOk sampleUuid sampleUuid sampleJsonText none badEntries []
      oneHoldingState (some oneHoldingText)).alert = none :=
  ⟨by rw [badEntries_errors]; exact List.cons_ne_nil _ _,
   handleManualSubmit_blocked sampleDateOk sampleUuid sampleUuid sampleJsonText none badEntries []
     oneHoldingState (some oneHoldingText)
     (by rw [badEntries_errors]; exact List.cons_ne_nil _ _)⟩

/-- The submit of valid rows, for comparison: the handler clears the slice,
adds the stocks in order and saves. -/
theorem handleManualSubmit_valid (dateOk : String → Bool) (ids clock : Nat → String)
    (jsonText : Json → String) (manualEntries : List ManualEntry)
    (validationErrors : List String) (state : PortfolioState) (kv : Option String)
    (hvalid : validatePortfolioData dateOk (manualStocks ids manualEntries) = []) :
    (handleManualSubmit dateOk ids clock jsonText none manualEntries validationErrors
      state kv).dispatched
      = Dispatched.clearPortfolio :: (manualStocks ids manualEntries).map Dispatched.addStock
          ++ [Dispatched.savePortfolio] ∧
    (handleManualSubmit dateOk ids clock jsonText none manualEntries validationErrors
      state kv).navigated = true := by
  simp [handleManualSubmit, hvalid, savePortfolio]

/-! ## The generator: claim C30 -/

theorem generateCSV_nil (numberToString : JSNum → String) :
    generateCSV numberToString [] = "ticker,quantity,price,date" := by
  simp only [generateCSV, List.map_nil, List.append_nil, List.map_cons, arrayJoin,
    Option.getD_some]
  decide

theorem generateCSV_row (numberToString : JSNum → String) (entry : Holding) :
    arrayJoin "," (["ticker", "quantity", "price", "date"].map
      fun header => entry.property numberToString header)
      = generatedRow numberToString entry := by
  have h1 : entry.property numberToString "ticker" = some entry.ticker := by
    simp [Holding.property]
  have h2 : entry.property numberToString "quantity"
      = some (numberToString entry.quantity) := by
    simp [Holding.property]
  have h3 : entry.property numberToString "price" = none := by
    simp [Holding.property]
  have h4 : entry.property numberToString "date" = none := by
    simp [Holding.property]
  simp only [List.map_cons, List.map_nil, h1, h2, h3, h4, arrayJoin, generatedRow,
    Option.getD_some, Option.getD_none]
  apply String.ext
  simp [String.data_append]

theorem arrayJoin_cons (sep : String) (item : Option String) (rest : List (Option String)) :
    arrayJoin sep (item :: rest) = item.getD "" ∨
    ∃ text, arrayJoin sep (item :: rest) = item.getD "" ++ sep ++ text := by
  cases rest with
  | nil => exact Or.inl rfl
  | cons next rest => exact Or.inr ⟨_, rfl⟩

theorem generateCSV_cons (numberToString : JSNum → String) (entry : Holding)
    (rest : List Holding) :
    generateCSV numberToString (entry :: rest)
      = "ticker,quantity,price,date\n" ++ generatedRow numberToString entry ∨
    ∃ text, generateCSV numberToString (entry :: rest)
      = "ticker,quantity,price,date\n" ++ (generatedRow numberToString entry ++ "\n" ++ text) := by
  have h : arrayJoin "," (["ticker", "quantity", "price", "date"].map some)
      = "ticker,quantity,price,date" := by decide
  have hgen : generateCSV numberToString (entry :: rest)
      = "ticker,quantity,price,date" ++ "\n" ++
          arrayJoin "\n" (some (generatedRow numberToString entry) ::
            (rest.map fun entry => arrayJoin "," (["ticker", "quantity", "price", "date"].map
              fun header => entry.property numberToString header)).map some) := by
    unfold generateCSV
    simp only [h, List.map_cons, List.singleton_append, ← generateCSV_row]
    rfl
  rw [hgen]
  have happ : ∀ t : String, "ticker,quantity,price,date" ++ "\n" ++ t
      = "ticker,quantity,price,date\n" ++ t := by
    intro t
    apply String.ext
    simp [String.data_append]
  rcases arrayJoin_cons "\n" (some (generatedRow numberToString entry))
      ((rest.map fun entry => arrayJoin "," (["ticker", "quantity", "price", "date"].map
        fun header => entry.property numberToString header)).map some) with h1 | ⟨text, h1⟩
  · left
    rw [h1, happ]
    rfl
  · right
    refine ⟨text, ?_⟩
    rw [h1, happ]
    rfl

theorem splitAux_no_sep (sep : Char) (w : List Char) (hw : sep ∉ w) :
    ∀ cur, splitAux sep w cur = [(w.reverse ++ cur).reverse] := by
  intro cur
  have h := splitAux_append_left sep w [] hw cur
  rw [List.append_nil] at h
  rw [h]
  rfl

theorem strSplit_line_append (row text : String) (hrow : '\n' ∉ row.data) :
    strSplit (row ++ "\n" ++ text) '\n' = row :: strSplit text '\n' := by
  have hdata : (row ++ "\n" ++ text).data = row.data ++ '\n' :: text.data := by
    simp [String.data_append]
  unfold strSplit
  rw [hdata, splitAux_append_left '\n' _ _ hrow [], splitAux_cons_sep]
  simp

theorem strSplit_line (row : String) (hrow : '\n' ∉ row.data) :
    strSplit row '\n' = [row] := by
  unfold strSplit
  rw [splitAux_no_sep '\n' _ hrow []]
  simp

theorem valuesOf_generatedRow (numberToString : JSNum → String) (entry : Holding)
    (hticker : ',' ∉ entry.ticker.data) (hnumber : ',' ∉ (numberToString entry.quantity).data) :
    valuesOf (generatedRow numberToString entry)
      = [strTrim entry.ticker, strTrim (numberToString entry.quantity), "", ""] := by
  have hdata : (generatedRow numberToString entry).data
      = entry.ticker.data ++ ',' :: ((numberToString entry.quantity).data ++ ',' :: ',' :: []) := by
    simp [generatedRow, String.data_append]
  have ht : strTrim "" = "" := by decide
  unfold valuesOf strSplit
  rw [hdata, splitAux_append_left ',' _ _ hticker [], splitAux_cons_sep,
    splitAux_append_left ',' _ _ hnumber [], splitAux_cons_sep, splitAux_cons_sep]
  simp [splitAux, ht]

theorem parseLine_generatedRow (dateOk : String → Bool) (typeError : String)
    (numberToString : JSNum → String) (entry : Holding) (id : String)
    (hticker : ',' ∉ entry.ticker.data) (hnumber : ',' ∉ (numberToString entry.quantity).data) :
    parseLine dateOk typeError (headersOf "ticker,quantity,price,date") id
      (generatedRow numberToString entry) = Except.error "Invalid numeric values in CSV" := by
  have hheaders : headersOf "ticker,quantity,price,date" = requiredHeaders := by decide
  have hv := valuesOf_generatedRow numberToString entry hticker hnumber
  unfold valuesOf at hv
  obtain ⟨c0, _, c2, _⟩ := column_positional (strTrim entry.ticker)
    (strTrim (numberToString entry.quantity)) "" ""
  have hnan : parseFloatArg (some "") = JSNum.nan := by decide
  simp [parseLine, hheaders, hv, c0, c2, hnan, JSNum.isNaN]

theorem parseCSV_generatedRow (dateOk : String → Bool) (uuidv4 : Nat → String)
    (typeError : String) (numberToString : JSNum → String) (entry : Holding)
    (rows : List String) (csvData : String)
    (hsplit : strSplit csvData '\n'
      = "ticker,quantity,price,date" :: generatedRow numberToString entry :: rows)
    (hticker : ',' ∉ entry.ticker.data) (hnumber : ',' ∉ (numberToString entry.quantity).data) :
    parseCSV dateOk uuidv4 typeError csvData
      = Except.error "CSV parsing error: Invalid numeric values in CSV" := by
  have hheader : ∀ name ∈ requiredHeaders,
      name ∈ headersOf "ticker,quantity,price,date" := by decide
  rw [parseCSV_of_lines _ _ _ _ _ _ hsplit hheader]
  simp only [parseLines, parseLine_generatedRow dateOk typeError numberToString entry _
    hticker hnumber]
  exact congrArg Except.error (by decide)

theorem generatedRow_no_newline (numberToString : JSNum → String) (entry : Holding)
    (hticker : '\n' ∉ entry.ticker.data)
    (hnumber : '\n' ∉ (numberToString entry.quantity).data) :
    '\n' ∉ (generatedRow numberToString entry).data := by
  have hdata : (generatedRow numberToString entry).data
      = entry.ticker.data ++ ',' :: ((numberToString entry.quantity).data ++ ',' :: ',' :: []) := by
    simp [generatedRow, String.data_append]
  rw [hdata]
  simp [hticker, hnumber]

/-- Claim C30, on the code: `generateCSV` reads the properties `price` and
`date` of each entry, which a holding does not have (its properties are
`purchasePrice` and `purchaseDate`), so it writes every row as
`ticker,quantity,,`. For every non-empty list of holdings whose first ticker
and quantity are written without comma and newline, `parseCSV` of the
generated text fails with `CSV parsing error: Invalid numeric values in CSV`:
the round trip holds for the empty list only. -/
theorem parseCSV_generateCSV_fails (dateOk : String → Bool) (uuidv4 : Nat → String)
    (typeError : String) (numberToString : JSNum → String) (entry : Holding)
    (rest : List Holding)
    (hticker : ',' ∉ entry.ticker.data ∧ '\n' ∉ entry.ticker.data)
    (hnumber : ',' ∉ (numberToString entry.quantity).data ∧
      '\n' ∉ (numberToString entry.quantity).data) :
    (∃ text, generateCSV numberToString (entry :: rest)
      = "ticker,quantity,price,date\n" ++ entry.ticker ++ "," ++
          numberToString entry.quantity ++ ",," ++ text) ∧
    parseCSV dateOk uuidv4 typeError (generateCSV numberToString (entry :: rest))
      = Except.error "CSV parsing error: Invalid numeric values in CSV" ∧
    parseCSV dateOk uuidv4 typeError (generateCSV numberToString []) = Except.ok [] := by
  have hrow := generatedRow_no_newline numberToString entry hticker.2 hnumber.2
  refine ⟨?_, ?_, ?_⟩
  · rcases generateCSV_cons numberToString entry rest with h | ⟨text, h⟩
    · refine ⟨"", ?_⟩
      rw [h]
      apply String.ext
      simp [generatedRow, String.data_append]
    · refine ⟨"\n" ++ text, ?_⟩
      rw [h]
      apply String.ext
      simp [generatedRow, String.data_append]
  · rcases generateCSV_cons numberToString entry rest with h | ⟨text, h⟩
    · refine parseCSV_generatedRow dateOk uuidv4 typeError numberToString entry [] _ ?_
        hticker.1 hnumber.1
      rw [h, strSplit_header_append, strSplit_line _ hrow]
    · refine parseCSV_generatedRow dateOk uuidv4 typeError numberToString entry
        (strSplit text '\n') _ ?_ hticker.1 hnumber.1
      rw [h, strSplit_header_append, strSplit_line_append _ _ hrow]
  · rw [generateCSV_nil]
    have hsplit : strSplit "ticker,quantity,price,date" '\n'
        = "ticker,quantity,price,date" :: [] := by decide
    have hheader : ∀ name ∈ requiredHeaders,
        name ∈ headersOf "ticker,quantity,price,date" := by decide
    rw [parseCSV_of_lines _ _ _ _ _ _ hsplit hheader]
    rfl

theorem sampleNumberToString_ten : sampleNumberToString (JSNum.fin 10) = "10" := by
  have hnum : (10 : ℚ).num = 10 := rfl
  have hden : (10 : ℚ).den = 1 := rfl
  simp only [sampleNumberToString, hnum, hden]
  decide

theorem generateCSV_singleton (numberToString : JSNum → String) (entry : Holding) :
    generateCSV numberToString [entry]
      = "ticker,quantity,price,date\n" ++ generatedRow numberToString entry := by
  have h : arrayJoin "," (["ticker", "quantity", "price", "date"].map some)
      = "ticker,quantity,price,date" := by decide
  have hgen : generateCSV numberToString [entry]
      = "ticker,quantity,price,date" ++ "\n" ++ generatedRow numberToString entry := by
    unfold generateCSV
    simp only [h, List.map_cons, List.map_nil, List.singleton_append, ← generateCSV_row]
    rfl
  rw [hgen]
  apply String.ext
  simp [String.data_append]

theorem generateCSV_parsedHoldings :
    generateCSV sampleNumberToString parsedHoldings = "ticker,quantity,price,date\nAAPL,10,," := by
  unfold parsedHoldings
  rw [generateCSV_singleton]
  simp only [generatedRow, sampleNumberToString_ten]
  decide

theorem parseCSV_generateCSV_fails_witness :
    parseCSV sampleDateOk sampleUuid "TypeError" lowerCsv = Except.ok parsedHoldings ∧
    generateCSV sampleNumberToString parsedHoldings = "ticker,quantity,price,date\nAAPL,10,," ∧
    (',' ∉ "AAPL".data ∧ '\n' ∉ "AAPL".data) ∧
    (',' ∉ (sampleNumberToString (JSNum.fin 10)).data ∧
      '\n' ∉ (sampleNumberToString (JSNum.fin 10)).data) ∧
    parseCSV sampleDateOk sampleUuid "TypeError" (generateCSV sampleNumberToString parsedHoldings)
      = Except.error "CSV parsing error: Invalid numeric values in CSV" :=
  ⟨lowerCsv_parse, generateCSV_parsedHoldings, by decide,
   by rw [sampleNumberToString_ten]; decide,
   (parseCSV_generateCSV_fails sampleDateOk sampleUuid "TypeError" sampleNumberToString
     ⟨"0", "AAPL", JSNum.fin 10, JSNum.fin 150, "2024-01-01", JSNum.fin 0⟩ [] (by decide)
     (by rw [sampleNumberToString_ten]; decide)).2.1⟩

theorem goodEntries_valid :
    validatePortfolioData sampleDateOk (manualStocks sampleUuid goodEntries) = [] := by
  have s10 : scanDecimal ("10".data.dropWhile isJsSpace) = some (NumLit.decimal false 10 0) := by
    decide
  have s150 : scanDecimal ("150".data.dropWhile isJsSpace)
      = some (NumLit.decimal false 150 0) := by decide
  have hu : toUpperCase "aapl" = "AAPL" := by decide
  have hid0 : sampleUuid 0 = "0" := by decide
  have hstocks : manualStocks sampleUuid goodEntries
      = [⟨"0", "AAPL", JSNum.fin 10, JSNum.fin 150, "2024-01-01", JSNum.fin 0⟩] := by
    simp only [manualStocks, goodEntries, List.enum, List.enumFrom, List.map_cons, List.map_nil,
      parseFloat_eval s10, parseFloat_eval s150, NumLit.toNum, hu, hid0]
    norm_num
  rw [hstocks, validatePortfolioData_eq_expected]
  have d1 : sampleDateOk "2024-01-01" = true := by decide
  simp [expectedErrors, List.enumFrom, rowErrors, JSNum.gt, JSNum.lt, JSNum.zero, d1]

theorem savePortfolio_write_failure_witness :
    validatePortfolioData sampleDateOk (manualStocks sampleUuid goodEntries) = [] ∧
    (savePortfolio sampleJsonText (some "QuotaExceededError") oneHoldingState none).outcome
      = Except.error "QuotaExceededError" ∧
    (savePortfolio sampleJsonText (some "QuotaExceededError") oneHoldingState none).state
      = oneHoldingState ∧
    (handleManualSubmit sampleDateOk sampleUuid sampleUuid sampleJsonText
      (some "QuotaExceededError") goodEntries [] oneHoldingState none).alert
      = some "QuotaExceededError" ∧
    (handleManualSubmit sampleDateOk sampleUuid sampleUuid sampleJsonText
      (some "QuotaExceededError") goodEntries [] oneHoldingState none).navigated = false :=
  ⟨goodEntries_valid,
   (savePortfolio_write_failure sampleJsonText "QuotaExceededError" oneHoldingState none).1,
   (savePortfolio_write_failure sampleJsonText "QuotaExceededError" oneHoldingState none).2.1,
   ((savePortfolio_write_failure sampleJsonText "QuotaExceededError" oneHoldingState none).2.2.2
     sampleDateOk sampleUuid sampleUuid goodEntries [] goodEntries_valid).1,
   ((savePortfolio_write_failure sampleJsonText "QuotaExceededError" oneHoldingState none).2.2.2
     sampleDateOk sampleUuid sampleUuid goodEntries [] goodEntries_valid).2⟩

/-! ## The ingestion paths: claim C3 -/

theorem addStocks_stocks (clock : Nat → String) (stocks : List Holding) :
    ∀ (k : Nat) (state : PortfolioState),
      (addStocks clock stocks k state).stocks = state.stocks ++ stocks := by
  induction stocks with
  | nil => intro k state; simp [addStocks]
  | cons s rest ih =>
    intro k state
    simp only [addStocks, ih, addStock, List.append_assoc, List.singleton_append]

theorem savePortfolio_stocks (jsonText : Json → String) (writeError : Option String)
    (state : PortfolioState) (kv : Option String) :
    (savePortfolio jsonText writeError state kv).state.stocks = state.stocks := by
  cases writeError <;> rfl

theorem handleManualSubmit_stocks (dateOk : String → Bool) (ids clock : Nat → String)
    (jsonText : Json → String) (writeError : Option String)
    (manualEntries : List ManualEntry) (validationErrors : List String)
    (state : PortfolioState) (kv : Option String)
    (hvalid : validatePortfolioData dateOk (manualStocks ids manualEntries) = []) :
    (handleManualSubmit dateOk ids clock jsonText writeError manualEntries validationErrors
      state kv).state.stocks = manualStocks ids manualEntries := by
  have hst := savePortfolio_stocks jsonText writeError
    (addStocks clock (manualStocks ids manualEntries) 1 (clearPortfolio state (clock 0))) kv
  rw [addStocks_stocks] at hst
  simp only [handleManualSubmit, hvalid, List.length_nil, gt_iff_lt, lt_self_iff_false, if_false]
  split <;> simpa [clearPortfolio] using hst

theorem handleFilePick_stocks (dateOk : String → Bool) (uuidv4 : Nat → String)
    (typeError now : String) (jsonText : Json → String) (writeError : Option String)
    (picked : Picked) (state : PortfolioState) (kv : Option String) :
    (handleFilePick dateOk uuidv4 typeError now jsonText writeError picked state kv).state.stocks
      = state.stocks ∧
    (handleFilePick dateOk uuidv4 typeError now jsonText writeError picked state kv).kv = kv ∧
    (handleFilePick dateOk uuidv4 typeError now jsonText writeError picked state kv).navigated
      = false := by
  cases picked with
  | failed => exact ⟨rfl, rfl, rfl⟩
  | canceled => exact ⟨rfl, rfl, rfl⟩
  | noAsset => exact ⟨rfl, rfl, rfl⟩
  | unreadable => exact ⟨rfl, rfl, rfl⟩
  | file text =>
    cases hvalid : fileIsValid dateOk text with
    | false => simp [handleFilePick, hvalid]
    | true =>
      have hmissing := no_headers_of_valid_file dateOk text hvalid
      have herr := parseCSV_of_missing dateOk uuidv4 typeError text hmissing
      simp [handleFilePick, hvalid, herr, processCSVUpload, processCSVUploadRejected,
        processCSVUploadPending]

theorem valid_of_validate_nil (dateOk : String → Bool) (stocks : List Holding)
    (h : validatePortfolioData dateOk stocks = []) : ∀ s ∈ stocks, s.valid dateOk := by
  rw [validatePortfolioData_eq_expected] at h
  exact (expectedErrors_eq_nil_iff dateOk stocks).1 h

theorem validate_nil_of_valid (dateOk : String → Bool) (stocks : List Holding)
    (h : ∀ s ∈ stocks, s.valid dateOk) : validatePortfolioData dateOk stocks = [] := by
  rw [validatePortfolioData_eq_expected]
  exact (expectedErrors_eq_nil_iff dateOk stocks).2 h

/-- Claim C3: the two ingestion paths of the upload screen leave no invalid
holding in the store. `handleManualSubmit` either dispatches nothing and
leaves the state as it was, or leaves exactly the stocks built from the rows,
for which `validatePortfolioData` is empty, so that each has a non-empty
ticker, quantity > 0, purchasePrice > 0 and a valid purchaseDate; the same
holds after `clearPortfolio` and each `addStock` on the way. `handleFilePick`
never changes the stocks: a text that fails its shape check is not uploaded,
and a text that passes it is rejected by `parseCSV`, so
`processCSVUpload.fulfilled` is not reached. Hence from a store
whose stocks are valid both handlers leave a store whose stocks are valid. -/
theorem ingestion_paths_validated (dateOk : String → Bool) (ids clock uuidv4 : Nat → String)
    (typeError now : String) (jsonText : Json → String) (writeError : Option String)
    (state : PortfolioState) (kv : Option String) :
    (∀ (manualEntries : List ManualEntry) (validationErrors : List String),
      ((handleManualSubmit dateOk ids clock jsonText writeError manualEntries validationErrors
          state kv).dispatched = [] ∧
        (handleManualSubmit dateOk ids clock jsonText writeError manualEntries validationErrors
          state kv).state = state) ∨
      ((handleManualSubmit dateOk ids clock jsonText writeError manualEntries validationErrors
          state kv).state.stocks = manualStocks ids manualEntries ∧
        validatePortfolioData dateOk
          (handleManualSubmit dateOk ids clock jsonText writeError manualEntries validationErrors
            state kv).state.stocks = [] ∧
        ∀ h ∈ (handleManualSubmit dateOk ids clock jsonText writeError manualEntries
            validationErrors state kv).state.stocks,
          h.ticker ≠ "" ∧ JSNum.gt h.quantity JSNum.zero = true ∧
            JSNum.gt h.purchasePrice JSNum.zero = true ∧ isValidDate dateOk h.purchaseDate = true)) ∧
    (∀ (manualEntries : List ManualEntry) (n : Nat),
      validatePortfolioData dateOk (manualStocks ids manualEntries) = [] →
      validatePortfolioData dateOk
        (addStocks clock ((manualStocks ids manualEntries).take n) 1
          (clearPortfolio state (clock 0))).stocks = []) ∧
    (∀ picked : Picked,
      (handleFilePick dateOk uuidv4 typeError now jsonText writeError picked state kv).state.stocks
        = state.stocks) ∧
    (∀ text : String, fileIsValid dateOk text = true →
      ∃ message, parseCSV dateOk uuidv4 typeError text = Except.error message) ∧
    (validatePortfolioData dateOk state.stocks = [] →
      (∀ (manualEntries : List ManualEntry) (validationErrors : List String),
        validatePortfolioData dateOk
          (handleManualSubmit dateOk ids clock jsonText writeError manualEntries validationErrors
            state kv).state.stocks = []) ∧
      (∀ picked : Picked,
        validatePortfolioData dateOk
          (handleFilePick dateOk uuidv4 typeError now jsonText writeError picked
            state kv).state.stocks = [])) := by
  have hmanual : ∀ (manualEntries : List ManualEntry) (validationErrors : List String),
      validatePortfolioData dateOk (manualStocks ids manualEntries) ≠ [] →
      (handleManualSubmit dateOk ids clock jsonText writeError manualEntries validationErrors
          state kv).dispatched = [] ∧
        (handleManualSubmit dateOk ids clock jsonText writeError manualEntries validationErrors
          state kv).state = state := by
    intro manualEntries validationErrors herrors
    have hlen : (validatePortfolioData dateOk (manualStocks ids manualEntries)).length > 0 :=
      List.length_pos.2 herrors
    simp only [handleManualSubmit, hlen, if_true, and_self]
  refine ⟨?_, ?_, ?_, ?_, ?_⟩
  · intro manualEntries validationErrors
    by_cases herrors : validatePortfolioData dateOk (manualStocks ids manualEntries) = []
    · right
      have hst := handleManualSubmit_stocks dateOk ids clock jsonText writeError manualEntries
        validationErrors state kv herrors
      refine ⟨hst, by rw [hst]; exact herrors, ?_⟩
      rw [hst]
      intro h hh
      exact valid_of_validate_nil dateOk _ herrors h hh
    · left
      exact hmanual manualEntries validationErrors herrors
  · intro manualEntries n hvalid
    rw [addStocks_stocks]
    apply validate_nil_of_valid
    intro s hs
    have hs2 : s ∈ (manualStocks ids manualEntries).take n := by
      simpa [clearPortfolio] using hs
    exact valid_of_validate_nil dateOk _ hvalid s (List.mem_of_mem_take hs2)
  · intro picked
    exact (handleFilePick_stocks dateOk uuidv4 typeError now jsonText writeError picked
      state kv).1
  · intro text hvalid
    exact ⟨_, parseCSV_of_missing dateOk uuidv4 typeError text
      (no_headers_of_valid_file dateOk text hvalid)⟩
  · intro hstate
    refine ⟨?_, ?_⟩
    · intro manualEntries validationErrors
      by_cases herrors : validatePortfolioData dateOk (manualStocks ids manualEntries) = []
      · rw [handleManualSubmit_stocks dateOk ids clock jsonText writeError manualEntries
          validationErrors state kv herrors]
        exact herrors
      · rw [(hmanual manualEntries validationErrors herrors).2]
        exact hstate
    · intro picked
      rw [(handleFilePick_stocks dateOk uuidv4 typeError now jsonText writeError picked
        state kv).1]
      exact hstate

theorem negativeQuantityCsv_shape : fileIsValid sampleDateOk negativeQuantityCsv = false := by
  decide

theorem ingestion_paths_validated_witness :
    validatePortfolioData sampleDateOk initialState.stocks = [] ∧
    validatePortfolioData sampleDateOk
      (handleManualSubmit sampleDateOk sampleUuid sampleUuid sampleJsonText
        (some "QuotaExceededError") goodEntries [] initialState none).state.stocks = [] ∧
    validatePortfolioData sampleDateOk
      (handleFilePick sampleDateOk sampleUuid "TypeError" "2024-06-01T00:00:00.000Z"
        sampleJsonText (some "QuotaExceededError") (Picked.file negativeQuantityCsv)
        initialState none).state.stocks = [] ∧
    fileIsValid sampleDateOk documentedFile = true ∧
    validatePortfolioData sampleDateOk
      (handleFilePick sampleDateOk sampleUuid "TypeError" "2024-06-01T00:00:00.000Z"
        sampleJsonText (some "QuotaExceededError") (Picked.file documentedFile)
        initialState none).state.stocks = [] :=
  ⟨rfl,
   ((ingestion_paths_validated sampleDateOk sampleUuid sampleUuid sampleUuid "TypeError"
      "2024-06-01T00:00:00.000Z" sampleJsonText (some "QuotaExceededError") initialState
      none).2.2.2.2 rfl).1 goodEntries [],
   ((ingestion_paths_validated sampleDateOk sampleUuid sampleUuid sampleUuid "TypeError"
      "2024-06-01T00:00:00.000Z" sampleJsonText (some "QuotaExceededError") initialState
      none).2.2.2.2 rfl).2 (Picked.file negativeQuantityCsv),
   by decide,
   ((ingestion_paths_validated sampleDateOk sampleUuid sampleUuid sampleUuid "TypeError"
      "2024-06-01T00:00:00.000Z" sampleJsonText (some "QuotaExceededError") initialState
      none).2.2.2.2 rfl).2 (Picked.file documentedFile)⟩

/-! ## Gainers: claim C5 -/

theorem unpricedHolding_performance :
    unpricedHolding.map (stockPerformanceOf unpricedQuotes)
      = [⟨"A", JSNum.fin 1, JSNum.fin 100, JSNum.fin 110, JSNum.fin 10, JSNum.fin 10,
          JSNum.fin 110⟩,
         ⟨"B", JSNum.fin 1, JSNum.fin 0, JSNum.fin 0, JSNum.nan, JSNum.fin 0, JSNum.fin 0⟩,
         ⟨"C", JSNum.fin 1, JSNum.fin 100, JSNum.fin 120, JSNum.fin 20, JSNum.fin 20,
          JSNum.fin 120⟩] := by
  have h100 : (100 : ℚ) ≠ 0 := by norm_num
  have hdiv : JSNum.fin 0 / JSNum.fin 0 = JSNum.nan := by
    show JSNum.div (JSNum.fin 0) (JSNum.fin 0) = _
    simp [JSNum.div]
  have hmul : JSNum.nan * JSNum.fin 100 = JSNum.nan := rfl
  simp only [unpricedHolding, unpricedQuotes, List.map, stockPerformanceOf, currentPriceOf,
    quotesOf]
  simp [List.lookup, JSNum.or, JSNum.truthy, JSNum.fin_div_fin _ h100, JSNum.fin_sub_fin,
    JSNum.fin_mul_fin, hdiv, hmul]
  norm_num

theorem unboundedHolding_performance :
    (stockPerformanceOf (singleQuote "A" (JSNum.fin 2)) unboundedHolding).gainLoss = JSNum.nan ∧
    unboundedHolding.quantity *
      (currentPriceOf (singleQuote "A" (JSNum.fin 2)) unboundedHolding
        - unboundedHolding.purchasePrice) = JSNum.pinf := by
  have hcp : currentPriceOf (singleQuote "A" (JSNum.fin 2)) unboundedHolding = JSNum.fin 2 := by
    simp [currentPriceOf, singleQuote, unboundedHolding, JSNum.or, JSNum.truthy]
  have h1 : JSNum.pinf * JSNum.fin 2 = JSNum.pinf := by
    show JSNum.mul JSNum.pinf (JSNum.fin 2) = _
    simp [JSNum.mul, JSNum.signedInf]
  have h2 : JSNum.pinf * JSNum.fin 1 = JSNum.pinf := by
    show JSNum.mul JSNum.pinf (JSNum.fin 1) = _
    simp [JSNum.mul, JSNum.signedInf]
  have h3 : JSNum.pinf - JSNum.pinf = JSNum.nan := rfl
  have h4 : JSNum.fin 2 - JSNum.fin 1 = JSNum.fin 1 := by
    rw [JSNum.fin_sub_fin]; norm_num
  refine ⟨?_, ?_⟩
  · simp only [stockPerformanceOf, hcp]
    simp only [unboundedHolding, h1, h2, h3]
  · rw [hcp]
    simp only [unboundedHolding, h4, h2]

/-- Claim C5 fails as stated. Of three holdings A, B, C of which A gained 10
per cent, C gained 20 per cent and B, bought at 0 and without a quote, has the
return `NaN`, the gainers are A then C, in ascending order: a list with a `NaN`
return is not sorted by `sort`. And a holding of quantity `Infinity` bought at
1 and quoted at 2 has the gain `NaN`, not quantity × (effectivePrice −
purchasePrice), which is `Infinity`. -/
theorem gainers_ascending_with_nan_return :
    (unpricedHolding.map (stockPerformanceOf unpricedQuotes)).map
        (fun p => (p.ticker, p.returnPercentage))
      = [("A", JSNum.fin 10), ("B", JSNum.nan), ("C", JSNum.fin 20)] ∧
    (calculatePortfolioGainersLosers unpricedHolding unpricedQuotes).gainers.map
        (fun p => (p.ticker, p.returnPercentage))
      = [("A", JSNum.fin 10), ("C", JSNum.fin 20)] ∧
    JSNum.lt (JSNum.fin 10) (JSNum.fin 20) = true ∧
    (stockPerformanceOf (singleQuote "A" (JSNum.fin 2)) unboundedHolding).gainLoss = JSNum.nan ∧
    unboundedHolding.quantity *
      (currentPriceOf (singleQuote "A" (JSNum.fin 2)) unboundedHolding
        - unboundedHolding.purchasePrice) = JSNum.pinf := by
  have hperf := unpricedHolding_performance
  have hlen : unpricedHolding.length ≠ 0 := by decide
  refine ⟨?_, ?_, ?_, unboundedHolding_performance⟩
  · rw [hperf]
    rfl
  · have hn1 : ∀ x : JSNum, JSNum.nan - x = JSNum.nan := fun x => by cases x <;> rfl
    have hn2 : ∀ q : ℚ, JSNum.fin q - JSNum.nan = JSNum.nan := fun q => rfl
    simp only [calculatePortfolioGainersLosers, hlen, if_false, hperf]
    simp [arraySort, sortInsert, notAfter, JSNum.gt, JSNum.lt, JSNum.zero, hn1, hn2]
  · simp only [JSNum.lt, decide_eq_true_eq]
    norm_num

/-- Claim C5, amended: `calculatePortfolioGainersLosers` computes for each
holding returnPct = (effectivePrice − purchasePrice) / purchasePrice × 100 and
gainLoss = quantity × effectivePrice − quantity × purchasePrice; when no
returnPct is `NaN`, its gainers are the first (at most 3) entries with
returnPct > 0 of the list `sorted` of all these records ordered by descending
returnPct, records of equal returnPct staying in their original order; on the
empty list gainers and losers are both empty. -/
theorem calculatePortfolioGainersLosers_sorted (stocks : List Holding) (prices : PriceMap)
    (hnan : ∀ s ∈ stocks,
      ((currentPriceOf prices s - s.purchasePrice) / s.purchasePrice) * JSNum.fin 100
        ≠ JSNum.nan) :
    (∀ s : Holding,
      (stockPerformanceOf prices s).ticker = s.ticker ∧
      (stockPerformanceOf prices s).returnPercentage
        = ((currentPriceOf prices s - s.purchasePrice) / s.purchasePrice) * JSNum.fin 100 ∧
      (stockPerformanceOf prices s).gainLoss
        = s.quantity * currentPriceOf prices s - s.quantity * s.purchasePrice) ∧
    (∃ sorted : List StockPerformance,
      sorted.Perm (stocks.map (stockPerformanceOf prices)) ∧
      sorted.Pairwise (fun a b => JSNum.le b.returnPercentage a.returnPercentage = true) ∧
      (∀ v, sorted.filter (fun a => decide (a.returnPercentage = v))
        = (stocks.map (stockPerformanceOf prices)).filter
            (fun a => decide (a.returnPercentage = v))) ∧
      (calculatePortfolioGainersLosers stocks prices).gainers
        = (sorted.filter fun a => JSNum.gt a.returnPercentage JSNum.zero).take 3) ∧
    calculatePortfolioGainersLosers [] prices = { gainers := [], losers := [] } := by
  refine ⟨fun s => ⟨rfl, rfl, rfl⟩, ?_, rfl⟩
  refine ⟨arraySort (fun a b => b.returnPercentage - a.returnPercentage)
    (stocks.map (stockPerformanceOf prices)), ?_, ?_, ?_, ?_⟩
  · exact arraySort_perm _ _
  · apply arraySort_sorted (fun a : StockPerformance => a.returnPercentage)
    intro y hy
    obtain ⟨s, hs, rfl⟩ := List.mem_map.mp hy
    exact hnan s hs
  · intro v
    exact arraySort_filter_key (fun a : StockPerformance => a.returnPercentage) v _
  · cases stocks with
    | nil => rfl
    | cons s rest =>
      simp only [calculatePortfolioGainersLosers, List.length_cons, Nat.succ_ne_zero, if_false]

/-- Claim C5, amended, at a concrete portfolio: of two holdings bought at 100,
A quoted at 120 and B at 90, no return is `NaN`, and A alone is a gainer, with
a return of 20 per cent. -/
theorem calculatePortfolioGainersLosers_sorted_witness :
    (∀ s ∈ gainerAndLoser,
      ((currentPriceOf (quotesOf [("A", JSNum.fin 120), ("B", JSNum.fin 90)]) s
          - s.purchasePrice) / s.purchasePrice) * JSNum.fin 100 ≠ JSNum.nan) ∧
    (∃ sorted : List StockPerformance,
      sorted.Perm (gainerAndLoser.map
        (stockPerformanceOf (quotesOf [("A", JSNum.fin 120), ("B", JSNum.fin 90)]))) ∧
      sorted.Pairwise (fun a b => JSNum.le b.returnPercentage a.returnPercentage = true) ∧
      (calculatePortfolioGainersLosers gainerAndLoser
        (quotesOf [("A", JSNum.fin 120), ("B", JSNum.fin 90)])).gainers
        = (sorted.filter fun a => JSNum.gt a.returnPercentage JSNum.zero).take 3) ∧
    (gainerAndLoser.map
      (stockPerformanceOf (quotesOf [("A", JSNum.fin 120), ("B", JSNum.fin 90)]))).map
        (fun p => (p.ticker, p.returnPercentage))
      = [("A", JSNum.fin 20), ("B", JSNum.fin (-10))] := by
  have hnan : ∀ s ∈ gainerAndLoser,
      ((currentPriceOf (quotesOf [("A", JSNum.fin 120), ("B", JSNum.fin 90)]) s
          - s.purchasePrice) / s.purchasePrice) * JSNum.fin 100 ≠ JSNum.nan := by
    intro s hs
    have hmem : stockPerformanceOf (quotesOf [("A", JSNum.fin 120), ("B", JSNum.fin 90)]) s
        ∈ gainerAndLoser.map
          (stockPerformanceOf (quotesOf [("A", JSNum.fin 120), ("B", JSNum.fin 90)])) :=
      List.mem_map_of_mem _ hs
    rw [gainerAndLoser_performance] at hmem
    show (stockPerformanceOf (quotesOf [("A", JSNum.fin 120), ("B", JSNum.fin 90)])
      s).returnPercentage ≠ JSNum.nan
    simp only [List.mem_cons, List.mem_singleton, List.not_mem_nil, or_false] at hmem
    rcases hmem with h | h <;> rw [h] <;> exact fun h => JSNum.noConfusion h
  obtain ⟨sorted, h1, h2, _, h4⟩ := (calculatePortfolioGainersLosers_sorted _ _ hnan).2.1
  refine ⟨hnan, ⟨sorted, h1, h2, h4⟩, ?_⟩
  rw [gainerAndLoser_performance]
  rfl

/-! ## Zero divisors, amended: claim C8 -/

theorem JSNum.div_zero_not_finite (x : JSNum) :
    ((x / JSNum.fin 0) * JSNum.fin 100).isFinite = false := by
  have hp : JSNum.pinf * JSNum.fin 100 = JSNum.pinf := by
    show JSNum.mul JSNum.pinf (JSNum.fin 100) = _
    simp [JSNum.mul, JSNum.signedInf]
  have hn : JSNum.ninf * JSNum.fin 100 = JSNum.ninf := by
    show JSNum.mul JSNum.ninf (JSNum.fin 100) = _
    simp [JSNum.mul, JSNum.signedInf]
  have hnan : JSNum.nan * JSNum.fin 100 = JSNum.nan := rfl
  cases x with
  | fin q =>
    have hdiv : JSNum.fin q / JSNum.fin 0
        = if q = 0 then JSNum.nan else if 0 < q then JSNum.pinf else JSNum.ninf := by
      show JSNum.div (JSNum.fin q) (JSNum.fin 0) = _
      simp [JSNum.div]
    rw [hdiv]
    by_cases h0 : q = 0
    · rw [if_pos h0, hnan]; rfl
    · rw [if_neg h0]
      by_cases hq : 0 < q
      · rw [if_pos hq, hp]; rfl
      · rw [if_neg hq, hn]; rfl
  | nan => rfl
  | pinf =>
    have hdiv : JSNum.pinf / JSNum.fin 0 = JSNum.pinf := by
      show JSNum.div JSNum.pinf (JSNum.fin 0) = _
      simp [JSNum.div]
    rw [hdiv, hp]; rfl
  | ninf =>
    have hdiv : JSNum.ninf / JSNum.fin 0 = JSNum.ninf := by
      show JSNum.div JSNum.ninf (JSNum.fin 0) = _
      simp [JSNum.div]
    rw [hdiv, hn]; rfl

/-- Claim C8, amended: `calculateTotalPortfolioReturn` returns 0 and
`calculatePortfolioAllocation` the empty sequence for the empty list of
holdings, the only guard of the two functions. For a non-empty list no divisor
is tested: when the total cost basis is 0 the total return is `NaN` or an
infinity, not 0, and when the total value is 0 the allocation has one entry per
holding, each with a percentage that is `NaN` or an infinity. -/
theorem valuation_zero_divisor (env : ChartEnv) (stocks : List Holding) (prices : PriceMap)
    (hne : stocks ≠ []) :
    calculateTotalPortfolioReturn [] prices = JSNum.fin 0 ∧
    calculatePortfolioAllocation env [] prices = [] ∧
    (JSNum.sum (stocks.map fun s => s.quantity * s.purchasePrice) = JSNum.fin 0 →
      (calculateTotalPortfolioReturn stocks prices).isFinite = false ∧
      calculateTotalPortfolioReturn stocks prices ≠ JSNum.fin 0) ∧
    (JSNum.sum (stocks.map fun s => s.quantity * currentPriceOf prices s) = JSNum.fin 0 →
      (calculatePortfolioAllocation env stocks prices).length = stocks.length ∧
      calculatePortfolioAllocation env stocks prices ≠ [] ∧
      ∀ e ∈ calculatePortfolioAllocation env stocks prices, e.percentage.isFinite = false) := by
  refine ⟨rfl, rfl, ?_, ?_⟩
  · intro hcost
    have hnf : (calculateTotalPortfolioReturn stocks prices).isFinite = false := by
      rw [calculateTotalPortfolioReturn_formula _ _ hne, hcost]
      exact JSNum.div_zero_not_finite _
    refine ⟨hnf, ?_⟩
    intro h0
    rw [h0] at hnf
    exact absurd hnf (by decide)
  · intro hvalue
    have hperc := allocation_percentage_list env stocks prices hne
    have hlen : (calculatePortfolioAllocation env stocks prices).length = stocks.length := by
      have h := congrArg List.length hperc
      simpa using h
    refine ⟨hlen, ?_, ?_⟩
    · intro hnil
      rw [hnil] at hlen
      exact hne (List.length_eq_zero.mp hlen.symm)
    · intro e he
      have hmem : e.percentage ∈ (calculatePortfolioAllocation env stocks prices).map
          (fun e => e.percentage) := List.mem_map.mpr ⟨e, he, rfl⟩
      rw [hperc, hvalue] at hmem
      obtain ⟨s, _, hs⟩ := List.mem_map.mp hmem
      rw [← hs]
      exact JSNum.div_zero_not_finite _

/-- Claim C8, amended, at a concrete portfolio: a share bought at 150 and a
share sold short at 150 have total cost basis 0 and total value 0; the total
return is `NaN` and the two percentages are `Infinity` and `-Infinity`. -/
theorem valuation_zero_divisor_witness :
    longAndShort ≠ [] ∧
    JSNum.sum (longAndShort.map fun s => s.quantity * s.purchasePrice) = JSNum.fin 0 ∧
    JSNum.sum (longAndShort.map fun s => s.quantity * currentPriceOf noQuotes s) = JSNum.fin 0 ∧
    (calculateTotalPortfolioReturn longAndShort noQuotes).isFinite = false ∧
    (∀ e ∈ calculatePortfolioAllocation ⟨"#000000", fun _ => "0"⟩ longAndShort noQuotes,
      e.percentage.isFinite = false) := by
  have hne : longAndShort ≠ [] := by decide
  have hcost : JSNum.sum (longAndShort.map fun s => s.quantity * s.purchasePrice)
      = JSNum.fin 0 := by
    simp [longAndShort, JSNum.sum, JSNum.fin_mul_fin, JSNum.fin_add_fin]
  have hvalue : JSNum.sum (longAndShort.map fun s => s.quantity * currentPriceOf noQuotes s)
      = JSNum.fin 0 := by
    simp [longAndShort, JSNum.sum, currentPriceOf, noQuotes, JSNum.fin_mul_fin,
      JSNum.fin_add_fin]
  exact ⟨hne, hcost, hvalue,
    ((valuation_zero_divisor ⟨"#000000", fun _ => "0"⟩ longAndShort noQuotes hne).2.2.1
      hcost).1,
    ((valuation_zero_divisor ⟨"#000000", fun _ => "0"⟩ longAndShort noQuotes hne).2.2.2
      hvalue).2.2⟩

/-! ## Removal of an absent id: claim C21 -/

/-- Claim C21 fails as stated: the state with no holding and `totalValue` 5,
which `loadPortfolio.fulfilled` copies from a stored snapshot that says so, has
no holding of id `x`, and `removeStock` of `x` sets its `totalValue` to 0. -/
theorem removeStock_absent_resets_total :
    loadPortfolioFulfilled initialState
        (Json.obj [("stocks", Json.arr []), ("totalValue", Json.num 5),
          ("dailyChange", Json.num 0), ("lastUpdated", Json.null)])
      = some inconsistentState ∧
    (∀ s ∈ inconsistentState.stocks, s.id ≠ "x") ∧
    inconsistentState.totalValue = JSNum.fin 5 ∧
    (removeStock inconsistentState "x" "2024-06-01T00:00:00.000Z").stocks = [] ∧
    (removeStock inconsistentState "x" "2024-06-01T00:00:00.000Z").totalValue = JSNum.fin 0 ∧
    (removeStock inconsistentState "x" "2024-06-01T00:00:00.000Z").totalValue
      ≠ inconsistentState.totalValue := by
  refine ⟨rfl, ?_, rfl, rfl, rfl, ?_⟩
  · intro s hs
    exact absurd hs (List.not_mem_nil s)
  · show JSNum.fin 0 ≠ JSNum.fin 5
    intro h
    have := JSNum.fin.inj h
    norm_num at this

/-! ## Stored values that are no snapshot: claim C25 -/

/-- Claim C25 fails as stated: the stored strings `null` and `{}` are no
snapshots, yet `JSON.parse` reads them, so the payload creator returns the
parsed value, not the empty snapshot, and the fulfilled case, which copies
`stocks` from it, does not leave the empty Portfolio (on `null` the reducer
throws, on `{}` it stores `undefined` as `stocks`). -/
theorem loadPortfolio_parsed_non_snapshot :
    sampleJsonParse "null" = some Json.null ∧
    loadPortfolioPayload sampleJsonParse (Except.ok (some "null")) = Json.null ∧
    loadPortfolio sampleJsonParse (Except.ok (some "null")) initialState = none ∧
    sampleJsonParse "\x7b\x7d" = some (Json.obj []) ∧
    loadPortfolioPayload sampleJsonParse (Except.ok (some "\x7b\x7d")) = Json.obj [] ∧
    (Json.obj []).field "stocks" = none ∧
    loadPortfolio sampleJsonParse (Except.ok (some "\x7b\x7d")) initialState = none ∧
    loadPortfolio sampleJsonParse (Except.ok (some "\x7b\x7d")) initialState
      ≠ some (emptyPortfolio initialState) := by
  have h1 : sampleJsonParse "null" = some Json.null :=
    (if_neg (by decide)).trans (if_pos rfl)
  have h2 : sampleJsonParse "\x7b\x7d" = some (Json.obj []) :=
    (if_neg (by decide)).trans ((if_neg (by decide)).trans (if_pos rfl))
  have ht1 : strTruthy "null" = true := by decide
  have ht2 : strTruthy "\x7b\x7d" = true := by decide
  have p1 : loadPortfolioPayload sampleJsonParse (Except.ok (some "null")) = Json.null := by
    simp only [loadPortfolioPayload, ht1, if_true, h1]
  have p2 : loadPortfolioPayload sampleJsonParse (Except.ok (some "\x7b\x7d"))
      = Json.obj [] := by
    simp only [loadPortfolioPayload, ht2, if_true, h2]
  have l2 : loadPortfolio sampleJsonParse (Except.ok (some "\x7b\x7d")) initialState
      = none := by
    unfold loadPortfolio
    rw [p2]
    rfl
  refine ⟨h1, p1, ?_, h2, p2, rfl, l2, ?_⟩
  · unfold loadPortfolio
    rw [p1]
    rfl
  · rw [l2]
    exact fun h => Option.noConfusion h

end FinPilot
